import Mathlib

/-!
# Kentech delay-box adapters: calibration lookup, calibration-file loading and
# the delay / calibrate property handlers

Shallow embedding of `src/Kentech/Utilities.cpp` (`KUtils`) and of the `OnDelay`,
`OnCalibrate` and `PopulateCalibrationVectors` members of `KHDG`, `KHDG800`, `KSDB`
and `KSE`.

Modelling conventions.

* Values of C++ `int` and `long` are embedded as `Int`.  `int` has 32 bits, `long` and
  `size_t` have 64.  A conversion to `int` is `to_int`, the value modulo `2^32`;
  the arithmetic on `int` in `doCalibration` and in the tuning loop wraps around in
  the same way, as does the `long` arithmetic of the tuner (`to_long`) and the
  `size_t` arithmetic of `NumericGet`.  The extraction of a `long` from a stream
  stores the nearest `long` for a number out of range.  The result of `atoi` is
  taken as the number written in the file: its overflow has no defined behaviour.
* `std::vector<int>` is `List Int`; `std::string` is `List Char`.
* `double` arithmetic in the uncalibrated branch of `doCalibration` is embedded as
  exact rational arithmetic.
* A member function that mutates the object returns the new object next to its
  return code.
* A run ends in an `Outcome`: normal completion, an escaped C++ exception, undefined
  behaviour (no state is defined after it), or exhausted fuel.  The loop of
  `PopulateCalibrationVectors`, which can rewind its stream, and the tuning loop of
  the setup functions need fuel from outside.
* The serial port, the file system and the property table of the device framework
  are parameters of the handlers.
-/

namespace Kentech

/-- A `std::string`, as its sequence of characters. -/
abbrev Str := List Char

/-- A `std::vector<int>`. -/
abbrev Vec := List Int

/-- Return code `DEVICE_OK` of the device framework. -/
def DEVICE_OK : Int := 0

/-- Kentech.h: `#define ERR_OPENFILE_FAILED 112`. -/
def ERR_OPENFILE_FAILED : Int := 112

/-- Kentech.h: `#define ERR_CALIBRATION_FAILED 113`. -/
def ERR_CALIBRATION_FAILED : Int := 113

/-! ## `KUtils::doCalibration` -/

/-- The absolute value of an integer. -/
def iabs (x : Int) : Int := if x < 0 then -x else x

/-- The conversion of a value to `int`, which has 32 bits: the value with the same
residue modulo `2^32` from `-2^31` to `2^31 - 1`.  It is what the conversion of a
`long` to `int` yields, and what `int` arithmetic yields in two's complement when the
exact result is not an `int`; so `a - b` on `int` is `to_int (a - b)` and `std::abs`
on `int` is `to_int (iabs x)`, which maps `-2^31` to itself. -/
def to_int (x : Int) : Int := (x + 2147483648) % 4294967296 - 2147483648

/-- The scan of `std::min_element` after its first element: `i` is the index of the
element under the iterator, `smallest` the index of the smallest element so far and
`sv` its value.  A later element replaces the current one only when strictly
smaller. -/
def min_element_loop : List Int → Nat → Nat → Int → Nat
  | [], _, smallest, _ => smallest
  | x :: rest, i, smallest, sv =>
    if x < sv then min_element_loop rest (i + 1) i x
    else min_element_loop rest (i + 1) smallest sv

/-- The value `std::distance(v.begin(), std::min_element(v.begin(), v.end()))`.
For an empty range `min_element` returns `end()`, at distance `0`. -/
def min_element : List Int → Nat
  | [] => 0
  | x :: rest => min_element_loop rest 1 0 x

/-- The vector `answer` of `doCalibration`: `std::transform` over `in_type_vector`
and the constant vector `lookup_val (in_type_vector.size(), input)`, a
`std::vector<int>` whose elements are the `long input` converted to `int`, with
`std::abs(in_type_vector - lookup_val)` on `int`. -/
def answer (input : Int) (in_type_vector : Vec) : Vec :=
  List.zipWith (fun a b => to_int (iabs (to_int (a - b)))) in_type_vector
    (List.replicate in_type_vector.length (to_int input))

/-- The expression `25 * floor(((double) input)/25 + 0.5)`, as the exact floor of the
exact quotient.  The exact value of `input/25 + 0.5` is at distance at least `1/50`
from every integer, and the two roundings of the `double` arithmetic move it by less
than that as long as `input` has a magnitude below `2^53`, so that `floor` yields the
same integer. -/
def round25 (input : Int) : Int := 25 * Int.floor ((input : ℚ) / 25 + 1 / 2)

/-- The function `KUtils::doCalibration`.  The result is the pair of the value left
in the reference parameter `input`, a `long`, and the returned `int`; `none` stands
for the `std::out_of_range` thrown by `vector::at`.  In the second branch the `long`
keeps the rounded value and `return input` converts it to `int`. -/
def doCalibration (do_calibration : Bool) (input : Int)
    (in_type_vector out_type_vector : Vec) : Option (Int × Int) :=
  if do_calibration then
    let index := min_element (answer input in_type_vector)
    match in_type_vector[index]?, out_type_vector[index]? with
    | some closest_available_input, some corresponding_output =>
      some (closest_available_input, corresponding_output)
    | _, _ => none
  else
    some (round25 input, to_int (round25 input))


/-! ## Outcomes -/

/-- Result of running a piece of the adapter. -/
inductive Outcome (α : Type) where
  /-- Normal completion. -/
  | ok (a : α)
  /-- A C++ exception (`std::out_of_range`) left the function; `a` is the state at
  the throw. -/
  | threw (a : α)
  /-- The C++ behaviour is undefined (`operator[]` past the end of a vector, or
  dereferencing `end()`). -/
  | undef
  /-- The fuel given to a loop ran out. -/
  | timeout
  deriving DecidableEq, Repr

/-! ## Strings -/

/-- The conversion `s.c_str()` read back as a C string: the characters before the
first NUL. -/
def c_str (s : Str) : Str := s.takeWhile (fun c => c != Char.ofNat 0)

/-- The function `KUtils::is_number`: non-empty and made of decimal digits only. -/
def is_number (s : Str) : Bool := !s.isEmpty && s.all Char.isDigit

/-- The function `boost::split(temp, line, boost::is_any_of(","))`: the fields
between commas; an empty line has one empty field. -/
def split : Str → List Str
  | [] => [[]]
  | c :: cs =>
    if c = ',' then [] :: split cs
    else match split cs with
      | [] => [[c]]
      | t :: ts => (c :: t) :: ts

/-- The function `isspace` of the C locale. -/
def isspace (c : Char) : Bool :=
  c = ' ' || (9 ≤ c.toNat && c.toNat ≤ 13)

/-- The digit loop of `atoi`: stops at the first character that is not a digit. -/
def atoi_digits (acc : Int) : Str → Int
  | [] => acc
  | c :: cs => if c.isDigit then atoi_digits (acc * 10 + (c.toNat - 48 : Nat)) cs else acc

/-- The function `atoi`: leading white space, an optional sign, then digits. -/
def atoi (s : Str) : Int :=
  match s.dropWhile isspace with
  | '-' :: cs => - atoi_digits 0 cs
  | '+' :: cs => atoi_digits 0 cs
  | cs => atoi_digits 0 cs

/-- The function `boost::lexical_cast<std::string>` on a `long`: its decimal
representation. -/
def lexical_cast (n : Int) : Str :=
  if n < 0 then '-' :: Nat.toDigits 10 n.natAbs else Nat.toDigits 10 n.natAbs

/-! ## The calibration file as a `std::ifstream` -/

/-- An open `std::ifstream`.  The file is its list of lines; every read of the
adapter is a `getline` and every `seekg` goes to `0` or to a position returned by
`tellg` between two `getline`s, so the get pointer always stands at the start of a
line and stream positions are embedded as line indices (position `0` is the start
of line `0`). -/
structure IfStream where
  /-- The lines of the file, without their newline characters. -/
  lines : List Str
  /-- Whether the last line ends with a newline character. -/
  terminated : Bool
  /-- The line at whose start the get pointer stands. -/
  pos : Nat
  eofbit : Bool
  failbit : Bool
  deriving DecidableEq, Repr

/-- A stream just opened on a file. -/
def IfStream.opened (lines : List Str) (terminated : Bool) : IfStream :=
  { lines := lines, terminated := terminated, pos := 0, eofbit := false, failbit := false }

/-- The call `std::getline(file, line)`.  On a stream that is not `good()` the sentry
sets `failbit` and `line` is left as it was.  Otherwise `line` is erased and the
characters up to the next newline are extracted; reaching the end of the file sets
`eofbit`, and `failbit` too when nothing at all was extracted. -/
def getline (file : IfStream) (line : Str) : IfStream × Str :=
  if file.eofbit || file.failbit then ({ file with failbit := true }, line)
  else
    match file.lines[file.pos]? with
    | none => ({ file with eofbit := true, failbit := true }, [])
    | some l =>
      if file.pos + 1 = file.lines.length && !file.terminated then
        ({ file with pos := file.pos + 1, eofbit := true, failbit := l.isEmpty }, l)
      else ({ file with pos := file.pos + 1 }, l)

/-- The call `file.tellg()`: `-1` on a stream that is not `good()`. -/
def tellg (file : IfStream) : IfStream × Int :=
  if file.eofbit || file.failbit then ({ file with failbit := true }, -1)
  else (file, file.pos)

/-- The call `file.seekg(p)`: clears `eofbit`, then moves the get pointer unless
`fail()`; a negative position sets `failbit`. -/
def seekg (file : IfStream) (p : Int) : IfStream :=
  if file.failbit then { file with eofbit := false }
  else if p < 0 then { file with eofbit := false, failbit := true }
  else { file with eofbit := false, pos := p.toNat }

/-! ## `KUtils::fill_vectors` -/

/-- State of `fill_vectors`: the two vectors, the stream and the locals `pos`,
`line` and `temp`. -/
structure FillState where
  setting : Vec
  real_var : Vec
  file : IfStream
  pos : Int
  line : Str
  temp : List Str
  deriving DecidableEq, Repr

/-- The `while` loop of `fill_vectors`.  Reading `temp[1]` on a line without a
comma is undefined. -/
def fill_loop : Nat → FillState → Outcome FillState
  | 0, _ => .timeout
  | fuel + 1, s =>
    if is_number (c_str (s.temp.headD [])) && !s.file.eofbit then
      match s.temp with
      | t0 :: t1 :: _ =>
        let real_var := s.real_var ++ [atoi (c_str t0)]
        let setting := s.setting ++ [atoi (c_str t1)]
        let (file, pos) := tellg s.file
        let (file, line) := getline file s.line
        fill_loop fuel
          { setting := setting, real_var := real_var, file := file, pos := pos,
            line := line, temp := split line }
      | _ => .undef
    else .ok s

/-- The function `KUtils::fill_vectors`: the returned `pos` with the two vectors and
the stream as it leaves them.  The loop reads a line per turn, so it is given one
turn per line of the file and two more. -/
def fill_vectors (setting real_var : Vec) (file : IfStream) :
    Outcome (Int × Vec × Vec × IfStream) :=
  let (file, line) := getline file []
  match fill_loop (file.lines.length + 2)
      { setting := setting, real_var := real_var, file := file, pos := 0,
        line := line, temp := split line } with
  | .ok s => .ok (s.pos, s.setting, s.real_var, s.file)
  | .threw s => .threw (s.pos, s.setting, s.real_var, s.file)
  | .undef => .undef
  | .timeout => .timeout

/-! ## `PopulateCalibrationVectors` of `KHDG`, `KHDG800` and `KSDB` -/

/-- The loop `while (getline(file,line))` of `PopulateCalibrationVectors`, identical
in `KHDG`, `KHDG800` and `KSDB`; the result is the pair `(delay_settings,
real_delays)`.  The loop may rewind the stream, so it runs on fuel. -/
def populate_loop : Nat → Vec → Vec → IfStream → Str → Outcome (Vec × Vec)
  | 0, _, _, _, _ => .timeout
  | fuel + 1, delay_settings, real_delays, file, line =>
    let (file, line) := getline file line
    if file.failbit then .ok (delay_settings, real_delays)
    else
      let temp := split line
      if c_str (temp.headD []) = "Delay (ps)".toList then
        match fill_vectors delay_settings real_delays file with
        | .ok (fpos, delay_settings, real_delays, file) =>
          populate_loop fuel delay_settings real_delays (seekg file fpos) line
        | .threw _ => .undef
        | .undef => .undef
        | .timeout => .timeout
      else populate_loop fuel delay_settings real_delays file line

/-- A text file: its lines, and whether the last of them ends with a newline. -/
structure TextFile where
  lines : List Str
  terminated : Bool
  deriving DecidableEq, Repr

/-- The file system: what `std::ifstream file(path)` finds under a path, `none` when
the file cannot be opened. -/
abbrev FileSystem := Str → Option TextFile

/-- The function `PopulateCalibrationVectors` of `KHDG`, `KHDG800` and `KSDB`; the
result is the return code with the vectors `(delay_settings, real_delays)`. -/
def PopulateCalibrationVectors (fuel : Nat) (fs : FileSystem) (path : Str)
    (delay_settings real_delays : Vec) : Outcome (Int × Vec × Vec) :=
  match fs (c_str path) with
  | none => .ok (ERR_OPENFILE_FAILED, delay_settings, real_delays)
  | some f =>
    match populate_loop fuel delay_settings real_delays
        (IfStream.opened f.lines f.terminated) [] with
    | .ok (ds, rd) => .ok (DEVICE_OK, ds, rd)
    | .threw _ => .undef
    | .undef => .undef
    | .timeout => .timeout

/-! ## The serial port -/

/-- An operation of the device framework on the serial port. -/
inductive PortOp where
  | purge
  | send (command term : Str)
  | receive (term : Str)
  deriving DecidableEq, Repr

/-- The serial port as the adapter sees it: `reply n` is the return code of the
`n`-th port operation and, for a receive, the line it delivers; `log` lists the
operations performed so far, the latest last. -/
structure Port where
  reply : Nat → Int × Str
  log : List PortOp

/-- The framework call `SendSerialCommand(port, command, term)`. -/
def SendSerialCommand (p : Port) (command term : Str) : Int × Port :=
  ((p.reply p.log.length).1, { p with log := p.log ++ [PortOp.send command term] })

/-- The framework call `GetSerialAnswer(port, term, answer)`; `answer` is assigned
only when the call succeeds. -/
def GetSerialAnswer (p : Port) (term answer : Str) : Int × Str × Port :=
  let r := p.reply p.log.length
  (r.1, if r.1 = DEVICE_OK then r.2 else answer,
    { p with log := p.log ++ [PortOp.receive term] })

/-- The framework call `PurgeComPort(port)`. -/
def PurgeComPort (p : Port) : Int × Port :=
  ((p.reply p.log.length).1, { p with log := p.log ++ [PortOp.purge] })

/-- The data members of `KUtils`. -/
structure KUtils where
  port_ : Str
  termstr_ : Str
  getcmdstr_ : Str
  setcmdstr_ : Str
  deriving DecidableEq, Repr

/-- The function `KUtils::NumericSet`. -/
def NumericSet (k : KUtils) (cmd : Str) (val : Int) (p : Port) : Int × Port :=
  let command := lexical_cast val ++ k.setcmdstr_ ++ cmd
  let (ret, p) := SendSerialCommand p command k.termstr_
  if ret ≠ DEVICE_OK then (ret, p)
  else
    let (ret, _, p) := GetSerialAnswer p k.termstr_ []
    if ret ≠ DEVICE_OK then (ret, p)
    else (DEVICE_OK, p)

/-! ## The device objects -/

/-- The data members of the device classes that the property handlers use, in one
record for `KHDG`, `KHDG800`, `KSDB`, `KSE` and `KHRI`; a class uses the members it
declares.  `KHDG`, `KHDG800` and `KSDB` declare the members up to `real_delays`; `KSE`
also declares the width and MCP vectors.  The classes keep their own copies of the
command strings next to those of `k_`.  The members without an initialiser in the
constructor or in `Initialize()` (`dummy_gain_`, `modeNumber_`) hold whatever value
the record gives them. -/
structure Dev where
  k_ : KUtils
  delstr_ : Str
  setcmdstr_ : Str
  termstr_ : Str
  calibPath_ : Str
  delay_ : Int
  calibrated_ : Bool
  maxdelay_ : Int
  delay_settings : Vec
  real_delays : Vec
  width_settings : Vec := []
  real_widths : Vec := []
  mcp_settings : Vec := []
  real_mcps : Vec := []
  port_ : Str := "Undefined".toList
  initialized_ : Bool := false
  boxType_ : Str := []
  polarityPositive_ : Bool := false
  monostable_ : Bool := false
  fiftyOhmInput_ : Bool := true
  triggerAttenuated_ : Bool := false
  triggerDC_ : Bool := true
  eightyMhz_ : Bool := true
  eclTrigger_ : Bool := true
  dcMode_ : Bool := false
  inhibited_ : Bool := true
  gain_ : Int := 0
  dummy_gain_ : Int := 0
  width_ : Int := 0
  modeNumber_ : Int := 0
  modeNumbers_ : Vec := []
  modeDescriptions_ : List Str := []
  gainstr_ : Str := []
  widthstr_ : Str := []
  modestr_ : Str := []
  mcpstr_ : Str := []
  rfstr_ : Str := []
  polstr_ : Str := []
  monostr_ : Str := []
  couplingstr_ : Str := []
  impedancestr_ : Str := []
  attenuationstr_ : Str := []
  threshstr_ : Str := []
  trigopstr_ : Str := []
  onoffstr_ : Str := []
  deriving DecidableEq, Repr

/-- The function `KSDB::SDBNumericSet`. -/
def SDBNumericSet (d : Dev) (cmd : Str) (val : Int) (p : Port) : Int × Port :=
  let command := lexical_cast val ++ d.setcmdstr_ ++ cmd
  let (ret, p) := SendSerialCommand p command d.termstr_
  if ret ≠ DEVICE_OK then (ret, p)
  else
    let (ret, _, p) := GetSerialAnswer p d.termstr_ []
    if ret ≠ DEVICE_OK then (ret, p)
    else (DEVICE_OK, p)

/-- The enumeration `MM::ActionType`. -/
inductive ActionType where
  | NoAction | BeforeGet | AfterSet | IsSequenceable
  | AfterLoadSequence | StartSequence | StopSequence
  deriving DecidableEq, Repr

/-- What a property handler leaves behind: its return code, the device object, the
port and the value held by the property `pProp`. -/
structure Handled (α : Type) where
  ret : Int
  dev : Dev
  port : Port
  prop : α

/-- The class of delay box; the four classes differ in their set transaction and in
their calibration code. -/
inductive Box where
  | HDG | HDG800 | SDB | SE
  deriving DecidableEq, Repr

/-- The set transaction of `OnDelay`: `k_.NumericSet(k_, delstr_, v)` in `KHDG`,
`KHDG800` and `KSE`, `SDBNumericSet(delstr_, v)` in `KSDB`. -/
def delaySet (b : Box) (d : Dev) (v : Int) (p : Port) : Int × Port :=
  match b with
  | .SDB => SDBNumericSet d d.delstr_ v p
  | _ => NumericSet d.k_ d.delstr_ v p

/-- The handlers `KHDG::OnDelay`, `KHDG800::OnDelay`, `KSE::OnDelay` and
`KSDB::OnDelay`, whose text differs only in the set transaction.  `prop` is the value
held by the property. -/
def OnDelay (b : Box) (eAct : ActionType) (prop : Int) (d : Dev) (p : Port) :
    Outcome (Handled Int) :=
  if eAct = .BeforeGet then
    .ok { ret := DEVICE_OK, dev := d, port := p, prop := d.delay_ }
  else if eAct = .AfterSet then
    match doCalibration d.calibrated_ prop d.real_delays d.delay_settings with
    | none => .threw { ret := DEVICE_OK, dev := d, port := p, prop := prop }
    | some (delay, delay_setting) =>
      let (ret, p) := delaySet b d delay_setting p
      if ret = DEVICE_OK then
        .ok { ret := ret, dev := { d with delay_ := delay }, port := p, prop := delay }
      else
        .ok { ret := ret, dev := d, port := p, prop := prop }
  else .ok { ret := DEVICE_OK, dev := d, port := p, prop := prop }

/-- The surroundings of a handler that are not part of the adapter: the file system
and the property table of the device framework. -/
structure Env where
  fs : FileSystem
  /-- Return code of `SetPropertyLimits(name, low, high)`. -/
  SetPropertyLimits : Str → Int → Int → Int
  /-- Return code of the first step of `SetProperty(name, value)`, which looks the
  property up and validates the value before the handler of the property is run. -/
  SetProperty_validate : Str → Str → Int

/-- The value `*std::max_element(v.begin(), v.end())`; dereferencing `end()` on an
empty vector is undefined. -/
def max_element_value : Vec → Option Int
  | [] => none
  | x :: rest => some (rest.foldl (fun m y => if m < y then y else m) x)

/-- The call `SetProperty("Delay (ps)", valstr)` that ends `OnCalibrate`: the
framework validates the value and then runs the handler of the property, `OnDelay`,
with `MM::AfterSet`; its return code is that of the handler. -/
def SetProperty_Delay (b : Box) (env : Env) (valstr : Str) (d : Dev) (p : Port) :
    Outcome (Int × Dev × Port) :=
  let ret := env.SetProperty_validate "Delay (ps)".toList valstr
  if ret ≠ DEVICE_OK then .ok (ret, d, p)
  else
    match OnDelay b .AfterSet (atoi valstr) d p with
    | .ok h => .ok (h.ret, h.dev, h.port)
    | .threw h => .threw (h.ret, h.dev, h.port)
    | .undef => .undef
    | .timeout => .timeout

/-- The last statements of `OnCalibrate` in `KHDG`, `KHDG800` and `KSDB`, run on
both branches: `valstr = lexical_cast<std::string>(delay_)`, then
`ret = SetProperty("Delay (ps)", valstr.c_str())`, `if (ret != DEVICE_OK) return ret;`
and `return DEVICE_OK;`. -/
def OnCalibrate_finish (b : Box) (env : Env) (prop : Str) (d : Dev) (p : Port) :
    Outcome (Handled Str) :=
  match SetProperty_Delay b env (lexical_cast d.delay_) d p with
  | .ok (ret, d, p) =>
    .ok { ret := if ret ≠ DEVICE_OK then ret else DEVICE_OK, dev := d, port := p,
          prop := prop }
  | .threw (ret, d, p) => .threw { ret := ret, dev := d, port := p, prop := prop }
  | .undef => .undef
  | .timeout => .timeout

/-- The handlers `KHDG::OnCalibrate`, `KHDG800::OnCalibrate` and `KSDB::OnCalibrate`,
which have the same text.  The call `SetPropertyLimits("Delay", 0, maxdelay_)` of the
second branch has its result ignored. -/
def HDG_OnCalibrate (b : Box) (env : Env) (fuel : Nat) (eAct : ActionType) (prop : Str)
    (d : Dev) (p : Port) : Outcome (Handled Str) :=
  if eAct = .BeforeGet then
    .ok { ret := DEVICE_OK, dev := d, port := p,
          prop := if d.calibrated_ then "Yes".toList else "No".toList }
  else if eAct = .AfterSet then
    let state := prop
    let loaded :=
      if state = "Yes".toList then
        PopulateCalibrationVectors fuel env.fs d.calibPath_ d.delay_settings d.real_delays
      else .ok (ERR_CALIBRATION_FAILED, d.delay_settings, d.real_delays)
    match loaded with
    | .ok (ret, delay_settings, real_delays) =>
      let d := { d with delay_settings := delay_settings, real_delays := real_delays }
      if state = "Yes".toList ∧ ret = DEVICE_OK then
        match max_element_value d.real_delays with
        | none => .undef
        | some max =>
          let ret := env.SetPropertyLimits "Delay (ps)".toList 0 max
          if ret ≠ DEVICE_OK then .ok { ret := ret, dev := d, port := p, prop := prop }
          else OnCalibrate_finish b env prop { d with calibrated_ := true } p
      else
        OnCalibrate_finish b env prop { d with calibrated_ := false } p
    | .threw _ => .undef
    | .undef => .undef
    | .timeout => .timeout
  else .ok { ret := DEVICE_OK, dev := d, port := p, prop := prop }

/-- The loop of `KSE::PopulateCalibrationVectors`, with its three blocks. -/
def KSE_populate_loop : Nat → Dev → IfStream → Str → Outcome Dev
  | 0, _, _, _ => .timeout
  | fuel + 1, d, file, line =>
    let (file, line) := getline file line
    if file.failbit then .ok d
    else
      let temp := split line
      if c_str (temp.headD []) = "Delay (ps)".toList then
        match fill_vectors d.delay_settings d.real_delays file with
        | .ok (fpos, s, r, file) =>
          KSE_populate_loop fuel { d with delay_settings := s, real_delays := r }
            (seekg file fpos) line
        | .threw _ => .undef
        | .undef => .undef
        | .timeout => .timeout
      else if c_str (temp.headD []) = "Width (ps)".toList then
        match fill_vectors d.width_settings d.real_widths file with
        | .ok (fpos, s, r, file) =>
          KSE_populate_loop fuel { d with width_settings := s, real_widths := r }
            (seekg file fpos) line
        | .threw _ => .undef
        | .undef => .undef
        | .timeout => .timeout
      else if c_str (temp.headD []) = "MCP (V)".toList then
        match fill_vectors d.mcp_settings d.real_mcps file with
        | .ok (fpos, s, r, file) =>
          KSE_populate_loop fuel { d with mcp_settings := s, real_mcps := r }
            (seekg file fpos) line
        | .threw _ => .undef
        | .undef => .undef
        | .timeout => .timeout
      else KSE_populate_loop fuel d file line

/-- The function `KSE::PopulateCalibrationVectors`.  Its only `return` statement is
the one for a file that cannot be opened; after the loop the function ends without
returning a value, which the model records as the return code `none`. -/
def KSE_PopulateCalibrationVectors (fuel : Nat) (fs : FileSystem) (path : Str) (d : Dev) :
    Outcome (Option Int × Dev) :=
  match fs (c_str path) with
  | none => .ok (some ERR_OPENFILE_FAILED, d)
  | some f =>
    match KSE_populate_loop fuel d (IfStream.opened f.lines f.terminated) [] with
    | .ok d => .ok (none, d)
    | .threw _ => .undef
    | .undef => .undef
    | .timeout => .timeout

/-- The handler `KSE::OnCalibrate`.  Comparing the result of a call that returned no
value is undefined.  The calls of `SetPropertyLimits` have their results ignored and
no effect on the data members. -/
def KSE_OnCalibrate (env : Env) (fuel : Nat) (eAct : ActionType) (prop : Str)
    (d : Dev) (p : Port) : Outcome (Handled Str) :=
  if eAct = .BeforeGet then
    .ok { ret := DEVICE_OK, dev := d, port := p,
          prop := if d.calibrated_ then "Yes".toList else "No".toList }
  else if eAct = .AfterSet then
    let state := prop
    let loaded :=
      if state = "Yes".toList then KSE_PopulateCalibrationVectors fuel env.fs d.calibPath_ d
      else .ok (some ERR_CALIBRATION_FAILED, d)
    match loaded with
    | .ok (some ret, d) =>
      if state = "Yes".toList ∧ ret = DEVICE_OK then
        .ok { ret := DEVICE_OK, dev := { d with calibrated_ := true }, port := p, prop := prop }
      else
        .ok { ret := DEVICE_OK, dev := { d with calibrated_ := false }, port := p, prop := prop }
    | .ok (none, _) => .undef
    | .threw _ => .undef
    | .undef => .undef
    | .timeout => .timeout
  else .ok { ret := DEVICE_OK, dev := d, port := p, prop := prop }

/-- The handler `OnCalibrate` of a class of delay box. -/
def OnCalibrate (b : Box) (env : Env) (fuel : Nat) (eAct : ActionType) (prop : Str)
    (d : Dev) (p : Port) : Outcome (Handled Str) :=
  match b with
  | .SE => KSE_OnCalibrate env fuel eAct prop d p
  | _ => HDG_OnCalibrate b env fuel eAct prop d p

/-- The members of a `KHDG800` after its constructor and `Initialize()`: delay `0`,
not calibrated, empty calibration vectors. -/
def KHDG800_initial (calibPath : Str) : Dev :=
  { k_ := { port_ := "Undefined".toList, termstr_ := "\r".toList, getcmdstr_ := ".".toList,
            setcmdstr_ := " !".toList },
    delstr_ := "ps".toList, setcmdstr_ := " !".toList, termstr_ := "\r".toList,
    calibPath_ := calibPath, delay_ := 0, calibrated_ := false, maxdelay_ := 20000,
    delay_settings := [], real_delays := [], initialized_ := true,
    polarityPositive_ := true, monostable_ := false, polstr_ := "pol".toList,
    monostr_ := "usemono".toList, threshstr_ := "thr".toList,
    trigopstr_ := "oplevel".toList }

/-! ## The serial protocol of `KUtils` -/

/-- Return code `DEVICE_INVALID_PROPERTY_VALUE` of the device framework. -/
def DEVICE_INVALID_PROPERTY_VALUE : Int := 3

/-- Return code `DEVICE_SERIAL_COMMAND_FAILED` of the device framework. -/
def DEVICE_SERIAL_COMMAND_FAILED : Int := 14

/-- Return code `DEVICE_SERIAL_INVALID_RESPONSE` of the device framework. -/
def DEVICE_SERIAL_INVALID_RESPONSE : Int := 16

/-- Kentech.h: `#define ERR_PORT_CHANGE_FORBIDDEN 111`. -/
def ERR_PORT_CHANGE_FORBIDDEN : Int := 111

/-- Kentech.h: `#define ERR_UNRECOGNISED_PARAM_VALUE 114`. -/
def ERR_UNRECOGNISED_PARAM_VALUE : Int := 114

/-- The call `str.find_first_not_of(whitespace)`; `none` stands for `npos`. -/
def find_first_not_of (str whitespace : Str) : Option Nat :=
  str.findIdx? (fun c => !whitespace.contains c)

/-- The call `str.find_last_not_of(whitespace)`; `none` stands for `npos`. -/
def find_last_not_of (str whitespace : Str) : Option Nat :=
  (str.reverse.findIdx? (fun c => !whitespace.contains c)).map
    (fun i => str.length - 1 - i)

/-- The call `s.substr(pos, n)`, `n = none` standing for `npos`; the result `none`
stands for the `std::out_of_range` thrown when `pos > s.size()`. -/
def substr (s : Str) (pos : Nat) (n : Option Nat) : Option Str :=
  if pos > s.length then none
  else some ((s.drop pos).take (n.getD s.length))

/-- The function `KUtils::trim` (and `KSDB::trim`, which has the same text). -/
def trim (str whitespace : Str) : Str :=
  match find_first_not_of str whitespace with
  | none => []
  | some strBegin =>
    let strEnd := (find_last_not_of str whitespace).getD 0
    let strRange := strEnd - strBegin + 1
    (substr str strBegin (some strRange)).getD []

/-- The number of values of `size_t`, which has 64 bits: `2^64`; its arithmetic wraps
around. -/
def size_t_modulus : Nat := 18446744073709551616

/-- The difference `a - b` of two `size_t`. -/
def size_t_sub (a b : Nat) : Nat := (a + size_t_modulus - b % size_t_modulus) % size_t_modulus

/-- The largest `long`, which has 64 bits. -/
def LONG_MAX : Int := 9223372036854775807

/-- The smallest `long`. -/
def LONG_MIN : Int := -9223372036854775808

/-- The extraction `std::istringstream(s) >> val` of a `long`; the result is the value
stored in `val`, and `none` when `val` is left as it was.  The stream first skips the
leading white space; when nothing is left after it the sentry of the stream fails and
no conversion is attempted, so that `val` is not written.  Otherwise the conversion
takes an optional sign and the digits that follow, and stores the number, or `0` when
there is no digit, or `LONG_MAX` or `LONG_MIN` when the number is not a `long`. -/
def extract_long (s : Str) : Option Int :=
  match s.dropWhile isspace with
  | '-' :: c :: cs =>
    if c.isDigit then some (max LONG_MIN (- atoi_digits 0 (c :: cs))) else some 0
  | '+' :: c :: cs =>
    if c.isDigit then some (min LONG_MAX (atoi_digits 0 (c :: cs))) else some 0
  | c :: cs => if c.isDigit then some (min LONG_MAX (atoi_digits 0 (c :: cs))) else some 0
  | [] => none

/-- Go on with the value of an expression that may throw: `thrown` is the outcome
when it throws. -/
def orThrow {α β : Type} (x : Option α) (thrown : Outcome β) (next : α → Outcome β) :
    Outcome β :=
  match x with
  | none => thrown
  | some a => next a

/-- The function `KUtils::NumericGet`.  The result is the return code, the value
written to the reference parameter `val` and the port; the value is `none` when `val`
is left as the caller passed it, because the function returns before its extraction
or because the extraction finds nothing but white space after the echo.  The
exception is the `std::out_of_range` of `answer.substr(answer.size() - 3)` on an
answer of fewer than three characters. -/
def NumericGet (k : KUtils) (cmd : Str) (p : Port) : Outcome (Int × Option Int × Port) :=
  let (ret, p) := PurgeComPort p
  if ret ≠ DEVICE_OK then .ok (ret, none, p)
  else
    let (ret, p) := SendSerialCommand p (k.getcmdstr_ ++ cmd) k.termstr_
    if ret ≠ DEVICE_OK then .ok (ret, none, p)
    else
      let (ret, answer, p) := GetSerialAnswer p k.termstr_ []
      if ret ≠ DEVICE_OK then .ok (ret, none, p)
      else
        let answer := trim answer " \t\n".toList
        if (substr answer 0 (some (cmd.length + k.getcmdstr_.length))).getD []
            ≠ k.getcmdstr_ ++ cmd then
          .ok (DEVICE_SERIAL_INVALID_RESPONSE, none, p)
        else
          orThrow (substr answer (cmd.length + k.getcmdstr_.length) none)
            (.threw (ret, none, p)) fun val_str =>
          let val := extract_long val_str
          let (ret, answer, p) := GetSerialAnswer p k.termstr_ answer
          if ret ≠ DEVICE_OK then .ok (ret, val, p)
          else
            orThrow (substr answer (size_t_sub answer.length 3) none)
              (.threw (ret, val, p)) fun tail =>
            if tail ≠ " ok".toList then .ok (DEVICE_SERIAL_INVALID_RESPONSE, val, p)
            else .ok (DEVICE_OK, val, p)

/-- The function `KUtils::ToggleSet`. -/
def ToggleSet (_k : KUtils) (cmd : Str) (p : Port) : Int × Port :=
  let (ret, p) := SendSerialCommand p cmd "\r".toList
  if ret ≠ DEVICE_OK then (ret, p)
  else
    let (ret, answer, p) := GetSerialAnswer p "\r".toList []
    if ret ≠ DEVICE_OK then (ret, p)
    else if answer ≠ cmd ++ "  ok".toList then (DEVICE_SERIAL_COMMAND_FAILED, p)
    else
      let (ret, p) := PurgeComPort p
      if ret ≠ DEVICE_OK then (ret, p)
      else (DEVICE_OK, p)

/-! ## The property handlers -/

/-- The handlers of a quantity that is held in a `bool` member and shown as one of two
labels.  Their texts differ only in the two labels, in the member and in the code
returned for any other label: with `MM::BeforeGet` the property is set to the label of
the member; with `MM::AfterSet` the member is assigned for either label, and any other
label returns `err` before anything is assigned. -/
def OnFlag (yes no : Str) (err : Int) (get : Dev → Bool) (set : Bool → Dev → Dev)
    (eAct : ActionType) (prop : Str) (d : Dev) (p : Port) : Handled Str :=
  if eAct = .BeforeGet then
    { ret := DEVICE_OK, dev := d, port := p, prop := if get d then yes else no }
  else if eAct = .AfterSet then
    let state := prop
    if state = yes then { ret := DEVICE_OK, dev := set true d, port := p, prop := prop }
    else if state = no then { ret := DEVICE_OK, dev := set false d, port := p, prop := prop }
    else { ret := err, dev := d, port := p, prop := prop }
  else { ret := DEVICE_OK, dev := d, port := p, prop := prop }

/-- The handler `KHDG::OnTrigAttenuation`. -/
def OnTrigAttenuation : ActionType → Str → Dev → Port → Handled Str :=
  OnFlag "Attenuated".toList "Direct".toList DEVICE_INVALID_PROPERTY_VALUE
    (fun d => d.triggerAttenuated_) (fun v d => { d with triggerAttenuated_ := v })

/-- The handlers `KHDG::OnTrigImpedance` and `KHRI::OnTrigImpedance`. -/
def OnTrigImpedance : ActionType → Str → Dev → Port → Handled Str :=
  OnFlag "50 Ohm".toList "High".toList DEVICE_INVALID_PROPERTY_VALUE
    (fun d => d.fiftyOhmInput_) (fun v d => { d with fiftyOhmInput_ := v })

/-- The handler `KHDG::OnTrigCoupling`. -/
def OnTrigCoupling : ActionType → Str → Dev → Port → Handled Str :=
  OnFlag "DC".toList "AC".toList DEVICE_INVALID_PROPERTY_VALUE
    (fun d => d.triggerDC_) (fun v d => { d with triggerDC_ := v })

/-- The handlers `KHDG::OnPolarity`, `KHDG800::OnPolarity` and `KHRI::OnPolarity`. -/
def OnPolarity : ActionType → Str → Dev → Port → Handled Str :=
  OnFlag "Positive".toList "Negative".toList DEVICE_INVALID_PROPERTY_VALUE
    (fun d => d.polarityPositive_) (fun v d => { d with polarityPositive_ := v })

/-- The handler `KHDG::OnFrequency`. -/
def OnFrequency : ActionType → Str → Dev → Port → Handled Str :=
  OnFlag "80 MHz".toList "40 MHz".toList DEVICE_INVALID_PROPERTY_VALUE
    (fun d => d.eightyMhz_) (fun v d => { d with eightyMhz_ := v })

/-- The handler `KHDG800::OnMonostable`. -/
def OnMonostable : ActionType → Str → Dev → Port → Handled Str :=
  OnFlag "True".toList "False".toList ERR_UNRECOGNISED_PARAM_VALUE
    (fun d => d.monostable_) (fun v d => { d with monostable_ := v })

/-- The handler `KHRI::OnTrigLogic`. -/
def OnTrigLogic : ActionType → Str → Dev → Port → Handled Str :=
  OnFlag "ECL".toList "TTL".toList DEVICE_INVALID_PROPERTY_VALUE
    (fun d => d.eclTrigger_) (fun v d => { d with eclTrigger_ := v })

/-- The handler `OnPort`, which has the same text in the five classes. -/
def OnPort (eAct : ActionType) (prop : Str) (d : Dev) (p : Port) : Handled Str :=
  if eAct = .BeforeGet then
    { ret := DEVICE_OK, dev := d, port := p, prop := c_str d.port_ }
  else if eAct = .AfterSet then
    if d.initialized_ then
      { ret := ERR_PORT_CHANGE_FORBIDDEN, dev := d, port := p, prop := c_str d.port_ }
    else { ret := DEVICE_OK, dev := { d with port_ := prop }, port := p, prop := prop }
  else { ret := DEVICE_OK, dev := d, port := p, prop := prop }

/-- The handler `KHDG800::OnBoxType`. -/
def OnBoxType (eAct : ActionType) (prop : Str) (d : Dev) (p : Port) : Handled Str :=
  if eAct = .BeforeGet then
    { ret := DEVICE_OK, dev := d, port := p, prop := c_str d.boxType_ }
  else if eAct = .AfterSet then
    { ret := DEVICE_OK, dev := { d with boxType_ := prop }, port := p, prop := prop }
  else { ret := DEVICE_OK, dev := d, port := p, prop := prop }

/-- The handler `OnCalibrationPath`, which has the same text in `KHDG`, `KHDG800`,
`KSE` and `KSDB`. -/
def OnCalibrationPath (eAct : ActionType) (prop : Str) (d : Dev) (p : Port) : Handled Str :=
  if eAct = .BeforeGet then
    { ret := DEVICE_OK, dev := d, port := p, prop := c_str d.calibPath_ }
  else if eAct = .AfterSet then
    { ret := DEVICE_OK, dev := { d with calibPath_ := prop }, port := p, prop := c_str prop }
  else { ret := DEVICE_OK, dev := d, port := p, prop := prop }

/-- The handlers whose body only returns `DEVICE_OK`: `OnScanMode`, `OnAddScanPos` and
`OnScanPos` of `KHDG` and `KHDG800`, and `KSE::OnBias`. -/
def OnScanMode {α : Type} (_eAct : ActionType) (prop : α) (d : Dev) (p : Port) : Handled α :=
  { ret := DEVICE_OK, dev := d, port := p, prop := prop }

/-- The mode number `INHIBIT` of `KHRI`. -/
def INHIBIT : Int := 0

/-- The mode number `DC` of `KHRI`. -/
def DC : Int := 24

/-- The handler `KHRI::OnMode`.  `std::find` gives the first position of the value;
`vector::at` throws when the other vector has no element there. -/
def KHRI_OnMode (eAct : ActionType) (prop : Str) (d : Dev) (p : Port) :
    Outcome (Handled Str) :=
  if eAct = .BeforeGet then
    let it := d.modeNumbers_.indexOf d.modeNumber_
    if it ≠ d.modeNumbers_.length then
      match d.modeDescriptions_[it]? with
      | some s => .ok { ret := DEVICE_OK, dev := d, port := p, prop := c_str s }
      | none => .threw { ret := DEVICE_OK, dev := d, port := p, prop := prop }
    else .ok { ret := DEVICE_INVALID_PROPERTY_VALUE, dev := d, port := p, prop := prop }
  else if eAct = .AfterSet then
    let state := prop
    let itstr := d.modeDescriptions_.indexOf state
    if itstr ≠ d.modeDescriptions_.length then
      match d.modeNumbers_[itstr]? with
      | some n =>
        .ok { ret := DEVICE_OK, dev := { d with modeNumber_ := n }, port := p, prop := prop }
      | none => .threw { ret := DEVICE_OK, dev := d, port := p, prop := prop }
    else .ok { ret := DEVICE_INVALID_PROPERTY_VALUE, dev := d, port := p, prop := prop }
  else .ok { ret := DEVICE_OK, dev := d, port := p, prop := prop }

/-- The end of the `MM::AfterSet` branch of `KHRI::OnDC`, `KHRI::OnInhibit`,
`KHRI::OnWidth` and `KHRI::OnGain`, reached with the member already assigned:
`ret = k_.NumericSet(k_, cmd, number); if (ret != DEVICE_OK) return ret;` and then
`return DEVICE_OK;`. -/
def KHRI_set (cmd : Str) (number : Int) (prop : Str) (d : Dev) (p : Port) : Handled Str :=
  let (ret, p) := NumericSet d.k_ cmd number p
  if ret ≠ DEVICE_OK then { ret := ret, dev := d, port := p, prop := prop }
  else { ret := DEVICE_OK, dev := d, port := p, prop := prop }

/-- The handler `KHRI::OnDC`. -/
def KHRI_OnDC (eAct : ActionType) (prop : Str) (d : Dev) (p : Port) : Handled Str :=
  if eAct = .BeforeGet then
    { ret := DEVICE_OK, dev := d, port := p,
      prop := if d.dcMode_ then "On".toList else "Off".toList }
  else if eAct = .AfterSet then
    let state := prop
    if state = "On".toList then
      KHRI_set d.modestr_ DC prop { d with dcMode_ := true } p
    else if state = "Off".toList then
      KHRI_set d.modestr_ d.modeNumber_ prop { d with dcMode_ := false } p
    else { ret := DEVICE_INVALID_PROPERTY_VALUE, dev := d, port := p, prop := prop }
  else { ret := DEVICE_OK, dev := d, port := p, prop := prop }

/-- The handler `KHRI::OnInhibit`. -/
def KHRI_OnInhibit (eAct : ActionType) (prop : Str) (d : Dev) (p : Port) : Handled Str :=
  if eAct = .BeforeGet then
    { ret := DEVICE_OK, dev := d, port := p,
      prop := if d.inhibited_ then "Inhibited".toList else "Running".toList }
  else if eAct = .AfterSet then
    let state := prop
    if state = "Inhibited".toList then
      KHRI_set d.modestr_ INHIBIT prop { d with inhibited_ := true } p
    else if state = "Running".toList then
      KHRI_set d.modestr_ d.modeNumber_ prop { d with inhibited_ := false } p
    else { ret := DEVICE_INVALID_PROPERTY_VALUE, dev := d, port := p, prop := prop }
  else { ret := DEVICE_OK, dev := d, port := p, prop := prop }

/-- The handler `KHRI::OnWidth`; the division of `width_/10` truncates. -/
def KHRI_OnWidth (eAct : ActionType) (prop : Str) (d : Dev) (p : Port) : Handled Str :=
  if eAct = .BeforeGet then
    { ret := DEVICE_OK, dev := d, port := p, prop := c_str (lexical_cast d.width_) }
  else if eAct = .AfterSet then
    let state := prop
    let d := { d with width_ := atoi (c_str state) }
    KHRI_set d.modestr_ (Int.tdiv d.width_ 10) prop d p
  else { ret := DEVICE_OK, dev := d, port := p, prop := prop }

/-- The handler `KHRI::OnGain`. -/
def KHRI_OnGain (eAct : ActionType) (prop : Str) (d : Dev) (p : Port) : Handled Str :=
  let gstr := if d.modeNumber_ < 11 then d.mcpstr_ else d.rfstr_
  if eAct = .BeforeGet then
    { ret := DEVICE_OK, dev := d, port := p, prop := c_str (lexical_cast d.gain_) }
  else if eAct = .AfterSet then
    let state := prop
    let d := { d with gain_ := atoi (c_str state) }
    KHRI_set gstr d.gain_ prop d p
  else { ret := DEVICE_OK, dev := d, port := p, prop := prop }

/-- The handler `KSE::OnGain`. -/
def KSE_OnGain (eAct : ActionType) (prop : Int) (d : Dev) (p : Port) :
    Outcome (Handled Int) :=
  if eAct = .BeforeGet then
    .ok { ret := DEVICE_OK, dev := d, port := p, prop := d.gain_ }
  else if eAct = .AfterSet then
    match doCalibration d.calibrated_ prop d.real_mcps d.mcp_settings with
    | none => .threw { ret := DEVICE_OK, dev := d, port := p, prop := prop }
    | some (gain, gain_setting) =>
      let (ret, p) := NumericSet d.k_ d.gainstr_ gain_setting p
      if ret = DEVICE_OK then
        .ok { ret := ret, dev := { d with gain_ := gain }, port := p, prop := gain }
      else
        .ok { ret := ret, dev := d, port := p, prop := prop }
  else .ok { ret := DEVICE_OK, dev := d, port := p, prop := prop }

/-- The handler `KSE::OnWidth`.  With `MM::BeforeGet` the local `width` starts as
`width_` and is overwritten by `NumericGet` when that reaches its extraction; the
return code of `NumericGet` is not used and the handler ends with `return DEVICE_OK`.
With `MM::AfterSet` the transaction is `NumericGet` as well. -/
def KSE_OnWidth (eAct : ActionType) (prop : Int) (d : Dev) (p : Port) :
    Outcome (Handled Int) :=
  if eAct = .BeforeGet then
    match NumericGet d.k_ d.widthstr_ p with
    | .ok (_, written, p) =>
      let width := written.getD d.width_
      match doCalibration d.calibrated_ width d.width_settings d.real_widths with
      | none => .threw { ret := DEVICE_OK, dev := d, port := p, prop := prop }
      | some (_, real_width) =>
        .ok { ret := DEVICE_OK, dev := { d with width_ := real_width }, port := p,
              prop := real_width }
    | .threw (_, _, p) => .threw { ret := DEVICE_OK, dev := d, port := p, prop := prop }
    | .undef => .undef
    | .timeout => .timeout
  else if eAct = .AfterSet then
    match doCalibration d.calibrated_ prop d.real_widths d.width_settings with
    | none => .threw { ret := DEVICE_OK, dev := d, port := p, prop := prop }
    | some (width, _) =>
      match NumericGet d.k_ d.widthstr_ p with
      | .ok (ret, written, p) =>
        let width := written.getD width
        if ret = DEVICE_OK then
          .ok { ret := ret, dev := { d with width_ := width }, port := p, prop := width }
        else
          .ok { ret := ret, dev := d, port := p, prop := prop }
      | .threw (_, _, p) => .threw { ret := DEVICE_OK, dev := d, port := p, prop := prop }
      | .undef => .undef
      | .timeout => .timeout
  else .ok { ret := DEVICE_OK, dev := d, port := p, prop := prop }

/-- The handler `KSE::OnInhibit`.  With `MM::BeforeGet` the local `gain` has no
initialiser, so testing it is undefined when `NumericGet` returned before its
extraction; the return code of `NumericGet` is not used.  With `MM::AfterSet` every
label other than `Inhibited` takes the second branch, where the result of `NumericSet`
goes to a second variable `ret` declared in that branch, the assignments that follow
are unconditional, `doCalibration` writes the nearest value back to `dummy_gain_`, and
the code returned is the outer `ret`, still `DEVICE_OK`.  The calls of
`SetPropertyLimits` have their results ignored and no effect on the data members. -/
def KSE_OnInhibit (eAct : ActionType) (prop : Str) (d : Dev) (p : Port) :
    Outcome (Handled Str) :=
  if eAct = .BeforeGet then
    match NumericGet d.k_ d.gainstr_ p with
    | .ok (_, some gain, p) =>
      if gain = 0 then
        .ok { ret := DEVICE_OK, dev := { d with inhibited_ := true }, port := p,
              prop := "Inhibited".toList }
      else
        .ok { ret := DEVICE_OK, dev := { d with inhibited_ := false, dummy_gain_ := gain },
              port := p, prop := "Running".toList }
    | .ok (_, none, _) => .undef
    | .threw (_, _, p) => .threw { ret := DEVICE_OK, dev := d, port := p, prop := prop }
    | .undef => .undef
    | .timeout => .timeout
  else if eAct = .AfterSet then
    let inhibited_str := prop
    let inhibit : Bool := inhibited_str = "Inhibited".toList
    if inhibit then
      let (ret, p) := NumericSet d.k_ d.gainstr_ 0 p
      if ret = DEVICE_OK then
        .ok { ret := ret, dev := { d with inhibited_ := inhibit, dummy_gain_ := d.gain_ },
              port := p, prop := c_str inhibited_str }
      else .ok { ret := ret, dev := d, port := p, prop := prop }
    else
      match doCalibration d.calibrated_ d.dummy_gain_ d.real_mcps d.mcp_settings with
      | none => .threw { ret := DEVICE_OK, dev := d, port := p, prop := prop }
      | some (dummy_gain, gain_setting) =>
        let (_, p) := NumericSet d.k_ d.gainstr_ gain_setting p
        .ok { ret := DEVICE_OK,
              dev := { d with dummy_gain_ := dummy_gain, inhibited_ := inhibit },
              port := p, prop := c_str inhibited_str }
  else .ok { ret := DEVICE_OK, dev := d, port := p, prop := prop }

/-! ## `SetupHDG800` and `SetupHDG` -/

/-- The search for the spacing of the `float` values around the magnitude `m`: the
least power of two `u`, from the one given, such that `m / u` fits the 24 bits of the
significand. -/
def float_ulp : Nat → Nat → Nat → Nat
  | 0, _, u => u
  | fuel + 1, m, u => if m / u < 16777216 then u else float_ulp fuel m (2 * u)

/-- The conversion of an integer to `float` (IEEE 754 binary32, rounding to the
nearest value, ties to the even significand), as the integer that the `float` holds.
The search of the spacing is given 64 doublings, which covers every `long`. -/
def to_float (x : Int) : Int :=
  let m := x.natAbs
  let u := float_ulp 64 m 1
  let q := m / u
  let r := m % u
  let n := if u < 2 * r ∨ (2 * r = u ∧ q % 2 = 1) then q + 1 else q
  if x < 0 then -((n * u : Nat) : Int) else ((n * u : Nat) : Int)

/-- The subtraction of two `float` values that hold integers: the exact difference,
rounded to `float`. -/
def float_sub (a b : Int) : Int := to_float (a - b)

/-- The conversion of a value to `long`, which has 64 bits: the value with the same
residue modulo `2^64` from `-2^63` to `2^63 - 1`, which is also what `long` arithmetic
yields in two's complement when the exact result is not a `long`. -/
def to_long (x : Int) : Int :=
  (x + 9223372036854775808) % 18446744073709551616 - 9223372036854775808

/-- The local `val` of the setup functions after a call of `NumericGet` that returned:
the value written by the call, or the value that `val` had before when the call did
not write it. -/
def val_after (written val : Option Int) : Option Int :=
  match written with
  | some v => some v
  | none => val

/-- One turn of the loop `for (int i = 0; i < 2; i++)` of `SetupHDG800` and
`SetupHDG`, for the threshold `minmaxthr[i]`; `val` is the local `val` before the
turn, `none` while it has no value: it has no initialiser.  The result is the return
code when the turn returns from the function, with the value left in `minmaxop[i]`
(and in `val`) when it does not.  The assignment `minmaxop[i] = val` is undefined when
`val` has no value, which is the case in the first turn when `NumericGet` returned
`DEVICE_OK` without writing it. -/
def read_level (k : KUtils) (threshstr trigopstr : Str) (thr : Int) (val : Option Int)
    (p : Port) : Outcome (Int × Option Int × Port) :=
  let (ret, p) := NumericSet k threshstr thr p
  if ret ≠ DEVICE_OK then .ok (ret, none, p)
  else
    let (ret, p) := PurgeComPort p
    if ret ≠ DEVICE_OK then .ok (ret, none, p)
    else
      match NumericGet k trigopstr p with
      | .ok (ret, written, p) =>
        if ret ≠ DEVICE_OK then .ok (ret, none, p)
        else
          match val_after written val with
          | none => .undef
          | some val =>
            let (ret, p) := PurgeComPort p
            if ret ≠ DEVICE_OK then .ok (ret, none, p)
            else .ok (DEVICE_OK, some val, p)
      | .threw (ret, _, p) => .threw (ret, none, p)
      | .undef => .undef
      | .timeout => .timeout

/-- The loop `while (abs(diff) > 5)` of `SetupHDG800` and `SetupHDG`, which has the
same text in both.  The result is the code with which the loop returns from the
function, or `DEVICE_OK` when the loop ends, with the locals `currentthr` and
`currentop` and the port.  `currentthr` and `currentop` are `int`: the sum
`currentthr + t` and the assignment `currentop = val` of a `long` are converted to
`int`.  At the head of the loop `currentop` is the conversion of the local `val`, so
that a call of `NumericGet` that returns `DEVICE_OK` without writing `val` leaves
`currentop` as it is.  `diff` is a `float` that holds an integer, so `abs(diff)` is
its absolute value. -/
def tune_loop (k : KUtils) (threshstr trigopstr : Str) (midop : Int) :
    Nat → Int → Int → Int → Port → Outcome (Int × Int × Int × Port)
  | 0, _, _, _, _ => .timeout
  | fuel + 1, currentthr, currentop, diff, p =>
    if iabs diff > 5 then
      let t : Int := if iabs diff > 50 then 50 else 1
      let t : Int := if diff > 0 then (-1) * t else t
      let currentthr := to_int (currentthr + t)
      let (ret, p) := NumericSet k threshstr currentthr p
      if ret ≠ DEVICE_OK then .ok (ret, currentthr, currentop, p)
      else
        match NumericGet k trigopstr p with
        | .ok (ret, written, p) =>
          if ret ≠ DEVICE_OK then .ok (ret, currentthr, currentop, p)
          else
            match written with
            | none =>
              tune_loop k threshstr trigopstr midop fuel currentthr currentop
                (float_sub (to_float currentop) midop) p
            | some val =>
              tune_loop k threshstr trigopstr midop fuel currentthr (to_int val)
                (float_sub (to_float (to_int val)) midop) p
        | .threw (ret, _, p) => .threw (ret, currentthr, currentop, p)
        | .undef => .undef
        | .timeout => .timeout
    else .ok (DEVICE_OK, currentthr, currentop, p)

/-- The part of `SetupHDG800` and `SetupHDG` from the declaration of `minmaxthr` to
the end of the `while` loop, which differs in the two functions only in the bounds
`minmaxthr = (lo, hi)`, the literals `1500, 3500` and `0, 250`, which
`int currentthr = minmaxthr[1]` holds as they are: the two turns of the `for` loop,
then `float midop = (minmaxop[1] - minmaxop[0])/2 + minmaxop[0]` in `long` arithmetic
(the division truncating), `currentthr = minmaxthr[1]`, `int currentop = minmaxop[1]`,
`float diff = currentop - midop` and the loop.  The result is the return code, or
`DEVICE_OK` when the loop ends, with the locals `midop`, `currentthr` and `currentop`
once they are initialised, and the port. -/
def tune (k : KUtils) (threshstr trigopstr : Str) (lo hi : Int) (fuel : Nat) (p : Port) :
    Outcome (Int × Option (Int × Int × Int) × Port) :=
  match read_level k threshstr trigopstr lo none p with
  | .ok (ret, none, p) => .ok (ret, none, p)
  | .ok (_, some op0, p) =>
    match read_level k threshstr trigopstr hi (some op0) p with
    | .ok (ret, none, p) => .ok (ret, none, p)
    | .ok (_, some op1, p) =>
      let midop := to_float (to_long (Int.tdiv (to_long (op1 - op0)) 2 + op0))
      let currentthr := hi
      let currentop := to_int op1
      let diff := float_sub (to_float currentop) midop
      match tune_loop k threshstr trigopstr midop fuel currentthr currentop diff p with
      | .ok (ret, currentthr, currentop, p) => .ok (ret, some (midop, currentthr, currentop), p)
      | .threw (ret, currentthr, currentop, p) =>
        .threw (ret, some (midop, currentthr, currentop), p)
      | .undef => .undef
      | .timeout => .timeout
    | .threw (ret, _, p) => .threw (ret, none, p)
    | .undef => .undef
    | .timeout => .timeout
  | .threw (ret, _, p) => .threw (ret, none, p)
  | .undef => .undef
  | .timeout => .timeout

/-- The function `KHDG800::SetupHDG800`. -/
def SetupHDG800 (fuel : Nat) (d : Dev) (p : Port) : Outcome (Int × Port) :=
  let (ret, p) := PurgeComPort p
  if ret ≠ DEVICE_OK then .ok (ret, p)
  else
    let cmd := if d.monostable_ then '+' :: d.monostr_ else '-' :: d.monostr_
    let (ret, p) := ToggleSet d.k_ cmd p
    if ret ≠ DEVICE_OK then .ok (ret, p)
    else
      let cmd := if d.polarityPositive_ then '+' :: d.polstr_ else '-' :: d.polstr_
      let (ret, p) := ToggleSet d.k_ cmd p
      if ret ≠ DEVICE_OK then .ok (ret, p)
      else
        match tune d.k_ d.threshstr_ d.trigopstr_ 1500 3500 fuel p with
        | .ok (ret, _, p) =>
          if ret ≠ DEVICE_OK then .ok (ret, p)
          else
            let (ret, p) := PurgeComPort p
            if ret ≠ DEVICE_OK then .ok (ret, p) else .ok (DEVICE_OK, p)
        | .threw (ret, _, p) => .threw (ret, p)
        | .undef => .undef
        | .timeout => .timeout

/-- The expression `lit + b` for a string literal `lit` and a `bool` `b`, as in
`"+" + triggerDC_`: the `bool` is promoted to `int` and added to the address of the
literal, so the result is the C string that starts `b` characters into the literal. -/
def literal_plus (lit : Str) (b : Bool) : Str := lit.drop (if b then 1 else 0)

/-- The first statements of `KHDG::SetupHDG`, up to the toggle command of the trigger
coupling: the purge and the five toggle commands.  The first four commands are a
literal, or `"+"` or `"-"` followed by the token of the class; for the coupling the
operand added to the literal is the member `triggerDC_` and not the token. -/
def SetupHDG_options (d : Dev) (p : Port) : Int × Port :=
  let (ret, p) := PurgeComPort p
  if ret ≠ DEVICE_OK then (ret, p)
  else
    let cmd := if d.eightyMhz_ then "80MHZ".toList else "40MHZ".toList
    let (ret, p) := ToggleSet d.k_ cmd p
    if ret ≠ DEVICE_OK then (ret, p)
    else
      let cmd := if d.fiftyOhmInput_ then '+' :: d.impedancestr_ else '-' :: d.impedancestr_
      let (ret, p) := ToggleSet d.k_ cmd p
      if ret ≠ DEVICE_OK then (ret, p)
      else
        let cmd := if d.polarityPositive_ then '+' :: d.polstr_ else '-' :: d.polstr_
        let (ret, p) := ToggleSet d.k_ cmd p
        if ret ≠ DEVICE_OK then (ret, p)
        else
          let cmd :=
            if d.triggerAttenuated_ then '+' :: d.attenuationstr_
            else '-' :: d.attenuationstr_
          let (ret, p) := ToggleSet d.k_ cmd p
          if ret ≠ DEVICE_OK then (ret, p)
          else
            let cmd :=
              if d.triggerDC_ then literal_plus "+".toList d.triggerDC_
              else literal_plus "-".toList d.triggerDC_
            let (ret, p) := ToggleSet d.k_ cmd p
            if ret ≠ DEVICE_OK then (ret, p) else (DEVICE_OK, p)

/-- The function `KHDG::SetupHDG`. -/
def SetupHDG (fuel : Nat) (d : Dev) (p : Port) : Outcome (Int × Port) :=
  let (ret, p) := SetupHDG_options d p
  if ret ≠ DEVICE_OK then .ok (ret, p)
  else
    match tune d.k_ d.threshstr_ d.trigopstr_ 0 250 fuel p with
    | .ok (ret, _, p) =>
      if ret ≠ DEVICE_OK then .ok (ret, p)
      else
        let (ret, p) := PurgeComPort p
        if ret ≠ DEVICE_OK then .ok (ret, p)
        else
          let (ret, p) := ToggleSet d.k_ ('+' :: d.onoffstr_) p
          if ret ≠ DEVICE_OK then .ok (ret, p)
          else
            let (ret, p) := PurgeComPort p
            if ret ≠ DEVICE_OK then .ok (ret, p) else .ok (DEVICE_OK, p)
    | .threw (ret, _, p) => .threw (ret, p)
    | .undef => .undef
    | .timeout => .timeout

/-! ## Auxiliary notions for the proofs -/

/-- Apply a function to the state carried by an outcome. -/
def Outcome.map {α β : Type} (f : α → β) : Outcome α → Outcome β
  | .ok a => .ok (f a)
  | .threw a => .threw (f a)
  | .undef => .undef
  | .timeout => .timeout

/-- The state of `fill_vectors` with `a` and `b` put in front of its two vectors. -/
def FillState.shift (a b : Vec) (s : FillState) : FillState :=
  { s with setting := a ++ s.setting, real_var := b ++ s.real_var }

/-- The first field of a line, as the C string compared by `strcmp` and tested by
`is_number`. -/
def field0 (line : Str) : Str := c_str ((split line).headD [])

/-- The header of the delay block of a calibration file. -/
def delayHeader : Str := "Delay (ps)".toList

/-- The states of a delay box of class `b` that its handlers `OnCalibrate` and
`OnDelay` reach from the state left by `Initialize()`, in which the box is not
calibrated and its delay vectors are empty, through runs that return or let an
exception escape.  A handler may be run with any action, property value,
surroundings, port and fuel. -/
inductive Reachable (b : Box) : Dev → Prop where
  | init (d : Dev) (hc : d.calibrated_ = false) (hs : d.delay_settings = [])
      (hr : d.real_delays = []) : Reachable b d
  | calibrate (d : Dev) (env : Env) (fuel : Nat) (eAct : ActionType) (prop : Str)
      (p : Port) (h : Handled Str) (hd : Reachable b d)
      (hrun : OnCalibrate b env fuel eAct prop d p = .ok h ∨
        OnCalibrate b env fuel eAct prop d p = .threw h) : Reachable b h.dev
  | delay (d : Dev) (eAct : ActionType) (prop : Int) (p : Port) (h : Handled Int)
      (hd : Reachable b d)
      (hrun : OnDelay b eAct prop d p = .ok h ∨ OnDelay b eAct prop d p = .threw h) :
      Reachable b h.dev

/-- The invariant of the calibration data: the two delay vectors have the same
length, and they are not empty when the box is calibrated. -/
def TableInv (d : Dev) : Prop :=
  d.delay_settings.length = d.real_delays.length ∧ (d.calibrated_ = true → d.real_delays ≠ [])

/-- The number of turns the loop of `fill_vectors` can still take on a stream: none
once `eofbit` is set, otherwise one per line left and one more. -/
def IfStream.turns (f : IfStream) : Nat :=
  if f.eofbit then 0 else f.lines.length - f.pos + 1

/-- The value that the extraction of a `long` stores for the decimal form of `v`:
`v` itself when it is a `long`, and the nearest `long` otherwise. -/
def clamp_long (v : Int) : Int := max LONG_MIN (min LONG_MAX v)

/-- The port operations that `KUtils::NumericSet` attempts, in order. -/
def NumericSet_plan (k : KUtils) (cmd : Str) (val : Int) : List PortOp :=
  [PortOp.send (lexical_cast val ++ k.setcmdstr_ ++ cmd) k.termstr_, PortOp.receive k.termstr_]

/-- The port operations that `KUtils::NumericGet` attempts, in order. -/
def NumericGet_plan (k : KUtils) (cmd : Str) : List PortOp :=
  [PortOp.purge, PortOp.send (k.getcmdstr_ ++ cmd) k.termstr_, PortOp.receive k.termstr_,
    PortOp.receive k.termstr_]

/-- The port operations that `KUtils::ToggleSet` attempts, in order. -/
def ToggleSet_plan (cmd : Str) : List PortOp :=
  [PortOp.send cmd "\r".toList, PortOp.receive "\r".toList, PortOp.purge]

/-- The port left by a run, whether it returned or threw. -/
def Outcome.port? {α β : Type} : Outcome (α × β × Port) → Option Port
  | .ok r => some r.2.2
  | .threw r => some r.2.2
  | .undef => none
  | .timeout => none

/-- The return code of a run that returned. -/
def Outcome.ret? {β : Type} : Outcome (Int × β) → Option Int
  | .ok r => some r.1
  | _ => none

/-- Whether a port operation sends a command. -/
def PortOp.isSend : PortOp → Bool
  | .send _ _ => true
  | _ => false

/-- A run over the port `p` that attempts the operations `ops` in order stops at the
first failure: it performed the first `j` operations of `ops` and no other (leaving the
port `q`), every operation among them that returned a code other than `DEVICE_OK` is
the last one performed and its code is the return code `ret` of the run, and at most
one of the operations performed sends a command. -/
def StopsAtFailure (p : Port) (ops : List PortOp) (ret : Option Int) (q : Option Port) :
    Prop :=
  ∃ j, 1 ≤ j ∧ j ≤ ops.length ∧ q = some { p with log := p.log ++ ops.take j } ∧
    (∀ i, i < j → (p.reply (p.log.length + i)).1 ≠ DEVICE_OK →
      i + 1 = j ∧ ret = some (p.reply (p.log.length + i)).1) ∧
    ((ops.take j).filter PortOp.isSend).length ≤ 1

/-- The adjustment `t` that a turn of the tuning loop adds to the threshold, for the
difference `diff` between the output level and the target. -/
def tune_step (diff : Int) : Int :=
  if 50 < diff then -50 else if diff < -50 then 50 else if 0 < diff then -1 else 1

/-- The target `midop` of the tuner for a device whose output level is `f` of the
threshold. -/
def tuner_midop (f : Int → Int) (lo hi : Int) : Int :=
  to_float (to_long (Int.tdiv (to_long (clamp_long (f hi) - clamp_long (f lo))) 2 +
    clamp_long (f lo)))

/-- The output level of the device at the threshold `t` as the tuning loop holds it in
`currentop`: the level is sent in decimal, extracted as a `long` and converted to
`int`. -/
def tuner_op (f : Int → Int) (t : Int) : Int := to_int (clamp_long (f t))

/-- The threshold in force after `j` turns of the tuning loop, started at `hi`, for a
device whose output level is `f` of the threshold. -/
def tuner_thr (f : Int → Int) (midop hi : Int) : Nat → Int
  | 0 => hi
  | j + 1 =>
    to_int (tuner_thr f midop hi j +
      tune_step (float_sub (to_float (tuner_op f (tuner_thr f midop hi j))) midop))

/-- The difference `diff` after `j` turns of the tuning loop. -/
def tuner_diff (f : Int → Int) (midop hi : Int) (j : Nat) : Int :=
  float_sub (to_float (tuner_op f (tuner_thr f midop hi j))) midop

/-- The port operations of one turn of the `for` loop of the setup functions. -/
def level_plan (k : KUtils) (threshstr trigopstr : Str) (thr : Int) : List PortOp :=
  NumericSet_plan k threshstr thr ++ [PortOp.purge] ++ NumericGet_plan k trigopstr ++
    [PortOp.purge]

/-- The port operations of the first `j` turns of the tuning loop against a device
whose output level is `f` of the threshold: in each turn the set transaction of the
new threshold, then the get transaction of the output level. -/
def tuner_log (f : Int → Int) (k : KUtils) (threshstr trigopstr : Str) (midop hi : Int) :
    Nat → List PortOp
  | 0 => []
  | j + 1 =>
    tuner_log f k threshstr trigopstr midop hi j ++
      (NumericSet_plan k threshstr (tuner_thr f midop hi (j + 1)) ++
        NumericGet_plan k trigopstr)

/-- What a device whose output level is `f` of the threshold last set answers to the
`n`-th port operation of the tuner with the bounds `lo` and `hi`: every operation
succeeds; the first answer of a get transaction is the echo `echo` of the query and
the output level for the threshold set before it, the second is ` ok`. -/
def tuner_reply (f : Int → Int) (echo : Str) (lo hi : Int) (n : Nat) : Int × Str :=
  if n = 5 then (DEVICE_OK, echo ++ lexical_cast (f lo))
  else if n = 13 then (DEVICE_OK, echo ++ lexical_cast (f hi))
  else if n = 6 ∨ n = 14 then (DEVICE_OK, " ok".toList)
  else if 16 ≤ n ∧ (n - 16) % 6 = 4 then
    (DEVICE_OK,
      echo ++ lexical_cast (f (tuner_thr f (tuner_midop f lo hi) hi ((n - 16) / 6 + 1))))
  else if 16 ≤ n ∧ (n - 16) % 6 = 5 then (DEVICE_OK, " ok".toList)
  else (DEVICE_OK, [])

/-! ## Example inputs -/

/-- The calibration file of the scenario: a delay block of three rows, then a width
block. -/
def scenario_file : TextFile :=
  { lines := ["Delay (ps),".toList, "0,100".toList, "500,150".toList, "1200,300".toList,
      "Width (ps),".toList, "1300,135".toList],
    terminated := true }

/-- A file system in which every path leads to the file of the scenario. -/
def scenario_fs : FileSystem := fun _ => some scenario_file

/-- A port on which every operation succeeds and every line received is empty. -/
def port_ok : Port := { reply := fun _ => (DEVICE_OK, []), log := [] }

/-- A file system in which no file can be opened. -/
def no_fs : FileSystem := fun _ => none

/-- Surroundings in which the property table accepts every call. -/
def env_ok (fs : FileSystem) : Env :=
  { fs := fs, SetPropertyLimits := fun _ _ _ => DEVICE_OK,
    SetProperty_validate := fun _ _ => DEVICE_OK }

/-- Surroundings in which the property table refuses limits whose lower bound is not
below the upper bound, with the code `24`. -/
def env_limits (fs : FileSystem) : Env :=
  { fs := fs, SetPropertyLimits := fun _ low high => if low < high then DEVICE_OK else 24,
    SetProperty_validate := fun _ _ => DEVICE_OK }

/-- A calibration file whose delay block has the single row `0,100`. -/
def zero_file : TextFile :=
  { lines := ["Delay (ps),".toList, "0,100".toList], terminated := true }

/-- The members of a `KHDG` after its constructor and `Initialize()`. -/
def KHDG_initial (calibPath : Str) : Dev :=
  { KHDG800_initial calibPath with
    delstr_ := "DEL".toList, polarityPositive_ := false, fiftyOhmInput_ := true,
    triggerAttenuated_ := false, triggerDC_ := true, eightyMhz_ := true,
    polstr_ := "TPL".toList, monostr_ := [], couplingstr_ := "TDC".toList,
    impedancestr_ := "T50".toList, attenuationstr_ := "TAT".toList,
    threshstr_ := "TTH".toList, trigopstr_ := "TFB".toList, onoffstr_ := "OUT".toList }

/-- The members of a `KSE` after its constructor and `Initialize()`. -/
def KSE_initial (calibPath : Str) : Dev :=
  { KHDG800_initial calibPath with
    delstr_ := "delay".toList, gainstr_ := "mcp".toList, widthstr_ := "width".toList,
    inhibited_ := true, width_ := 511, gain_ := 50, polstr_ := [], monostr_ := [],
    threshstr_ := [], trigopstr_ := [] }

/-- The `KHDG800` after `OnCalibrate` has loaded the file of the scenario. -/
def scenario_calibrated : Dev :=
  { KHDG800_initial [] with
    calibrated_ := true, delay_settings := [100, 150, 300], real_delays := [0, 500, 1200] }

/-- A port on which every operation fails with the code `14`. -/
def port_failing : Port := { reply := fun _ => (14, []), log := [] }

/-- A port that answers the successive operations with the given codes and lines,
and with `DEVICE_OK` and an empty line after them. -/
def port_script (script : List (Int × String)) : Port :=
  { reply := fun n => ((script.getD n (DEVICE_OK, "")).1, (script.getD n (DEVICE_OK, "")).2.toList),
    log := [] }

/-- The command strings of a `KHDG`, with an empty get operator. -/
def k_plain : KUtils :=
  { port_ := "COM1".toList, termstr_ := "\r".toList, getcmdstr_ := [], setcmdstr_ := " !".toList }

/-- The members of a `KSDB` after its constructor and `Initialize()`. -/
def KSDB_initial (calibPath : Str) : Dev :=
  { KHDG800_initial calibPath with
    k_ := { port_ := "Undefined".toList, termstr_ := "\r".toList, getcmdstr_ := "?".toList,
            setcmdstr_ := " ".toList },
    delstr_ := "PS".toList, setcmdstr_ := " ".toList, polstr_ := [], monostr_ := [],
    threshstr_ := [], trigopstr_ := [] }

/-- The members of a `KHRI` after its constructor and `Initialize()`, with the mode
number `modeNumber` chosen before. -/
def KHRI_initial (modeNumber : Int) : Dev :=
  { k_ := { port_ := "Undefined".toList, termstr_ := "\r".toList, getcmdstr_ := ".".toList,
            setcmdstr_ := " !".toList },
    delstr_ := [], setcmdstr_ := " !".toList, termstr_ := "\r".toList, calibPath_ := [],
    delay_ := 0, calibrated_ := false, maxdelay_ := 0, delay_settings := [],
    real_delays := [], initialized_ := true, polarityPositive_ := false,
    eclTrigger_ := true, fiftyOhmInput_ := true, gain_ := 0, width_ := 200,
    inhibited_ := true, dcMode_ := false, modeNumber_ := modeNumber,
    modeNumbers_ := [2, 21, 22, 23],
    modeDescriptions_ := ["Comb".toList, "RF".toList, "Logic - Low Duty Cycle".toList,
      "Logic - High Duty Cycle".toList],
    modestr_ := "MODE".toList, mcpstr_ := "MCPVOLTS".toList, rfstr_ := "RFGAIN".toList }

/-- A port on which a get transaction succeeds with the first answer `line` and the
second answer ` ok`. -/
def port_answering (line : String) : Port :=
  port_script [(0, ""), (0, ""), (0, line), (0, " ok")]

/-- A port on which every operation succeeds and the first four toggle commands of a
`KHDG` after its constructor are echoed with `  ok`. -/
def KHDG_port : Port :=
  port_script [(0, ""), (0, ""), (0, "80MHZ  ok"), (0, ""), (0, ""), (0, "+T50  ok"), (0, ""),
    (0, ""), (0, "-TPL  ok"), (0, ""), (0, ""), (0, "-TAT  ok"), (0, "")]

/-- The port of a device whose output level is `f` of the threshold last set, as the
tuner with the bounds `lo` and `hi` meets it from its first operation. -/
def tuner_port (f : Int → Int) (echo : Str) (lo hi : Int) : Port :=
  { reply := tuner_reply f echo lo hi, log := [] }

/-- The port of such a device as `SetupHDG800` meets it on a `KHDG800` after its
constructor: the purge and the two toggle commands `-usemono` and `+pol`, echoed with
`  ok`, come before the operations of the tuner. -/
def HDG800_port (f : Int → Int) : Port :=
  { reply := fun n =>
      if n = 2 then (DEVICE_OK, "-usemono  ok".toList)
      else if n = 5 then (DEVICE_OK, "+pol  ok".toList)
      else if n < 7 then (DEVICE_OK, [])
      else tuner_reply f ".oplevel".toList 1500 3500 (n - 7),
    log := [] }

/-- The synthetic device whose output level equals the threshold. -/
def identity_output : Int → Int := fun threshold => threshold

/-- A device whose output level steps from `0` to `40` at the threshold `3500`. -/
def step_output : Int → Int := fun threshold => if threshold < 3500 then 0 else 40

/-- A device whose output level is `134217742` below the threshold `2500` and
`134217728` from it on. -/
def rail_output : Int → Int := fun threshold =>
  if threshold < 2500 then 134217742 else 134217728

/-- A device whose output level is `134217790` below the threshold `2500`, `134217680`
at the threshold `3500` and `134217728` at the other thresholds. -/
def far_output : Int → Int := fun threshold =>
  if threshold < 2500 then 134217790 else if threshold = 3500 then 134217680 else 134217728

/-! ## Lemmas on the lookup -/

/-- A value in the range of `int` is its own conversion. -/
theorem to_int_eq (x : Int) (h1 : -2147483648 ≤ x) (h2 : x ≤ 2147483647) : to_int x = x := by
  unfold to_int
  omega

/-- A conversion to `int` is in the range of `int`. -/
theorem to_int_range (x : Int) : -2147483648 ≤ to_int x ∧ to_int x ≤ 2147483647 := by
  unfold to_int
  omega

theorem answer_eq_map (v : Int) (xs : Vec) :
    answer v xs = xs.map (fun a => to_int (iabs (to_int (a - to_int v)))) := by
  unfold answer
  induction xs with
  | nil => rfl
  | cons x xs ih => simp [List.replicate_succ, ih]

/-- The distance computed in `int` is the exact one when the value is an `int` and the
exact difference has a magnitude below `2^31`. -/
theorem int_distance_exact (a v : Int) (hv : -2147483648 ≤ v ∧ v ≤ 2147483647)
    (hd : (a - v).natAbs ≤ 2147483647) :
    to_int (iabs (to_int (a - to_int v))) = iabs (a - v) := by
  rw [to_int_eq v hv.1 hv.2, to_int_eq (a - v) (by omega) (by omega)]
  apply to_int_eq <;> unfold iabs <;> split <;> omega

/-- The vector `answer` holds the exact distances when none of them overflows. -/
theorem answer_exact (v : Int) (xs : Vec) (hv : -2147483648 ≤ v ∧ v ≤ 2147483647)
    (hd : ∀ m ∈ xs, (m - v).natAbs ≤ 2147483647) :
    answer v xs = xs.map (fun a => iabs (a - v)) := by
  rw [answer_eq_map]
  apply List.map_congr_left
  intro a ha
  exact int_distance_exact a v hv (hd a ha)

theorem answer_length (v : Int) (xs : Vec) : (answer v xs).length = xs.length := by
  simp [answer_eq_map]

/-- What the scan of `min_element` returns, for a scan resumed at index `i` with a
current candidate `smallest < i` of value `sv`. -/
theorem min_element_loop_spec (rest : List Int) :
    ∀ (i smallest : Nat) (sv : Int), smallest < i →
      let r := min_element_loop rest i smallest sv
      (r = smallest ∧ ∀ x ∈ rest, sv ≤ x) ∨
      (∃ k, ∃ (hk : k < rest.length), r = i + k ∧ rest[k] < sv ∧
        (∀ j (hj : j < rest.length), rest[k] ≤ rest[j]) ∧
        (∀ j (hj : j < rest.length), j < k → rest[k] < rest[j])) := by
  induction rest with
  | nil => intro i s sv _; left; simp [min_element_loop]
  | cons x rest ih =>
    intro i s sv hs
    simp only [min_element_loop]
    by_cases hx : x < sv
    · simp only [hx, if_true]
      rcases ih (i + 1) i x (Nat.lt_succ_self i) with ⟨hr, hall⟩ | ⟨k, hk, hr, hlt, hmin, hfirst⟩
      · right
        refine ⟨0, by simp, by simpa using hr, by simpa using hx, ?_, ?_⟩
        · intro j hj
          cases j with
          | zero => simp
          | succ j =>
            simp only [List.getElem_cons_zero, List.getElem_cons_succ]
            exact hall _ (List.getElem_mem _)
        · intro j _ hj0; omega
      · right
        refine ⟨k + 1, by simpa using hk, by rw [hr]; omega, ?_, ?_, ?_⟩
        · simp only [List.getElem_cons_succ]; omega
        · intro j hj
          cases j with
          | zero => simp only [List.getElem_cons_zero, List.getElem_cons_succ]; omega
          | succ j =>
            simp only [List.getElem_cons_succ]
            exact hmin j (by simpa using hj)
        · intro j hj hjk
          cases j with
          | zero => simp only [List.getElem_cons_zero, List.getElem_cons_succ]; omega
          | succ j =>
            simp only [List.getElem_cons_succ]
            exact hfirst j (by simpa using hj) (by omega)
    · simp only [hx, if_false]
      rcases ih (i + 1) s sv (by omega) with ⟨hr, hall⟩ | ⟨k, hk, hr, hlt, hmin, hfirst⟩
      · left
        refine ⟨hr, ?_⟩
        intro y hy
        rcases List.mem_cons.mp hy with rfl | hy
        · omega
        · exact hall y hy
      · right
        refine ⟨k + 1, by simpa using hk, by rw [hr]; omega, ?_, ?_, ?_⟩
        · simpa only [List.getElem_cons_succ] using hlt
        · intro j hj
          cases j with
          | zero => simp only [List.getElem_cons_zero, List.getElem_cons_succ]; omega
          | succ j =>
            simp only [List.getElem_cons_succ]
            exact hmin j (by simpa using hj)
        · intro j hj hjk
          cases j with
          | zero => simp only [List.getElem_cons_zero, List.getElem_cons_succ]; omega
          | succ j =>
            simp only [List.getElem_cons_succ]
            exact hfirst j (by simpa using hj) (by omega)

/-- On a non-empty vector `min_element` is the index of the first smallest element. -/
theorem min_element_spec (xs : List Int) (hne : xs ≠ []) :
    ∃ i, ∃ (_ : i < xs.length), min_element xs = i ∧
      (∀ j (hj : j < xs.length), xs[i] ≤ xs[j]) ∧
      (∀ j (hj : j < xs.length), j < i → xs[i] < xs[j]) := by
  cases xs with
  | nil => exact absurd rfl hne
  | cons x rest =>
    simp only [min_element]
    rcases min_element_loop_spec rest 1 0 x (by omega) with
      ⟨hr, hall⟩ | ⟨k, hk, hr, hlt, hmin, hfirst⟩
    · refine ⟨0, by simp, hr, ?_, ?_⟩
      · intro j hj
        cases j with
        | zero => simp
        | succ j =>
          simp only [List.getElem_cons_zero, List.getElem_cons_succ]
          exact hall _ (List.getElem_mem _)
      · intro j _ hj0; omega
    · refine ⟨k + 1, by simpa using hk, by omega, ?_, ?_⟩
      · intro j hj
        cases j with
        | zero => simp only [List.getElem_cons_zero, List.getElem_cons_succ]; omega
        | succ j =>
          simp only [List.getElem_cons_succ]
          exact hmin j (by simpa using hj)
      · intro j hj hjk
        cases j with
        | zero => simp only [List.getElem_cons_zero, List.getElem_cons_succ]; omega
        | succ j =>
          simp only [List.getElem_cons_succ]
          exact hfirst j (by simpa using hj) (by omega)

/-- The rational floor of the uncalibrated branch is an integer division. -/
theorem round25_eq (v : Int) : round25 v = 25 * ((2 * v + 25) / 50) := by
  unfold round25
  congr 1
  rw [Int.floor_eq_iff]
  have h1 := Int.emod_add_ediv (2 * v + 25) 50
  have h2 := Int.emod_nonneg (2 * v + 25) (by norm_num : (50 : Int) ≠ 0)
  have h3 := Int.emod_lt_of_pos (2 * v + 25) (by norm_num : (0 : Int) < 50)
  set q := (2 * v + 25) / 50 with hq
  set r := (2 * v + 25) % 50 with hr
  have hv : (v : ℚ) = (50 * (q : ℚ) + r - 25) / 2 := by
    have : ((2 * v + 25 : Int) : ℚ) = ((r + 50 * q : Int) : ℚ) := by rw [h1]
    push_cast at this
    linarith
  have hr0 : (0 : ℚ) ≤ r := by exact_mod_cast h2
  have hr1 : (r : ℚ) < 50 := by exact_mod_cast h3
  constructor
  · rw [hv]; linarith
  · rw [hv]; linarith

theorem fill_loop_shift (a b : Vec) :
    ∀ (fuel : Nat) (s : FillState),
      fill_loop fuel (s.shift a b) = (fill_loop fuel s).map (FillState.shift a b) := by
  intro fuel
  induction fuel with
  | zero => intro s; rfl
  | succ fuel ih =>
    intro s
    obtain ⟨setting, real_var, file, pos, line, temp⟩ := s
    rcases temp with _ | ⟨t0, _ | ⟨t1, rest⟩⟩
    · simp only [fill_loop, FillState.shift]
      split <;> rfl
    · simp only [fill_loop, FillState.shift]
      split <;> rfl
    · simp only [fill_loop, FillState.shift]
      split
      · have := ih { setting := setting ++ [atoi (c_str t1)],
                     real_var := real_var ++ [atoi (c_str t0)],
                     file := (getline (tellg file).1 line).1, pos := (tellg file).2,
                     line := (getline (tellg file).1 line).2,
                     temp := split (getline (tellg file).1 line).2 }
        simp only [FillState.shift, List.append_assoc] at this ⊢
        exact this
      · rfl

theorem fill_vectors_shift (a b setting real_var : Vec) (file : IfStream) :
    fill_vectors (a ++ setting) (b ++ real_var) file =
      (fill_vectors setting real_var file).map
        (fun r => (r.1, a ++ r.2.1, b ++ r.2.2.1, r.2.2.2)) := by
  simp only [fill_vectors]
  have h := fill_loop_shift a b ((getline file []).1.lines.length + 2)
    { setting := setting, real_var := real_var, file := (getline file []).1, pos := 0,
      line := (getline file []).2, temp := split (getline file []).2 }
  simp only [FillState.shift] at h
  rw [h]
  cases fill_loop ((getline file []).1.lines.length + 2)
    { setting := setting, real_var := real_var, file := (getline file []).1, pos := 0,
      line := (getline file []).2, temp := split (getline file []).2 } <;> rfl

theorem populate_loop_shift (a b : Vec) :
    ∀ (fuel : Nat) (ds rd : Vec) (file : IfStream) (line : Str),
      populate_loop fuel (a ++ ds) (b ++ rd) file line =
        (populate_loop fuel ds rd file line).map (fun r => (a ++ r.1, b ++ r.2)) := by
  intro fuel
  induction fuel with
  | zero => intros; rfl
  | succ fuel ih =>
    intro ds rd file line
    simp only [populate_loop]
    split
    · rfl
    · split
      · rw [fill_vectors_shift]
        cases hfv : fill_vectors ds rd (getline file line).1 with
        | ok r =>
          obtain ⟨fpos, s, r, f⟩ := r
          simp only [Outcome.map]
          exact ih _ _ _ _
        | threw r => rfl
        | undef => rfl
        | timeout => rfl
      · exact ih _ _ _ _

theorem PopulateCalibrationVectors_shift (fuel : Nat) (fs : FileSystem) (path : Str)
    (ds rd : Vec) :
    PopulateCalibrationVectors fuel fs path ds rd =
      (PopulateCalibrationVectors fuel fs path [] []).map
        (fun r => (r.1, ds ++ r.2.1, rd ++ r.2.2)) := by
  simp only [PopulateCalibrationVectors]
  cases fs (c_str path) with
  | none => simp [Outcome.map]
  | some f =>
    simp only
    have h := populate_loop_shift ds rd fuel [] [] (IfStream.opened f.lines f.terminated) []
    simp only [List.append_nil] at h
    rw [h]
    cases populate_loop fuel [] [] (IfStream.opened f.lines f.terminated) [] <;> rfl

theorem fill_loop_length :
    ∀ (fuel : Nat) (s r : FillState), s.setting.length = s.real_var.length →
      fill_loop fuel s = .ok r → r.setting.length = r.real_var.length := by
  intro fuel
  induction fuel with
  | zero => intro s r _ h; simp [fill_loop] at h
  | succ fuel ih =>
    intro s r hlen h
    simp only [fill_loop] at h
    split at h
    · split at h
      · exact ih _ _ (by simp [hlen]) h
      · simp at h
    · simp only [Outcome.ok.injEq] at h
      rw [← h]; exact hlen

theorem fill_vectors_length (setting real_var : Vec) (file : IfStream) (pos : Int)
    (s r : Vec) (f : IfStream) (hlen : setting.length = real_var.length)
    (h : fill_vectors setting real_var file = .ok (pos, s, r, f)) :
    s.length = r.length := by
  simp only [fill_vectors] at h
  split at h <;> simp only [Outcome.ok.injEq, Prod.mk.injEq, reduceCtorEq] at h
  rename_i st hst
  obtain ⟨_, h1, h2, _⟩ := h
  rw [← h1, ← h2]
  exact fill_loop_length _ _ _ hlen hst

theorem populate_loop_length :
    ∀ (fuel : Nat) (ds rd : Vec) (file : IfStream) (line : Str) (ds1 rd1 : Vec),
      ds.length = rd.length → populate_loop fuel ds rd file line = .ok (ds1, rd1) →
      ds1.length = rd1.length := by
  intro fuel
  induction fuel with
  | zero => intro _ _ _ _ _ _ _ h; simp [populate_loop] at h
  | succ fuel ih =>
    intro ds rd file line ds1 rd1 hlen h
    simp only [populate_loop] at h
    split at h
    · simp only [Outcome.ok.injEq, Prod.mk.injEq] at h
      rw [← h.1, ← h.2]; exact hlen
    · split at h
      · split at h
        · rename_i fpos s r f hfv
          exact ih _ _ _ _ _ _ (fill_vectors_length _ _ _ _ _ _ _ hlen hfv) h
        · simp at h
        · simp at h
        · simp at h
      · exact ih _ _ _ _ _ _ hlen h

/-! ### Fields of a line -/

theorem split_ne_nil (s : Str) : split s ≠ [] := by
  cases s with
  | nil => simp [split]
  | cons c cs =>
    simp only [split]
    split
    · simp
    · split <;> simp

theorem isDigit_ne_nul (c : Char) (h : c.isDigit = true) : (c != Char.ofNat 0) = true := by
  rw [bne_iff_ne]
  intro hc; subst hc; revert h; decide

theorem c_str_digits (a : Str) (ha : a.all Char.isDigit = true) : c_str a = a := by
  unfold c_str
  induction a with
  | nil => rfl
  | cons c cs ih =>
    simp only [List.all_cons, Bool.and_eq_true] at ha
    simp only [List.takeWhile, isDigit_ne_nul c ha.1, ih ha.2]

/-! ### Decimal representations -/

theorem digitChar_isDigit (d : Nat) (h : d < 10) : (Nat.digitChar d).isDigit = true := by
  interval_cases d <;> decide

theorem digitChar_toNat (d : Nat) (h : d < 10) : (Nat.digitChar d).toNat - 48 = d := by
  interval_cases d <;> decide

theorem toDigitsCore_all (fuel : Nat) :
    ∀ (n : Nat) (ds : Str), ds.all Char.isDigit = true →
      (Nat.toDigitsCore 10 fuel n ds).all Char.isDigit = true := by
  induction fuel with
  | zero => intro n ds h; simpa [Nat.toDigitsCore] using h
  | succ fuel ih =>
    intro n ds h
    simp only [Nat.toDigitsCore]
    have hd := digitChar_isDigit (n % 10) (Nat.mod_lt _ (by norm_num))
    split
    · simp only [List.all_cons, hd, Bool.true_and]; exact h
    · exact ih _ _ (by simp only [List.all_cons, hd, Bool.true_and]; exact h)

theorem toDigitsCore_ne_nil (fuel : Nat) :
    ∀ (n : Nat) (ds : Str), ds ≠ [] → Nat.toDigitsCore 10 fuel n ds ≠ [] := by
  induction fuel with
  | zero => intro n ds h; simpa [Nat.toDigitsCore] using h
  | succ fuel ih =>
    intro n ds h
    simp only [Nat.toDigitsCore]
    split
    · simp
    · exact ih _ _ (by simp)

theorem toDigits_all (n : Nat) : (Nat.toDigits 10 n).all Char.isDigit = true :=
  toDigitsCore_all _ _ _ rfl

theorem toDigits_ne_nil (n : Nat) : Nat.toDigits 10 n ≠ [] := by
  unfold Nat.toDigits
  simp only [Nat.toDigitsCore]
  split
  · simp
  · exact toDigitsCore_ne_nil _ _ _ (by simp)

theorem atoi_digits_append (a b : Str) (ha : a.all Char.isDigit = true) (acc : Int) :
    atoi_digits acc (a ++ b) = atoi_digits (atoi_digits acc a) b := by
  induction a generalizing acc with
  | nil => rfl
  | cons c cs ih =>
    simp only [List.all_cons, Bool.and_eq_true] at ha
    simp only [List.cons_append, atoi_digits, ha.1, if_true]
    exact ih ha.2 _

/-- Reading back the digits produced for `n` in front of digits `ds`. -/
theorem atoi_digits_toDigitsCore (fuel : Nat) :
    ∀ (n : Nat) (ds : Str), n < fuel →
      ∀ acc : Int, atoi_digits acc (Nat.toDigitsCore 10 fuel n ds)
        = atoi_digits (acc * 10 ^ (Nat.toDigitsCore 10 fuel n []).length + n) ds := by
  induction fuel with
  | zero => intro n ds h; omega
  | succ fuel ih =>
    intro n ds hn acc
    simp only [Nat.toDigitsCore]
    have hd := digitChar_isDigit (n % 10) (Nat.mod_lt _ (by norm_num))
    have hv := digitChar_toNat (n % 10) (Nat.mod_lt _ (by norm_num))
    by_cases h0 : n / 10 = 0
    · simp only [h0, if_true, atoi_digits, hd, List.length_singleton, pow_one, hv]
      have : n % 10 = n := by omega
      rw [this]
    · simp only [h0, if_false]
      have hlt : n / 10 < fuel := by omega
      rw [ih (n / 10) _ hlt acc]
      simp only [atoi_digits, hd, if_true, hv]
      have hlen : (Nat.toDigitsCore 10 fuel (n / 10) [Nat.digitChar (n % 10)]).length
          = (Nat.toDigitsCore 10 fuel (n / 10) []).length + 1 :=
        Nat.toDigitsCore_lens_eq 10 fuel (n / 10) _ []
      rw [hlen, pow_succ]
      congr 1
      have := Nat.div_add_mod n 10
      push_cast
      zify at this
      linarith

theorem atoi_digits_toDigits (n : Nat) : atoi_digits 0 (Nat.toDigits 10 n) = n := by
  unfold Nat.toDigits
  rw [atoi_digits_toDigitsCore (n + 1) n [] (Nat.lt_succ_self n) 0]
  simp [atoi_digits]

theorem dropWhile_isspace_digits (a : Str) (ha : a.all Char.isDigit = true) :
    a.dropWhile isspace = a := by
  cases a with
  | nil => rfl
  | cons c cs =>
    simp only [List.all_cons, Bool.and_eq_true] at ha
    have : isspace c = false := by
      have h1 := ha.1
      simp only [Char.isDigit, Bool.and_eq_true, decide_eq_true_eq] at h1
      simp only [isspace, Bool.or_eq_false_iff, Bool.and_eq_false_iff, decide_eq_false_iff_not]
      have hv : c.toNat = c.val.toNat := rfl
      have h48 : ('0' : Char).val.toNat = 48 := by decide
      have h1a : 48 ≤ c.val.toNat := h1.1
      constructor
      · intro hc; subst hc; revert h1a; decide
      · right; omega
    simp [List.dropWhile, this]

/-- The function `atoi` on a non-empty string of digits is the number they denote. -/
theorem atoi_digits_only (a : Str) (ha : a.all Char.isDigit = true) :
    atoi a = atoi_digits 0 a := by
  unfold atoi
  rw [dropWhile_isspace_digits a ha]
  cases a with
  | nil => rfl
  | cons c cs =>
    simp only [List.all_cons, Bool.and_eq_true] at ha
    have hm : c ≠ '-' := by intro hc; subst hc; exact absurd ha.1 (by decide)
    have hp : c ≠ '+' := by intro hc; subst hc; exact absurd ha.1 (by decide)
    split
    · rename_i heq; simp only [List.cons.injEq] at heq; exact absurd heq.1 hm
    · rename_i heq; simp only [List.cons.injEq] at heq; exact absurd heq.1 hp
    · rfl

theorem atoi_lexical_cast (n : Nat) : atoi (lexical_cast n) = n := by
  have h : lexical_cast (n : Int) = Nat.toDigits 10 n := by
    simp [lexical_cast]
  rw [h, atoi_digits_only _ (toDigits_all n), atoi_digits_toDigits]

theorem drop_head_getElem? {α : Type} (L : List α) (i : Nat) (x : α) (rest : List α)
    (h : L.drop i = x :: rest) : L[i]? = some x ∧ L.drop (i + 1) = rest ∧
      L.length = i + 1 + rest.length := by
  have h1 : L[i]? = some x := by
    have := List.head?_drop L i
    rw [h] at this
    simpa using this.symm
  have h2 : L.drop (i + 1) = rest := by
    have := List.drop_drop 1 i L
    rw [h] at this
    simpa [Nat.add_comm] using this.symm
  refine ⟨h1, h2, ?_⟩
  have := congrArg List.length h
  simp only [List.length_drop, List.length_cons] at this
  have hi : i < L.length := by
    rcases Nat.lt_or_ge i L.length with hlt | hge
    · exact hlt
    · rw [List.getElem?_eq_none hge] at h1; exact absurd h1 (by simp)
  omega

/-- Reading a line that is not the unterminated last line of the file. -/
theorem getline_mid (L : List Str) (term : Bool) (i : Nat) (line x : Str)
    (hx : L[i]? = some x) (hmid : i + 1 < L.length ∨ term = true) :
    getline ⟨L, term, i, false, false⟩ line = (⟨L, term, i + 1, false, false⟩, x) := by
  simp only [getline, Bool.or_self, Bool.false_eq_true, if_false, hx]
  rcases hmid with h | h
  · have : ¬ (i + 1 = L.length) := by omega
    simp [this]
  · simp [h]

theorem fill_loop_not_number (fuel : Nat) (s : FillState)
    (h : is_number (c_str (s.temp.headD [])) = false) : fill_loop (fuel + 1) s = .ok s := by
  simp only [fill_loop, h, Bool.false_and, Bool.false_eq_true, if_false]

theorem populate_loop_line_irrel (fuel : Nat) (ds rd : Vec) (file : IfStream) (l1 l2 : Str) :
    populate_loop fuel ds rd file l1 = populate_loop fuel ds rd file l2 := by
  cases fuel with
  | zero => rfl
  | succ fuel =>
    simp only [populate_loop]
    by_cases hg : (file.eofbit || file.failbit) = true
    · simp [getline, hg]
    · have : getline file l1 = getline file l2 := by simp [getline, hg]
      rw [this]

/-- The loop of `PopulateCalibrationVectors` passes over lines that are not delay
headers and are followed by further lines. -/
theorem populate_loop_skip (L : List Str) (term : Bool) (ds rd : Vec) (rest : List Str)
    (hrest : rest ≠ []) :
    ∀ (pre : List Str) (i fuel : Nat) (line : Str),
      L.drop i = pre ++ rest → (∀ l ∈ pre, field0 l ≠ delayHeader) →
      populate_loop (fuel + pre.length) ds rd ⟨L, term, i, false, false⟩ line =
        populate_loop fuel ds rd ⟨L, term, i + pre.length, false, false⟩ line := by
  intro pre
  induction pre with
  | nil => intro i fuel line _ _; rfl
  | cons l pre ih =>
    intro i fuel line hdrop hno
    obtain ⟨hx, hd1, hlen⟩ := drop_head_getElem? L i l (pre ++ rest) (by simpa using hdrop)
    have hne : 0 < rest.length := List.length_pos.mpr hrest
    simp only [List.length_append] at hlen
    have e : fuel + (l :: pre).length = (fuel + pre.length) + 1 := by
      simp only [List.length_cons]; omega
    rw [e]
    simp only [populate_loop]
    rw [getline_mid L term i line l hx (Or.inl (by omega))]
    have hnot : ¬ (c_str ((split l).headD []) = "Delay (ps)".toList) := hno l (by simp)
    simp only [Bool.false_eq_true, if_false, hnot]
    rw [ih (i + 1) fuel l hd1 (fun l' hl' => hno l' (by simp [hl']))]
    have e2 : i + 1 + pre.length = i + (l :: pre).length := by
      simp only [List.length_cons]; omega
    rw [e2]
    exact populate_loop_line_irrel _ _ _ _ _ _

/-! ### Rows of numbers -/

theorem lexical_cast_nat (n : Nat) : lexical_cast (n : Int) = Nat.toDigits 10 n := by
  simp [lexical_cast]

theorem getline_lines (f : IfStream) (l : Str) : (getline f l).1.lines = f.lines := by
  simp only [getline]
  split
  · rfl
  · split
    · rfl
    · split <;> rfl

theorem tellg_lines (f : IfStream) : (tellg f).1.lines = f.lines := by
  simp only [tellg]; split <;> rfl

theorem seekg_lines (f : IfStream) (p : Int) : (seekg f p).lines = f.lines := by
  simp only [seekg]
  split
  · rfl
  · split <;> rfl

theorem getline_mem (f : IfStream) (l : Str) (h : (getline f l).1.failbit = false) :
    (getline f l).2 ∈ f.lines := by
  simp only [getline] at h ⊢
  split at h
  · simp at h
  · rename_i hg
    simp only [hg, Bool.false_eq_true, if_false]
    rcases hx : f.lines[f.pos]? with _ | x
    · rw [hx] at h; simp at h
    · have hm : x ∈ f.lines := List.getElem?_mem hx
      simp only
      split <;> exact hm

theorem fill_loop_lines :
    ∀ (fuel : Nat) (s r : FillState), fill_loop fuel s = .ok r →
      r.file.lines = s.file.lines := by
  intro fuel
  induction fuel with
  | zero => intro s r h; simp [fill_loop] at h
  | succ fuel ih =>
    intro s r h
    simp only [fill_loop] at h
    split at h
    · split at h
      · have := ih _ _ h
        simp only [getline_lines, tellg_lines] at this
        exact this
      · simp at h
    · simp only [Outcome.ok.injEq] at h
      rw [← h]

theorem fill_vectors_lines (setting real_var : Vec) (file : IfStream) (pos : Int)
    (s r : Vec) (f : IfStream) (h : fill_vectors setting real_var file = .ok (pos, s, r, f)) :
    f.lines = file.lines := by
  simp only [fill_vectors] at h
  split at h <;> simp only [Outcome.ok.injEq, Prod.mk.injEq, reduceCtorEq] at h
  rename_i st hst
  obtain ⟨_, _, _, h4⟩ := h
  rw [← h4]
  have := fill_loop_lines _ _ _ hst
  simpa only [getline_lines] using this

/-- On a file without width and MCP headers `KSE::PopulateCalibrationVectors` runs
as the loop of the other classes does. -/
theorem KSE_populate_loop_eq :
    ∀ (fuel : Nat) (d : Dev) (file : IfStream) (line : Str),
      (∀ l ∈ file.lines, field0 l ≠ "Width (ps)".toList ∧ field0 l ≠ "MCP (V)".toList) →
      KSE_populate_loop fuel d file line =
        (populate_loop fuel d.delay_settings d.real_delays file line).map
          (fun r => { d with delay_settings := r.1, real_delays := r.2 }) := by
  intro fuel
  induction fuel with
  | zero => intros; rfl
  | succ fuel ih =>
    intro d file line hno
    simp only [KSE_populate_loop, populate_loop]
    by_cases hf : (getline file line).1.failbit = true
    · simp [hf, Outcome.map]
    · have hf2 : (getline file line).1.failbit = false := by simpa using hf
      have hm := hno _ (getline_mem file line hf2)
      simp only [field0] at hm
      simp only [hf2, Bool.false_eq_true, if_false]
      by_cases hd : c_str ((split (getline file line).2).headD []) = "Delay (ps)".toList
      · simp only [hd, if_true]
        cases hfv : fill_vectors d.delay_settings d.real_delays (getline file line).1 with
        | ok r =>
          obtain ⟨fpos, s, r, f⟩ := r
          simp only
          have hl := fill_vectors_lines _ _ _ _ _ _ _ hfv
          rw [getline_lines] at hl
          have := ih { d with delay_settings := s, real_delays := r } (seekg f fpos)
            (getline file line).2 (by rw [seekg_lines, hl]; exact hno)
          rw [this]
        | threw r => rfl
        | undef => rfl
        | timeout => rfl
      · simp only [hd, if_false, hm.1, hm.2]
        exact ih d _ _ (by rw [getline_lines]; exact hno)

/-! ### `fill_vectors` is total -/

theorem is_number_split_nil : is_number (c_str ((split []).headD [])) = false := by
  decide

/-- Reading from a stream that is `good()`: a failure leaves the empty line, and the
stream has fewer turns left. -/
theorem getline_good (L : List Str) (term : Bool) (i : Nat) (line : Str) :
    ((getline ⟨L, term, i, false, false⟩ line).1.failbit = true →
        (getline ⟨L, term, i, false, false⟩ line).2 = []) ∧
      (getline ⟨L, term, i, false, false⟩ line).1.turns + 1 ≤
        (IfStream.mk L term i false false).turns ∧
      (getline ⟨L, term, i, false, false⟩ line).1.lines = L := by
  simp only [getline, Bool.or_self, Bool.false_eq_true, if_false]
  rcases hx : L[i]? with _ | x
  · simp [IfStream.turns]
  · have hi : i < L.length := by
      rcases Nat.lt_or_ge i L.length with h | h
      · exact h
      · rw [List.getElem?_eq_none h] at hx; exact absurd hx (by simp)
    simp only
    by_cases hlast : (decide (i + 1 = L.length) && !term) = true
    · rw [if_pos hlast]
      refine ⟨?_, ?_, rfl⟩
      · intro he
        exact List.isEmpty_iff.mp he
      · simp [IfStream.turns]
    · rw [if_neg hlast]
      refine ⟨?_, ?_, rfl⟩
      · intro he; exact absurd he (by simp)
      · simp only [IfStream.turns, Bool.false_eq_true, if_false]
        omega

/-- The loop of `fill_vectors` ends within the turns left on its stream. -/
theorem fill_loop_ne_timeout :
    ∀ (fuel : Nat) (s : FillState),
      (s.file.failbit = true → is_number (c_str (s.temp.headD [])) = false) →
      s.file.turns + 1 ≤ fuel → fill_loop fuel s ≠ .timeout := by
  intro fuel
  induction fuel with
  | zero => intro s _ h; omega
  | succ fuel ih =>
    intro s hinv hfuel
    obtain ⟨setting, real_var, ⟨L, term, i, eof, fail⟩, pos, line, temp⟩ := s
    simp only at hinv hfuel
    simp only [fill_loop]
    by_cases hc : (is_number (c_str (temp.headD [])) && !eof) = true
    · simp only [hc, if_true]
      simp only [Bool.and_eq_true, Bool.not_eq_true'] at hc
      obtain ⟨hnum, heof⟩ := hc
      subst heof
      have hfail : fail = false := by
        cases fail
        · rfl
        · have := hinv rfl; rw [hnum] at this; exact absurd this (by simp)
      subst hfail
      rcases temp with _ | ⟨t0, _ | ⟨t1, rest⟩⟩
      · simp
      · simp
      · simp only [tellg, Bool.or_self, Bool.false_eq_true, if_false]
        obtain ⟨h1, h2, _⟩ := getline_good L term i line
        apply ih
        · simp only
          intro hf
          rw [h1 hf]
          exact is_number_split_nil
        · simp only
          omega
    · rw [if_neg hc]
      simp

/-- The function `fill_vectors` returns on every stream: the turns given to its loop
are never used up. -/
theorem fill_vectors_ne_timeout (setting real_var : Vec) (file : IfStream) :
    fill_vectors setting real_var file ≠ .timeout := by
  have key : fill_loop ((getline file []).1.lines.length + 2)
      { setting := setting, real_var := real_var, file := (getline file []).1, pos := 0,
        line := (getline file []).2, temp := split (getline file []).2 } ≠ .timeout := by
    apply fill_loop_ne_timeout
    · simp only
      obtain ⟨L, term, i, eof, fail⟩ := file
      by_cases hg : (eof || fail) = true
      · intro _
        simp only [getline, hg, if_true]
        exact is_number_split_nil
      · have hef : eof = false ∧ fail = false := by
          cases eof <;> cases fail <;> simp at hg ⊢
        obtain ⟨rfl, rfl⟩ := hef
        intro hf
        rw [(getline_good L term i []).1 hf]
        exact is_number_split_nil
    · simp only [IfStream.turns]
      split <;> omega
  simp only [fill_vectors]
  split
  · simp
  · simp
  · simp
  · rename_i h; exact absurd h key

/-- More fuel does not change what the loop of `PopulateCalibrationVectors` returns. -/
theorem populate_loop_mono :
    ∀ (fuel : Nat) (ds rd : Vec) (file : IfStream) (line : Str),
      populate_loop fuel ds rd file line ≠ .timeout →
      populate_loop (fuel + 1) ds rd file line = populate_loop fuel ds rd file line := by
  intro fuel
  induction fuel with
  | zero => intro ds rd file line h; exact absurd rfl h
  | succ fuel ih =>
    intro ds rd file line h
    rw [populate_loop] at h ⊢
    rw [populate_loop]
    simp only at h ⊢
    split
    · rfl
    · rename_i hf
      simp only [hf, if_false] at h
      split
      · rename_i hd
        simp only [hd, if_true] at h
        cases hfv : fill_vectors ds rd (getline file line).1 with
        | ok r =>
          obtain ⟨fpos, s, r, f⟩ := r
          simp only [hfv] at h ⊢
          exact ih _ _ _ _ h
        | threw r => rfl
        | undef => rfl
        | timeout => rfl
      · rename_i hd
        simp only [hd, if_false] at h
        exact ih _ _ _ _ h

/-! ## Lemmas on the handlers -/

theorem OnDelay_table (b : Box) (eAct : ActionType) (v : Int) (d : Dev) (p : Port)
    (h : Handled Int)
    (hrun : OnDelay b eAct v d p = .ok h ∨ OnDelay b eAct v d p = .threw h) :
    h.dev.calibrated_ = d.calibrated_ ∧ h.dev.delay_settings = d.delay_settings ∧
      h.dev.real_delays = d.real_delays := by
  simp only [OnDelay] at hrun
  split at hrun
  · rcases hrun with hr | hr <;> simp only [Outcome.ok.injEq, reduceCtorEq] at hr
    rw [← hr]; exact ⟨rfl, rfl, rfl⟩
  · split at hrun
    · split at hrun
      · rcases hrun with hr | hr <;> simp only [Outcome.threw.injEq, reduceCtorEq] at hr
        rw [← hr]; exact ⟨rfl, rfl, rfl⟩
      · split at hrun <;>
          (rcases hrun with hr | hr <;> simp only [Outcome.ok.injEq, reduceCtorEq] at hr
           rw [← hr]; exact ⟨rfl, rfl, rfl⟩)
    · rcases hrun with hr | hr <;> simp only [Outcome.ok.injEq, reduceCtorEq] at hr
      rw [← hr]; exact ⟨rfl, rfl, rfl⟩

theorem SetProperty_Delay_table (b : Box) (env : Env) (valstr : Str) (d : Dev) (p : Port)
    (r : Int × Dev × Port)
    (hrun : SetProperty_Delay b env valstr d p = .ok r ∨
      SetProperty_Delay b env valstr d p = .threw r) :
    r.2.1.calibrated_ = d.calibrated_ ∧ r.2.1.delay_settings = d.delay_settings ∧
      r.2.1.real_delays = d.real_delays := by
  simp only [SetProperty_Delay] at hrun
  split at hrun
  · rcases hrun with hr | hr <;> simp only [Outcome.ok.injEq, reduceCtorEq] at hr
    rw [← hr]; exact ⟨rfl, rfl, rfl⟩
  · split at hrun
    · rename_i h hd
      rcases hrun with hr | hr <;> simp only [Outcome.ok.injEq, reduceCtorEq] at hr
      rw [← hr]; exact OnDelay_table b _ _ d p h (Or.inl hd)
    · rename_i h hd
      rcases hrun with hr | hr <;> simp only [Outcome.threw.injEq, reduceCtorEq] at hr
      rw [← hr]; exact OnDelay_table b _ _ d p h (Or.inr hd)
    · rcases hrun with hr | hr <;> simp only [reduceCtorEq] at hr
    · rcases hrun with hr | hr <;> simp only [reduceCtorEq] at hr

theorem max_element_value_ne_nil (v : Vec) (m : Int) (h : max_element_value v = some m) :
    v ≠ [] := by
  intro hv; subst hv; simp [max_element_value] at h

/-- A load into empty vectors fills them in pairs. -/
theorem PopulateCalibrationVectors_pairs (fuel : Nat) (fs : FileSystem) (path : Str)
    (ret : Int) (xs ys : Vec)
    (hload : PopulateCalibrationVectors fuel fs path [] [] = .ok (ret, xs, ys)) :
    xs.length = ys.length := by
  simp only [PopulateCalibrationVectors] at hload
  split at hload
  · simp only [Outcome.ok.injEq, Prod.mk.injEq] at hload
    rw [← hload.2.1, ← hload.2.2]
  · split at hload <;> simp only [Outcome.ok.injEq, Prod.mk.injEq, reduceCtorEq] at hload
    rename_i hl
    rw [← hload.2.1, ← hload.2.2]
    exact populate_loop_length _ _ _ _ _ _ _ rfl hl

/-- A load keeps the two vectors of the same length and does not empty them. -/
theorem PopulateCalibrationVectors_table (fuel : Nat) (fs : FileSystem) (path : Str)
    (ds rd : Vec) (ret : Int) (ds1 rd1 : Vec)
    (h : PopulateCalibrationVectors fuel fs path ds rd = .ok (ret, ds1, rd1))
    (hlen : ds.length = rd.length) :
    ds1.length = rd1.length ∧ (rd ≠ [] → rd1 ≠ []) := by
  rw [PopulateCalibrationVectors_shift] at h
  cases h0 : PopulateCalibrationVectors fuel fs path [] [] with
  | ok r =>
    obtain ⟨ret0, xs, ys⟩ := r
    rw [h0] at h
    simp only [Outcome.map, Outcome.ok.injEq, Prod.mk.injEq] at h
    have hxy := PopulateCalibrationVectors_pairs fuel fs path ret0 xs ys h0
    rw [← h.2.1, ← h.2.2]
    refine ⟨by simp [hlen, hxy], ?_⟩
    intro hne hnil
    exact hne (List.append_eq_nil.mp hnil).1
  | threw r => rw [h0] at h; simp [Outcome.map] at h
  | undef => rw [h0] at h; simp [Outcome.map] at h
  | timeout => rw [h0] at h; simp [Outcome.map] at h

theorem OnCalibrate_finish_table (b : Box) (env : Env) (prop : Str) (d : Dev) (p : Port)
    (h : Handled Str)
    (hrun : OnCalibrate_finish b env prop d p = .ok h ∨
      OnCalibrate_finish b env prop d p = .threw h) :
    h.dev.calibrated_ = d.calibrated_ ∧ h.dev.delay_settings = d.delay_settings ∧
      h.dev.real_delays = d.real_delays := by
  simp only [OnCalibrate_finish] at hrun
  split at hrun
  · rename_i ret d1 p1 hs
    rcases hrun with hr | hr <;> simp only [Outcome.ok.injEq, reduceCtorEq] at hr
    rw [← hr]
    exact SetProperty_Delay_table b env _ d p (ret, d1, p1) (Or.inl hs)
  · rename_i ret d1 p1 hs
    rcases hrun with hr | hr <;> simp only [Outcome.threw.injEq, reduceCtorEq] at hr
    rw [← hr]
    exact SetProperty_Delay_table b env _ d p (ret, d1, p1) (Or.inr hs)
  · rcases hrun with hr | hr <;> simp only [reduceCtorEq] at hr
  · rcases hrun with hr | hr <;> simp only [reduceCtorEq] at hr

/-- What `OnCalibrate` of `KHDG`, `KHDG800` and `KSDB` leaves after `MM::AfterSet`:
the vectors are those of the load, and `calibrated_` is cleared unless the value was
`Yes` and the load returned `DEVICE_OK`; in that case the vector of measured values
is not empty, `calibrated_` is set when `SetPropertyLimits` accepts the new maximum
and left as it was, the handler returning the code, when it does not. -/
theorem HDG_OnCalibrate_AfterSet (b : Box) (env : Env) (fuel : Nat) (prop : Str) (d : Dev)
    (p : Port) (h : Handled Str)
    (hrun : HDG_OnCalibrate b env fuel .AfterSet prop d p = .ok h ∨
      HDG_OnCalibrate b env fuel .AfterSet prop d p = .threw h) :
    ∃ ret ds rd,
      (if prop = "Yes".toList then
          PopulateCalibrationVectors fuel env.fs d.calibPath_ d.delay_settings d.real_delays
        else .ok (ERR_CALIBRATION_FAILED, d.delay_settings, d.real_delays)) = .ok (ret, ds, rd) ∧
      h.dev.delay_settings = ds ∧ h.dev.real_delays = rd ∧
      (¬ (prop = "Yes".toList ∧ ret = DEVICE_OK) → h.dev.calibrated_ = false) ∧
      ((prop = "Yes".toList ∧ ret = DEVICE_OK) →
        ∃ max, max_element_value rd = some max ∧
          (env.SetPropertyLimits "Delay (ps)".toList 0 max = DEVICE_OK →
            h.dev.calibrated_ = true) ∧
          (env.SetPropertyLimits "Delay (ps)".toList 0 max ≠ DEVICE_OK →
            h.dev.calibrated_ = d.calibrated_ ∧
            h.ret = env.SetPropertyLimits "Delay (ps)".toList 0 max)) := by
  simp only [HDG_OnCalibrate, reduceCtorEq, if_false, if_true] at hrun
  generalize hl : (if prop = "Yes".toList then
      PopulateCalibrationVectors fuel env.fs d.calibPath_ d.delay_settings d.real_delays
    else Outcome.ok (ERR_CALIBRATION_FAILED, d.delay_settings, d.real_delays)) = loaded
    at hrun
  rcases loaded with ⟨ret, ds, rd⟩ | _ | _ | _
  · refine ⟨ret, ds, rd, rfl, ?_⟩
    simp only at hrun
    by_cases hy : prop = "Yes".toList ∧ ret = DEVICE_OK
    · rw [if_pos hy] at hrun
      rcases hm : max_element_value rd with _ | max
      · simp [hm] at hrun
      · simp only [hm] at hrun
        by_cases hlim : env.SetPropertyLimits "Delay (ps)".toList 0 max = DEVICE_OK
        · simp only [hlim, ne_eq, not_true_eq_false, if_false] at hrun
          obtain ⟨hc, hs, hr⟩ := OnCalibrate_finish_table b env prop _ p h hrun
          refine ⟨hs, hr, fun hn => absurd hy hn, fun _ => ⟨max, rfl, fun _ => hc, ?_⟩⟩
          intro hne; exact absurd hlim hne
        · simp only [hlim, ne_eq, not_false_eq_true, if_true] at hrun
          rcases hrun with hr | hr <;> simp only [Outcome.ok.injEq, reduceCtorEq] at hr
          rw [← hr]
          refine ⟨rfl, rfl, fun hn => absurd hy hn, fun _ => ⟨max, rfl, ?_, fun _ => ⟨rfl, rfl⟩⟩⟩
          intro he; exact absurd he hlim
    · rw [if_neg hy] at hrun
      obtain ⟨hc, hs, hr⟩ := OnCalibrate_finish_table b env prop _ p h hrun
      exact ⟨hs, hr, fun _ => hc, fun hn => absurd hn hy⟩
  · simp at hrun
  · simp at hrun
  · simp at hrun

/-- The only value that `KSE::PopulateCalibrationVectors` returns is the code for a
file that cannot be opened, and the vectors are then untouched. -/
theorem KSE_PopulateCalibrationVectors_some (fuel : Nat) (fs : FileSystem) (path : Str)
    (d d1 : Dev) (ret : Int)
    (h : KSE_PopulateCalibrationVectors fuel fs path d = .ok (some ret, d1)) :
    ret = ERR_OPENFILE_FAILED ∧ d1 = d ∧ fs (c_str path) = none := by
  simp only [KSE_PopulateCalibrationVectors] at h
  split at h
  · rename_i hf
    simp only [Outcome.ok.injEq, Prod.mk.injEq, Option.some.injEq] at h
    exact ⟨h.1.symm, h.2.symm, hf⟩
  · split at h <;> simp at h

theorem KSE_OnCalibrate_table (env : Env) (fuel : Nat) (eAct : ActionType) (prop : Str)
    (d : Dev) (p : Port) (h : Handled Str)
    (hrun : KSE_OnCalibrate env fuel eAct prop d p = .ok h ∨
      KSE_OnCalibrate env fuel eAct prop d p = .threw h) :
    h.dev.delay_settings = d.delay_settings ∧ h.dev.real_delays = d.real_delays ∧
      (h.dev.calibrated_ = true → d.calibrated_ = true) := by
  simp only [KSE_OnCalibrate] at hrun
  split at hrun
  · rcases hrun with hr | hr <;> simp only [Outcome.ok.injEq, reduceCtorEq] at hr
    rw [← hr]; exact ⟨rfl, rfl, id⟩
  · split at hrun
    · by_cases hy : prop = "Yes".toList
      · simp only [hy, if_true, true_and] at hrun
        split at hrun
        · rename_i ret d1 hk
          obtain ⟨hret, hd1, _⟩ := KSE_PopulateCalibrationVectors_some _ _ _ _ _ _ hk
          have hne : ¬ (ret = DEVICE_OK) := by rw [hret]; decide
          simp only [hne, if_false] at hrun
          rcases hrun with hr | hr <;> simp only [Outcome.ok.injEq, reduceCtorEq] at hr
          rw [← hr, hd1]
          exact ⟨rfl, rfl, fun hc => absurd hc (by simp)⟩
        · rcases hrun with hr | hr <;> simp only [reduceCtorEq] at hr
        · rcases hrun with hr | hr <;> simp only [reduceCtorEq] at hr
        · rcases hrun with hr | hr <;> simp only [reduceCtorEq] at hr
        · rcases hrun with hr | hr <;> simp only [reduceCtorEq] at hr
      · simp only [hy, if_false, false_and] at hrun
        rcases hrun with hr | hr <;> simp only [Outcome.ok.injEq, reduceCtorEq] at hr
        rw [← hr]
        exact ⟨rfl, rfl, fun hc => absurd hc (by simp)⟩
    · rcases hrun with hr | hr <;> simp only [Outcome.ok.injEq, reduceCtorEq] at hr
      rw [← hr]; exact ⟨rfl, rfl, id⟩

/-- The handler `OnCalibrate` keeps the invariant of the calibration data. -/
theorem OnCalibrate_inv (b : Box) (env : Env) (fuel : Nat) (eAct : ActionType)
    (prop : Str) (d : Dev) (p : Port) (h : Handled Str) (hinv : TableInv d)
    (hrun : OnCalibrate b env fuel eAct prop d p = .ok h ∨
      OnCalibrate b env fuel eAct prop d p = .threw h) : TableInv h.dev := by
  have hse : ∀ h, (KSE_OnCalibrate env fuel eAct prop d p = .ok h ∨
      KSE_OnCalibrate env fuel eAct prop d p = .threw h) → TableInv h.dev := by
    intro h hrun
    obtain ⟨hs, hr, hc⟩ := KSE_OnCalibrate_table env fuel eAct prop d p h hrun
    exact ⟨by rw [hs, hr]; exact hinv.1, fun hcal => by rw [hr]; exact hinv.2 (hc hcal)⟩
  have hhdg : ∀ h, (HDG_OnCalibrate b env fuel eAct prop d p = .ok h ∨
      HDG_OnCalibrate b env fuel eAct prop d p = .threw h) → TableInv h.dev := by
    intro h hrun
    by_cases hA : eAct = .AfterSet
    · subst hA
      obtain ⟨ret, ds, rd, hl, hs, hr, hno, hyes⟩ :=
        HDG_OnCalibrate_AfterSet b env fuel prop d p h hrun
      have htab : ds.length = rd.length ∧ (d.real_delays ≠ [] → rd ≠ []) := by
        by_cases hy : prop = "Yes".toList
        · rw [if_pos hy] at hl
          exact PopulateCalibrationVectors_table _ _ _ _ _ _ _ _ hl hinv.1
        · rw [if_neg hy] at hl
          simp only [Outcome.ok.injEq, Prod.mk.injEq] at hl
          rw [← hl.2.1, ← hl.2.2]
          exact ⟨hinv.1, id⟩
      refine ⟨by rw [hs, hr]; exact htab.1, ?_⟩
      intro hcal
      rw [hr]
      by_cases hy : prop = "Yes".toList ∧ ret = DEVICE_OK
      · obtain ⟨max, hmax, _, _⟩ := hyes hy
        exact max_element_value_ne_nil rd max hmax
      · rw [hno hy] at hcal; exact absurd hcal (by simp)
    · simp only [HDG_OnCalibrate, hA, if_false] at hrun
      split at hrun <;>
        (rcases hrun with hr | hr <;> simp only [Outcome.ok.injEq, reduceCtorEq] at hr
         rw [← hr]; exact hinv)
  cases b
  · exact hhdg h hrun
  · exact hhdg h hrun
  · exact hhdg h hrun
  · exact hse h hrun

/-- In every state that a delay box reaches from the state left by `Initialize()`
through runs of `OnCalibrate` and `OnDelay` that return or let an exception escape,
`calibrated_ = true` implies that the vectors of measured values and of settings are
both non-empty and of equal length.  A run whose behaviour is undefined, or that does
not return, leaves no state and is not covered. -/
theorem Reachable_table_nonempty (b : Box) (d : Dev) (hreach : Reachable b d)
    (hcal : d.calibrated_ = true) :
    d.real_delays ≠ [] ∧ d.delay_settings ≠ [] ∧
      d.real_delays.length = d.delay_settings.length := by
  have hinv : TableInv d := by
    clear hcal
    induction hreach with
    | init d hc hs hr => exact ⟨by rw [hs, hr], fun h => by rw [hc] at h; exact absurd h (by simp)⟩
    | calibrate d env fuel eAct prop p h _ hrun ih =>
      exact OnCalibrate_inv b env fuel eAct prop d p h ih hrun
    | delay d eAct prop p h _ hrun ih =>
      obtain ⟨hc, hs, hr⟩ := OnDelay_table b eAct prop d p h hrun
      exact ⟨by rw [hs, hr]; exact ih.1, fun hcal => by rw [hr]; exact ih.2 (hc ▸ hcal)⟩
  have hne := hinv.2 hcal
  refine ⟨hne, ?_, hinv.1.symm⟩
  intro hnil
  have := hinv.1
  rw [hnil] at this
  exact hne (List.length_eq_zero.mp this.symm)

/-- A delay set on a box that is not calibrated sends the requested value rounded to
a multiple of 25 and, when the transaction succeeds, caches it. -/
theorem OnDelay_uncalibrated (b : Box) (v : Int) (d : Dev) (p : Port)
    (hc : d.calibrated_ = false) :
    ∃ h, OnDelay b .AfterSet v d p = .ok h ∧
      h.ret = (delaySet b d (to_int (round25 v)) p).1 ∧
      (h.ret = DEVICE_OK → h.dev.delay_ = round25 v) ∧
      h.dev.calibrated_ = false ∧ h.dev.delay_settings = d.delay_settings ∧
      h.dev.real_delays = d.real_delays := by
  have hcal : doCalibration d.calibrated_ v d.real_delays d.delay_settings
      = some (round25 v, to_int (round25 v)) := by
    simp [doCalibration, hc]
  simp only [OnDelay, reduceCtorEq, if_false, if_true, hcal]
  by_cases hok : (delaySet b d (to_int (round25 v)) p).1 = DEVICE_OK
  · rw [if_pos hok]
    exact ⟨_, rfl, rfl, fun _ => rfl, hc, rfl, rfl⟩
  · rw [if_neg hok]
    exact ⟨_, rfl, rfl, fun h => absurd h hok, hc, rfl, rfl⟩

/-- The end of `OnCalibrate` on a box that is not calibrated: it returns, with the
code of the validation when that fails and otherwise the code of the delay set. -/
theorem OnCalibrate_finish_uncalibrated (b : Box) (env : Env) (prop : Str) (d : Dev)
    (p : Port) (hc : d.calibrated_ = false) :
    ∃ h, OnCalibrate_finish b env prop d p = .ok h ∧
      h.dev.calibrated_ = false ∧ h.dev.delay_settings = d.delay_settings ∧
      h.dev.real_delays = d.real_delays ∧
      h.ret =
        (if env.SetProperty_validate "Delay (ps)".toList (lexical_cast d.delay_) ≠ DEVICE_OK
          then env.SetProperty_validate "Delay (ps)".toList (lexical_cast d.delay_)
          else (delaySet b d (to_int (round25 (atoi (lexical_cast d.delay_)))) p).1) := by
  simp only [OnCalibrate_finish, SetProperty_Delay]
  by_cases hv : env.SetProperty_validate "Delay (ps)".toList (lexical_cast d.delay_)
      = DEVICE_OK
  · obtain ⟨h, hrun, hret, _, hcal, hs, hr⟩ :=
      OnDelay_uncalibrated b (atoi (lexical_cast d.delay_)) d p hc
    simp only [hv, ne_eq, not_true_eq_false, if_false, hrun]
    refine ⟨_, rfl, hcal, hs, hr, ?_⟩
    simp only [hret]
    split
    · rfl
    · rename_i hn; simp only [ne_eq, not_not] at hn; exact hn.symm
  · simp only [hv, ne_eq, not_false_eq_true, if_true]
    exact ⟨_, rfl, hc, rfl, rfl, rfl⟩

/-- The handler `OnCalibrate` asked for `Yes` when the calibration file cannot be
opened: it goes to its end on a box marked as not calibrated. -/
theorem OnCalibrate_unopened (b : Box) (env : Env) (fuel : Nat) (d : Dev) (p : Port)
    (hopen : env.fs (c_str d.calibPath_) = none) :
    ∃ h, OnCalibrate b env fuel .AfterSet "Yes".toList d p = .ok h ∧
      h.dev.calibrated_ = false ∧ h.dev.delay_settings = d.delay_settings ∧
      h.dev.real_delays = d.real_delays ∧
      ((b = .SE ∧ h.ret = DEVICE_OK) ∨ (b ≠ .SE ∧ h.ret =
        (if env.SetProperty_validate "Delay (ps)".toList (lexical_cast d.delay_) ≠ DEVICE_OK
          then env.SetProperty_validate "Delay (ps)".toList (lexical_cast d.delay_)
          else (delaySet b d (to_int (round25 (atoi (lexical_cast d.delay_)))) p).1))) := by
  have hhdg : b ≠ .SE → ∃ h, HDG_OnCalibrate b env fuel .AfterSet "Yes".toList d p = .ok h ∧
      h.dev.calibrated_ = false ∧ h.dev.delay_settings = d.delay_settings ∧
      h.dev.real_delays = d.real_delays ∧
      ((b = .SE ∧ h.ret = DEVICE_OK) ∨ (b ≠ .SE ∧ h.ret =
        (if env.SetProperty_validate "Delay (ps)".toList (lexical_cast d.delay_) ≠ DEVICE_OK
          then env.SetProperty_validate "Delay (ps)".toList (lexical_cast d.delay_)
          else (delaySet b d (to_int (round25 (atoi (lexical_cast d.delay_)))) p).1))) := by
    intro hb
    have hne : ¬ (ERR_OPENFILE_FAILED = DEVICE_OK) := by decide
    simp only [HDG_OnCalibrate, reduceCtorEq, if_false, if_true, PopulateCalibrationVectors,
      hopen, hne, and_false]
    obtain ⟨h, hrun, hc, hs, hr, hret⟩ := OnCalibrate_finish_uncalibrated b env "Yes".toList
      { d with calibrated_ := false } p rfl
    exact ⟨h, hrun, hc, hs, hr, Or.inr ⟨hb, hret⟩⟩
  cases b
  · exact hhdg (by decide)
  · exact hhdg (by decide)
  · exact hhdg (by decide)
  · have hne : ¬ (ERR_OPENFILE_FAILED = DEVICE_OK) := by decide
    have hrun : OnCalibrate .SE env fuel .AfterSet "Yes".toList d p =
        .ok { ret := DEVICE_OK, dev := { d with calibrated_ := false }, port := p,
              prop := "Yes".toList } := by
      simp only [OnCalibrate, KSE_OnCalibrate, reduceCtorEq, if_false, if_true,
        KSE_PopulateCalibrationVectors, hopen, hne, and_false]
    exact ⟨_, hrun, rfl, rfl, rfl, Or.inl ⟨rfl, rfl⟩⟩

/-! ## Lemmas on the serial protocol -/

theorem substr_prefix (a b : Str) : substr (a ++ b) 0 (some a.length) = some a := by
  simp [substr]

theorem substr_suffix (a b : Str) : substr (a ++ b) a.length none = some b := by
  simp [substr]

theorem size_t_sub_three (n : Nat) (h3 : 3 ≤ n) (hn : n < size_t_modulus) :
    size_t_sub n 3 = n - 3 := by
  unfold size_t_sub size_t_modulus at *
  omega

theorem size_t_sub_short (n : Nat) (h3 : n < 3) : n < size_t_sub n 3 := by
  unfold size_t_sub size_t_modulus
  omega

/-- The last three characters of an answer of at least three characters. -/
theorem substr_tail (s : Str) (h3 : 3 ≤ s.length) (hn : s.length < size_t_modulus) :
    substr s (size_t_sub s.length 3) none = some (s.drop (s.length - 3)) := by
  rw [size_t_sub_three _ h3 hn]
  have : ¬ (s.length - 3 > s.length) := by omega
  simp [substr, this]

/-- An answer of fewer than three characters makes `substr` throw. -/
theorem substr_tail_short (s : Str) (h3 : s.length < 3) :
    substr s (size_t_sub s.length 3) none = none := by
  have := size_t_sub_short s.length h3
  simp [substr, this]

theorem drop_ok_suffix (pre : Str) :
    (pre ++ " ok".toList).drop ((pre ++ " ok".toList).length - 3) = " ok".toList := by
  have : (pre ++ " ok".toList).length - 3 = pre.length := by simp
  rw [this, List.drop_left]

/-- Extracting a `long` from a non-empty string of digits. -/
theorem extract_long_digits (a : Str) (ha : a.all Char.isDigit = true) (hne : a ≠ []) :
    extract_long a = some (min LONG_MAX (atoi_digits 0 a)) := by
  unfold extract_long
  rw [dropWhile_isspace_digits a ha]
  cases a with
  | nil => exact absurd rfl hne
  | cons c cs =>
    simp only [List.all_cons, Bool.and_eq_true] at ha
    have hm : c ≠ '-' := by intro hc; subst hc; exact absurd ha.1 (by decide)
    have hp : c ≠ '+' := by intro hc; subst hc; exact absurd ha.1 (by decide)
    split
    · rename_i heq; simp only [List.cons.injEq] at heq; exact absurd heq.1.symm (Ne.symm hm)
    · rename_i heq; simp only [List.cons.injEq] at heq; exact absurd heq.1.symm (Ne.symm hp)
    · rename_i c1 cs1 _ _ heq
      simp only [List.cons.injEq] at heq
      obtain ⟨rfl, rfl⟩ := heq
      simp [ha.1]
    · rename_i heq; simp at heq

theorem extract_long_lexical_cast (n : Nat) :
    extract_long (lexical_cast n) = some (min LONG_MAX (n : Int)) := by
  rw [lexical_cast_nat, extract_long_digits _ (toDigits_all n) (toDigits_ne_nil n),
    atoi_digits_toDigits]

/-- A value in the range of `long` is stored as it is. -/
theorem clamp_long_eq (v : Int) (h1 : LONG_MIN ≤ v) (h2 : v ≤ LONG_MAX) : clamp_long v = v := by
  unfold clamp_long
  rw [min_eq_right h2, max_eq_right h1]

theorem orThrow_some {α β : Type} (a : α) (thrown : Outcome β) (next : α → Outcome β) :
    orThrow (some a) thrown next = next a := rfl

theorem orThrow_none {α β : Type} (thrown : Outcome β) (next : α → Outcome β) :
    orThrow none thrown next = thrown := rfl

/-- The function `KUtils::NumericGet`, once the purge, the send and the first receive
have succeeded and the trimmed answer starts with the echoed command: the value is
extracted from what follows the echo, and the return code is decided by the second
answer. -/
theorem NumericGet_echoed (k : KUtils) (cmd : Str) (p : Port) (line1 rest : Str)
    (hpurge : (p.reply p.log.length).1 = DEVICE_OK)
    (hsend : (p.reply (p.log.length + 1)).1 = DEVICE_OK)
    (hrecv : p.reply (p.log.length + 2) = (DEVICE_OK, line1))
    (htrim : trim line1 " \t\n".toList = k.getcmdstr_ ++ cmd ++ rest) :
    NumericGet k cmd p =
      if (p.reply (p.log.length + 3)).1 ≠ DEVICE_OK then
        .ok ((p.reply (p.log.length + 3)).1, extract_long rest,
          { p with log := p.log ++ NumericGet_plan k cmd })
      else
        orThrow (substr (p.reply (p.log.length + 3)).2
            (size_t_sub (p.reply (p.log.length + 3)).2.length 3) none)
          (.threw (DEVICE_OK, extract_long rest,
            { p with log := p.log ++ NumericGet_plan k cmd }))
          fun tail =>
            if tail ≠ " ok".toList then
              .ok (DEVICE_SERIAL_INVALID_RESPONSE, extract_long rest,
                { p with log := p.log ++ NumericGet_plan k cmd })
            else .ok (DEVICE_OK, extract_long rest,
                { p with log := p.log ++ NumericGet_plan k cmd }) := by
  have hlen : cmd.length + k.getcmdstr_.length = (k.getcmdstr_ ++ cmd).length := by
    simp [Nat.add_comm]
  have h1 : substr (k.getcmdstr_ ++ cmd ++ rest) 0 (some (cmd.length + k.getcmdstr_.length))
      = some (k.getcmdstr_ ++ cmd) := by
    rw [hlen]; exact substr_prefix _ _
  have h2 : substr (k.getcmdstr_ ++ cmd ++ rest) (cmd.length + k.getcmdstr_.length) none
      = some rest := by
    rw [hlen]; exact substr_suffix _ _
  simp only [List.append_assoc] at h1 h2
  have hr1 : (p.reply (p.log.length + 2)).1 = DEVICE_OK := by rw [hrecv]
  have hr2 : (p.reply (p.log.length + 2)).2 = line1 := by rw [hrecv]
  simp only [NumericGet, PurgeComPort, SendSerialCommand, GetSerialAnswer, hpurge,
    List.length_append, List.length_singleton, hsend, hr1, hr2, htrim, h1, h2,
    ne_eq, not_true_eq_false, if_false, if_true, Option.getD_some, NumericGet_plan,
    List.append_assoc, List.singleton_append, List.cons_append, List.nil_append,
    List.length_cons, List.length_nil, Nat.zero_add, Nat.add_assoc, Nat.reduceAdd,
    orThrow_some]
  by_cases hc : (p.reply (p.log.length + 3)).1 = DEVICE_OK
  · simp only [hc, not_true_eq_false, if_false, if_true]
  · simp only [hc, not_false_eq_true, if_true, if_false]

theorem substr_zero (a : Str) (n : Nat) : (substr a 0 (some n)).getD [] = a.take n := by
  simp [substr]

theorem substr_drop (a x : Str) (h : a.take x.length = x) :
    substr a x.length none = some (a.drop x.length) := by
  have hle : x.length ≤ a.length := by
    have := congrArg List.length h
    simp only [List.length_take] at this
    omega
  have : ¬ (x.length > a.length) := by omega
  simp [substr, this]

/-- The port after the first `j` operations of a plan. -/
theorem port_after (p : Port) (ops : List PortOp) :
    ({ p with log := p.log ++ ops } : Port).reply = p.reply := rfl

/-- The decision tree of `KUtils::NumericGet` over the codes of the successive port
operations and the two answers. -/
theorem NumericGet_cases (k : KUtils) (cmd : Str) (p : Port) :
    NumericGet k cmd p =
      if (p.reply p.log.length).1 ≠ DEVICE_OK then
        .ok ((p.reply p.log.length).1, none,
          { p with log := p.log ++ (NumericGet_plan k cmd).take 1 })
      else if (p.reply (p.log.length + 1)).1 ≠ DEVICE_OK then
        .ok ((p.reply (p.log.length + 1)).1, none,
          { p with log := p.log ++ (NumericGet_plan k cmd).take 2 })
      else if (p.reply (p.log.length + 2)).1 ≠ DEVICE_OK then
        .ok ((p.reply (p.log.length + 2)).1, none,
          { p with log := p.log ++ (NumericGet_plan k cmd).take 3 })
      else if (trim (p.reply (p.log.length + 2)).2 " \t\n".toList).take
          (k.getcmdstr_ ++ cmd).length ≠ k.getcmdstr_ ++ cmd then
        .ok (DEVICE_SERIAL_INVALID_RESPONSE, none,
          { p with log := p.log ++ (NumericGet_plan k cmd).take 3 })
      else if (p.reply (p.log.length + 3)).1 ≠ DEVICE_OK then
        .ok ((p.reply (p.log.length + 3)).1,
          (extract_long ((trim (p.reply (p.log.length + 2)).2 " \t\n".toList).drop
            (k.getcmdstr_ ++ cmd).length)),
          { p with log := p.log ++ (NumericGet_plan k cmd).take 4 })
      else
        orThrow (substr (p.reply (p.log.length + 3)).2
            (size_t_sub (p.reply (p.log.length + 3)).2.length 3) none)
          (.threw (DEVICE_OK,
            (extract_long ((trim (p.reply (p.log.length + 2)).2 " \t\n".toList).drop
              (k.getcmdstr_ ++ cmd).length)),
            { p with log := p.log ++ (NumericGet_plan k cmd).take 4 }))
          fun tail =>
            if tail ≠ " ok".toList then
              .ok (DEVICE_SERIAL_INVALID_RESPONSE,
                (extract_long ((trim (p.reply (p.log.length + 2)).2
                  " \t\n".toList).drop (k.getcmdstr_ ++ cmd).length)),
                { p with log := p.log ++ (NumericGet_plan k cmd).take 4 })
            else .ok (DEVICE_OK,
                (extract_long ((trim (p.reply (p.log.length + 2)).2
                  " \t\n".toList).drop (k.getcmdstr_ ++ cmd).length)),
                { p with log := p.log ++ (NumericGet_plan k cmd).take 4 }) := by
  by_cases h0 : (p.reply p.log.length).1 = DEVICE_OK
  · by_cases h1 : (p.reply (p.log.length + 1)).1 = DEVICE_OK
    · by_cases h2 : (p.reply (p.log.length + 2)).1 = DEVICE_OK
      · by_cases h3 : (trim (p.reply (p.log.length + 2)).2 " \t\n".toList).take
            (k.getcmdstr_ ++ cmd).length = k.getcmdstr_ ++ cmd
        · have hsplit : trim (p.reply (p.log.length + 2)).2 " \t\n".toList =
              k.getcmdstr_ ++ cmd ++ (trim (p.reply (p.log.length + 2)).2 " \t\n".toList).drop
                (k.getcmdstr_ ++ cmd).length := by
            conv_lhs => rw [← List.take_append_drop (k.getcmdstr_ ++ cmd).length
              (trim (p.reply (p.log.length + 2)).2 " \t\n".toList)]
            rw [h3]
          have hrecv : p.reply (p.log.length + 2) = (DEVICE_OK, (p.reply (p.log.length + 2)).2) := by
            rw [← h2]
          rw [NumericGet_echoed k cmd p _ _ h0 h1 hrecv hsplit]
          simp only [h0, h1, h2, h3, ne_eq, not_true_eq_false, if_false, NumericGet_plan]
          rfl
        · have hlen : cmd.length + k.getcmdstr_.length = k.getcmdstr_.length + cmd.length :=
            Nat.add_comm _ _
          simp only [List.length_append] at h3
          simp only [NumericGet, PurgeComPort, SendSerialCommand, GetSerialAnswer, h0, h1, h2,
            List.length_append, List.length_singleton, ne_eq, not_true_eq_false, if_false,
            if_true, NumericGet_plan, List.append_assoc, List.singleton_append,
            List.cons_append, List.nil_append, List.length_cons, List.length_nil,
            Nat.zero_add, Nat.add_assoc, Nat.reduceAdd, substr_zero, hlen, h3,
            not_false_eq_true]
          rfl
      · simp only [NumericGet, PurgeComPort, SendSerialCommand, GetSerialAnswer, h0, h1, h2,
          List.length_append, List.length_singleton, ne_eq, not_true_eq_false, if_false,
          if_true, NumericGet_plan, List.append_assoc, List.singleton_append,
          List.cons_append, List.nil_append, List.length_cons, List.length_nil,
          Nat.zero_add, Nat.add_assoc, Nat.reduceAdd, not_false_eq_true]
        rfl
    · simp only [NumericGet, PurgeComPort, SendSerialCommand, h0, h1,
        List.length_append, List.length_singleton, ne_eq, not_true_eq_false, if_false,
        if_true, NumericGet_plan, List.append_assoc, List.singleton_append,
        not_false_eq_true]
      rfl
  · simp only [NumericGet, PurgeComPort, h0, ne_eq, not_false_eq_true, if_true,
      NumericGet_plan]
    rfl

/-- The decision tree of `KUtils::NumericSet` over the codes of its two port
operations. -/
theorem NumericSet_cases (k : KUtils) (cmd : Str) (val : Int) (p : Port) :
    NumericSet k cmd val p =
      if (p.reply p.log.length).1 ≠ DEVICE_OK then
        ((p.reply p.log.length).1, { p with log := p.log ++ (NumericSet_plan k cmd val).take 1 })
      else if (p.reply (p.log.length + 1)).1 ≠ DEVICE_OK then
        ((p.reply (p.log.length + 1)).1,
          { p with log := p.log ++ (NumericSet_plan k cmd val).take 2 })
      else (DEVICE_OK, { p with log := p.log ++ (NumericSet_plan k cmd val).take 2 }) := by
  by_cases h0 : (p.reply p.log.length).1 = DEVICE_OK
  · by_cases h1 : (p.reply (p.log.length + 1)).1 = DEVICE_OK
    · simp only [NumericSet, SendSerialCommand, GetSerialAnswer, h0, h1, List.length_append,
        List.length_singleton, ne_eq, not_true_eq_false, if_false, NumericSet_plan,
        List.append_assoc, List.singleton_append]
      rfl
    · simp only [NumericSet, SendSerialCommand, GetSerialAnswer, h0, h1, List.length_append,
        List.length_singleton, ne_eq, not_true_eq_false, if_false, not_false_eq_true,
        if_true, NumericSet_plan, List.append_assoc, List.singleton_append]
      rfl
  · simp only [NumericSet, SendSerialCommand, h0, ne_eq, not_false_eq_true, if_true,
      NumericSet_plan]
    rfl

/-- The function `KSDB::SDBNumericSet` is `KUtils::NumericSet` on the command strings
of the class. -/
theorem SDBNumericSet_eq (d : Dev) (cmd : Str) (val : Int) (p : Port) :
    SDBNumericSet d cmd val p =
      NumericSet { d.k_ with setcmdstr_ := d.setcmdstr_, termstr_ := d.termstr_ } cmd val p :=
  rfl

/-- The decision tree of `KUtils::ToggleSet` over the codes of its port operations
and the answer. -/
theorem ToggleSet_cases (k : KUtils) (cmd : Str) (p : Port) :
    ToggleSet k cmd p =
      if (p.reply p.log.length).1 ≠ DEVICE_OK then
        ((p.reply p.log.length).1, { p with log := p.log ++ (ToggleSet_plan cmd).take 1 })
      else if (p.reply (p.log.length + 1)).1 ≠ DEVICE_OK then
        ((p.reply (p.log.length + 1)).1, { p with log := p.log ++ (ToggleSet_plan cmd).take 2 })
      else if (p.reply (p.log.length + 1)).2 ≠ cmd ++ "  ok".toList then
        (DEVICE_SERIAL_COMMAND_FAILED, { p with log := p.log ++ (ToggleSet_plan cmd).take 2 })
      else if (p.reply (p.log.length + 2)).1 ≠ DEVICE_OK then
        ((p.reply (p.log.length + 2)).1, { p with log := p.log ++ (ToggleSet_plan cmd).take 3 })
      else (DEVICE_OK, { p with log := p.log ++ (ToggleSet_plan cmd).take 3 }) := by
  by_cases h0 : (p.reply p.log.length).1 = DEVICE_OK
  · by_cases h1 : (p.reply (p.log.length + 1)).1 = DEVICE_OK
    · by_cases ha : (p.reply (p.log.length + 1)).2 = cmd ++ "  ok".toList
      · by_cases h2 : (p.reply (p.log.length + 2)).1 = DEVICE_OK
        · simp only [ToggleSet, SendSerialCommand, GetSerialAnswer, PurgeComPort, h0, h1, ha, h2,
            List.length_append, List.length_singleton, ne_eq, not_true_eq_false, if_false,
            if_true, ToggleSet_plan, List.append_assoc, List.singleton_append,
            List.cons_append, List.nil_append, List.length_cons, List.length_nil, Nat.zero_add,
            Nat.reduceAdd]
          rfl
        · simp only [ToggleSet, SendSerialCommand, GetSerialAnswer, PurgeComPort, h0, h1, ha, h2,
            List.length_append, List.length_singleton, ne_eq, not_true_eq_false, if_false,
            if_true, not_false_eq_true, ToggleSet_plan, List.append_assoc,
            List.singleton_append, List.cons_append, List.nil_append, List.length_cons,
            List.length_nil, Nat.zero_add, Nat.reduceAdd]
          rfl
      · simp only [ToggleSet, SendSerialCommand, GetSerialAnswer, h0, h1, ha,
          List.length_append, List.length_singleton, ne_eq, not_true_eq_false, if_false,
          if_true, not_false_eq_true, ToggleSet_plan, List.append_assoc,
          List.singleton_append]
        rfl
    · simp only [ToggleSet, SendSerialCommand, GetSerialAnswer, h0, h1,
        List.length_append, List.length_singleton, ne_eq, not_true_eq_false, if_false,
        if_true, not_false_eq_true, ToggleSet_plan, List.append_assoc,
        List.singleton_append]
      rfl
  · simp only [ToggleSet, SendSerialCommand, h0, ne_eq, not_false_eq_true, if_true,
      ToggleSet_plan]
    rfl

/-! ## Lemmas on the property handlers -/

/-- A flag handler given a label that is neither of its two. -/
theorem OnFlag_unknown (yes no : Str) (err : Int) (get : Dev → Bool) (set : Bool → Dev → Dev)
    (state : Str) (d : Dev) (p : Port) (h1 : state ≠ yes) (h2 : state ≠ no) :
    OnFlag yes no err get set .AfterSet state d p =
      { ret := err, dev := d, port := p, prop := state } := by
  simp only [OnFlag, reduceCtorEq, if_false, if_true, h1, h2]

/-- A flag handler asked for its value. -/
theorem OnFlag_BeforeGet (yes no : Str) (err : Int) (get : Dev → Bool)
    (set : Bool → Dev → Dev) (prop : Str) (d : Dev) (p : Port) :
    OnFlag yes no err get set .BeforeGet prop d p =
      { ret := DEVICE_OK, dev := d, port := p, prop := if get d then yes else no } := by
  simp only [OnFlag, if_true]

/-- The return code of `KUtils::NumericSet` is the code of the first port operation
that fails. -/
theorem NumericSet_ret (k : KUtils) (cmd : Str) (val : Int) (p : Port) :
    (NumericSet k cmd val p).1 =
      if (p.reply p.log.length).1 ≠ DEVICE_OK then (p.reply p.log.length).1
      else if (p.reply (p.log.length + 1)).1 ≠ DEVICE_OK then (p.reply (p.log.length + 1)).1
      else DEVICE_OK := by
  rw [NumericSet_cases]
  split_ifs <;> rfl

/-- A set transaction in which the send or the receive fails returns a failure code. -/
theorem NumericSet_fails (k : KUtils) (cmd : Str) (val : Int) (p : Port)
    (h : (p.reply p.log.length).1 ≠ DEVICE_OK ∨ (p.reply (p.log.length + 1)).1 ≠ DEVICE_OK) :
    (NumericSet k cmd val p).1 ≠ DEVICE_OK := by
  rw [NumericSet_ret]
  split_ifs with h0 h1
  · exact h0
  · exact h1
  · rcases h with h | h
    · exact absurd h h0
    · exact absurd h h1

/-- The end of the set branch of the `KHRI` handlers returns the code of the
transaction and leaves the object as it received it. -/
theorem KHRI_set_eq (cmd : Str) (number : Int) (prop : Str) (d : Dev) (p : Port) :
    KHRI_set cmd number prop d p =
      { ret := (NumericSet d.k_ cmd number p).1, dev := d,
        port := (NumericSet d.k_ cmd number p).2, prop := prop } := by
  unfold KHRI_set
  by_cases h : (NumericSet d.k_ cmd number p).1 = DEVICE_OK
  · simp only [h, ne_eq, not_true_eq_false, if_false]
  · simp only [h, ne_eq, not_false_eq_true, if_true]

/-- When `KUtils::NumericGet` returns having written a value, it has performed the four
port operations of its plan. -/
theorem NumericGet_written (k : KUtils) (cmd : Str) (p q : Port) (ret v : Int)
    (h : NumericGet k cmd p = .ok (ret, some v, q)) :
    q = { p with log := p.log ++ NumericGet_plan k cmd } := by
  rw [NumericGet_cases] at h
  split_ifs at h with h0 h1 h2 h3 h4
  · simp only [Outcome.ok.injEq, Prod.mk.injEq, reduceCtorEq, false_and, and_false] at h
  · simp only [Outcome.ok.injEq, Prod.mk.injEq, reduceCtorEq, false_and, and_false] at h
  · simp only [Outcome.ok.injEq, Prod.mk.injEq, reduceCtorEq, false_and, and_false] at h
  · simp only [Outcome.ok.injEq, Prod.mk.injEq, reduceCtorEq, false_and, and_false] at h
  · simp only [Outcome.ok.injEq, Prod.mk.injEq] at h
    exact h.2.2.symm
  · cases hsub : substr (p.reply (p.log.length + 3)).2
        (size_t_sub (p.reply (p.log.length + 3)).2.length 3) none with
    | none =>
      rw [hsub, orThrow_none] at h
      exact absurd h (by simp only [reduceCtorEq, not_false_eq_true])
    | some tail =>
      rw [hsub, orThrow_some] at h
      split_ifs at h
      · simp only [Outcome.ok.injEq, Prod.mk.injEq] at h
        exact h.2.2.symm
      · simp only [Outcome.ok.injEq, Prod.mk.injEq] at h
        exact h.2.2.symm

/-! ## Lemmas on a block without rows -/

/-- Less fuel does not end a loop of `PopulateCalibrationVectors` that ran out of
fuel. -/
theorem populate_loop_timeout_le (ds rd : Vec) (file : IfStream) (line : Str) :
    ∀ (m n : Nat), n ≤ m → populate_loop m ds rd file line = .timeout →
      populate_loop n ds rd file line = .timeout := by
  intro m
  induction m with
  | zero =>
    intro n hn h
    have : n = 0 := by omega
    subst this
    exact h
  | succ m ih =>
    intro n hn h
    rcases Nat.lt_or_ge n (m + 1) with hlt | hge
    · apply ih n (by omega)
      by_contra hne
      rw [populate_loop_mono m ds rd file line hne] at h
      exact hne h
    · have : n = m + 1 := by omega
      subst this
      exact h

/-- One pass of the loop of `PopulateCalibrationVectors` over a file whose first delay
header is followed by a line that is not a number: the stream is back at the start of
the file and the vectors are as they were. -/
theorem populate_loop_rewind (pre : List Str) (hdr x : Str) (post : List Str) (term : Bool)
    (ds rd : Vec) (line : Str) (fuel : Nat)
    (hpre : ∀ l ∈ pre, field0 l ≠ delayHeader) (hhdr : field0 hdr = delayHeader)
    (hx : is_number (field0 x) = false) (hnl : post ≠ [] ∨ term = true) :
    populate_loop (fuel + 1 + pre.length) ds rd
        ⟨pre ++ hdr :: x :: post, term, 0, false, false⟩ line =
      populate_loop fuel ds rd ⟨pre ++ hdr :: x :: post, term, 0, false, false⟩ hdr := by
  have hskip := populate_loop_skip (pre ++ hdr :: x :: post) term ds rd (hdr :: x :: post)
    (by simp) pre 0 (fuel + 1) line (by simp) hpre
  rw [hskip]
  have hdrop : (pre ++ hdr :: x :: post).drop (0 + pre.length) = hdr :: x :: post := by
    simp
  obtain ⟨hh, hd1, hlen⟩ := drop_head_getElem? _ _ _ _ hdrop
  obtain ⟨hxx, _, hlen2⟩ := drop_head_getElem? _ _ _ _ hd1
  simp only [populate_loop]
  rw [getline_mid _ term _ line hdr hh (Or.inl (by omega))]
  have hc : c_str ((split hdr).headD []) = "Delay (ps)".toList := hhdr
  simp only [Bool.false_eq_true, if_false, hc, if_true]
  have hmid : 0 + pre.length + 1 + 1 < (pre ++ hdr :: x :: post).length ∨ term = true := by
    rcases hnl with h | h
    · left
      have : 0 < post.length := List.length_pos.mpr h
      omega
    · exact Or.inr h
  have hfill : fill_vectors ds rd ⟨pre ++ hdr :: x :: post, term, 0 + pre.length + 1, false, false⟩
      = .ok (0, ds, rd, ⟨pre ++ hdr :: x :: post, term, 0 + pre.length + 1 + 1, false, false⟩) := by
    simp only [fill_vectors]
    rw [getline_mid _ term _ [] x hxx hmid]
    simp only
    rw [show (pre ++ hdr :: x :: post).length + 2 = ((pre ++ hdr :: x :: post).length + 1) + 1
      from rfl, fill_loop_not_number _ _ (by exact hx)]
  rw [hfill]
  simp only [seekg, Bool.false_eq_true, if_false, Int.lt_irrefl, Int.toNat_zero]

/-- The loop of `PopulateCalibrationVectors` runs out of every amount of fuel on a file
whose first delay header is followed by a line that is not a number. -/
theorem populate_loop_rewinds_forever (pre : List Str) (hdr x : Str) (post : List Str)
    (term : Bool) (ds rd : Vec)
    (hpre : ∀ l ∈ pre, field0 l ≠ delayHeader) (hhdr : field0 hdr = delayHeader)
    (hx : is_number (field0 x) = false) (hnl : post ≠ [] ∨ term = true) (fuel : Nat) :
    ∀ line, populate_loop fuel ds rd ⟨pre ++ hdr :: x :: post, term, 0, false, false⟩ line
      = .timeout := by
  have key : ∀ (n : Nat) (line : Str), populate_loop (n * (1 + pre.length)) ds rd
      ⟨pre ++ hdr :: x :: post, term, 0, false, false⟩ line = .timeout := by
    intro n
    induction n with
    | zero => intro line; simp [populate_loop]
    | succ n ih =>
      intro line
      have e : (n + 1) * (1 + pre.length) = n * (1 + pre.length) + 1 + pre.length := by ring
      rw [e, populate_loop_rewind pre hdr x post term ds rd line _ hpre hhdr hx hnl]
      exact ih hdr
  intro line
  apply populate_loop_timeout_le ds rd _ line (fuel * (1 + pre.length)) fuel
  · have : fuel * 1 ≤ fuel * (1 + pre.length) := Nat.mul_le_mul_left fuel (by omega)
    omega
  · exact key fuel line

/-- The port operations of `KUtils::NumericGet`, whether it returns or throws, are the
first operations of its plan. -/
theorem NumericGet_port (k : KUtils) (cmd : Str) (p : Port) :
    ∃ j, 1 ≤ j ∧ (NumericGet k cmd p).port? =
      some { p with log := p.log ++ (NumericGet_plan k cmd).take j } := by
  rw [NumericGet_cases]
  split_ifs
  · exact ⟨1, le_refl _, rfl⟩
  · exact ⟨2, by omega, rfl⟩
  · exact ⟨3, by omega, rfl⟩
  · exact ⟨3, by omega, rfl⟩
  · exact ⟨4, by omega, rfl⟩
  · refine ⟨4, by omega, ?_⟩
    cases substr (p.reply (p.log.length + 3)).2
        (size_t_sub (p.reply (p.log.length + 3)).2.length 3) none with
    | none => rfl
    | some tail =>
      rw [orThrow_some]
      split_ifs <;> rfl

/-- The function `KUtils::NumericGet` returns or throws. -/
theorem NumericGet_total (k : KUtils) (cmd : Str) (p : Port) :
    ∃ r, NumericGet k cmd p = .ok r ∨ NumericGet k cmd p = .threw r := by
  obtain ⟨j, _, h⟩ := NumericGet_port k cmd p
  cases hr : NumericGet k cmd p with
  | ok r => exact ⟨r, Or.inl rfl⟩
  | threw r => exact ⟨r, Or.inr rfl⟩
  | undef => rw [hr] at h; exact absurd h (by simp [Outcome.port?])
  | timeout => rw [hr] at h; exact absurd h (by simp [Outcome.port?])

/-! ## Lemmas on the setup functions -/

/-- A toggle command that is sent, echoed with `  ok` and followed by a purge that
succeeds. -/
theorem ToggleSet_ok (k : KUtils) (cmd : Str) (p : Port)
    (hsend : (p.reply p.log.length).1 = DEVICE_OK)
    (hrecv : p.reply (p.log.length + 1) = (DEVICE_OK, cmd ++ "  ok".toList))
    (hpurge : (p.reply (p.log.length + 2)).1 = DEVICE_OK) :
    ToggleSet k cmd p = (DEVICE_OK, { p with log := p.log ++ ToggleSet_plan cmd }) := by
  rw [ToggleSet_cases, hrecv]
  simp only [hsend, hpurge, ne_eq, not_true_eq_false, if_false]
  rfl

/-- The first port operation of `KUtils::ToggleSet` sends the command. -/
theorem ToggleSet_sends (k : KUtils) (cmd : Str) (p : Port) :
    (ToggleSet k cmd p).2.log.take (p.log.length + 1) =
      p.log ++ [PortOp.send cmd "\r".toList] := by
  rw [ToggleSet_cases]
  split_ifs <;> simp [ToggleSet_plan, List.take_append_eq_append_take]

/-- The `if` of two commands that differ in their sign. -/
theorem sign_command (b : Bool) (token : Str) :
    (if b = true then '+' :: token else '-' :: token) =
      (if b = true then '+' else '-') :: token := by
  cases b <;> rfl

/-! ## Lemmas on the threshold tuner -/

/-- Integers of magnitude below `2^24` are `float` values. -/
theorem to_float_exact (x : Int) (h : x.natAbs < 16777216) : to_float x = x := by
  have hu : float_ulp 64 x.natAbs 1 = 1 := by
    simp only [float_ulp, Nat.div_one, h, if_true]
  unfold to_float
  simp only [hu, Nat.div_one, Nat.mod_one, Nat.mul_zero, Nat.mul_one]
  have hno : ¬ ((1 : Nat) < 0 ∨ ((0 : Nat) = 1 ∧ x.natAbs % 2 = 1)) := by omega
  rw [if_neg hno]
  split_ifs <;> omega

/-- The difference of two `float` values is exact when its magnitude is below
`2^24`. -/
theorem float_sub_exact (a b : Int) (h : (a - b).natAbs < 16777216) :
    float_sub a b = a - b :=
  to_float_exact _ h

/-- A digit is not a space, a tab or a newline. -/
theorem isDigit_not_blank (c : Char) (h : c.isDigit = true) :
    " \t\n".toList.contains c = false := by
  have h1 : c ≠ ' ' := by intro hc; subst hc; exact absurd h (by decide)
  have h2 : c ≠ '\t' := by intro hc; subst hc; exact absurd h (by decide)
  have h3 : c ≠ '\n' := by intro hc; subst hc; exact absurd h (by decide)
  have e1 : (c == ' ') = false := beq_eq_false_iff_ne.mpr h1
  have e2 : (c == '\t') = false := beq_eq_false_iff_ne.mpr h2
  have e3 : (c == '\n') = false := beq_eq_false_iff_ne.mpr h3
  show List.elem c [' ', '\t', '\n'] = false
  simp only [List.elem, e1, e2, e3]

/-- A string whose first and last characters are not white space is left as it is by
`trim`. -/
theorem trim_id (c l : Char) (rest init whitespace : Str)
    (hs : c :: rest = init ++ [l])
    (hc : whitespace.contains c = false) (hl : whitespace.contains l = false) :
    trim (c :: rest) whitespace = c :: rest := by
  have hc2 : c ∉ whitespace := by simpa using hc
  have hl2 : l ∉ whitespace := by simpa using hl
  have hfirst : find_first_not_of (c :: rest) whitespace = some 0 := by
    simp [find_first_not_of, List.findIdx?_cons, hc2]
  have hlast : find_last_not_of (c :: rest) whitespace = some ((c :: rest).length - 1) := by
    unfold find_last_not_of
    rw [hs, List.reverse_append]
    simp [List.findIdx?_cons, hl2]
  unfold trim
  rw [hfirst]
  simp only [hlast, Option.getD_some, Nat.sub_zero, substr]
  have hlen : (c :: rest).length - 1 + 1 = (c :: rest).length := by simp
  rw [hlen]
  simp

/-- The answer made of an echo that does not begin with white space and of the
decimal form of a number is left as it is by `trim`. -/
theorem trim_echo_number (echo : Str) (c : Char) (rest : Str) (v : Int)
    (hecho : echo = c :: rest) (hc : " \t\n".toList.contains c = false) :
    trim (echo ++ lexical_cast v) " \t\n".toList = echo ++ lexical_cast v := by
  have hd : ∃ init l, Nat.toDigits 10 v.natAbs = init ++ [l] ∧ l.isDigit = true := by
    have hne := toDigits_ne_nil v.natAbs
    refine ⟨(Nat.toDigits 10 v.natAbs).dropLast, (Nat.toDigits 10 v.natAbs).getLast hne,
      (List.dropLast_append_getLast hne).symm, ?_⟩
    have hall := toDigits_all v.natAbs
    rw [List.all_eq_true] at hall
    exact hall _ (List.getLast_mem hne)
  obtain ⟨init, l, hdig, hl⟩ := hd
  have hv : ∃ pre, lexical_cast v = pre ++ [l] := by
    unfold lexical_cast
    split_ifs
    · exact ⟨'-' :: init, by rw [hdig]; rfl⟩
    · exact ⟨init, hdig⟩
  obtain ⟨pre, hpre⟩ := hv
  rw [hecho, hpre]
  exact trim_id c l (rest ++ (pre ++ [l])) (c :: rest ++ pre) _
    (by simp) hc (isDigit_not_blank l hl)

/-- The first element that satisfies a predicate, in a list that begins with elements
that do not. -/
theorem findIdx?_skip {α : Type} (q : α → Bool) (lead ys : List α)
    (h : ∀ x ∈ lead, q x = false) :
    (lead ++ ys).findIdx? q = (ys.findIdx? q).map (fun i => i + lead.length) := by
  rw [List.findIdx?_append]
  have hnone : lead.findIdx? q = none := by
    rw [List.findIdx?_eq_none_iff]
    exact h
  rw [hnone]
  simp

/-- A string whose first and last characters are not white space, between two runs of
white space, is what `trim` returns. -/
theorem trim_padded (lead trail : Str) (c l : Char) (rest init whitespace : Str)
    (hs : c :: rest = init ++ [l])
    (hc : whitespace.contains c = false) (hl : whitespace.contains l = false)
    (hlead : ∀ x ∈ lead, whitespace.contains x = true)
    (htrail : ∀ x ∈ trail, whitespace.contains x = true) :
    trim (lead ++ (c :: rest) ++ trail) whitespace = c :: rest := by
  have hc2 : c ∉ whitespace := by simpa using hc
  have hl2 : l ∉ whitespace := by simpa using hl
  have hlead2 : ∀ x ∈ lead, x ∈ whitespace := fun x hx => by simpa using hlead x hx
  have htrail2 : ∀ x ∈ trail, x ∈ whitespace := fun x hx => by simpa using htrail x hx
  have hfirst : find_first_not_of (lead ++ (c :: rest) ++ trail) whitespace
      = some lead.length := by
    unfold find_first_not_of
    rw [List.append_assoc, findIdx?_skip _ lead _ (fun x hx => by simp [hlead2 x hx])]
    simp [List.findIdx?_cons, hc2]
  have hlast : find_last_not_of (lead ++ (c :: rest) ++ trail) whitespace
      = some (lead.length + (c :: rest).length - 1) := by
    unfold find_last_not_of
    rw [hs, List.reverse_append, List.reverse_append, List.reverse_append,
      List.append_assoc, findIdx?_skip _ trail.reverse _
        (fun x hx => by simp [htrail2 x (List.mem_reverse.mp hx)])]
    simp only [List.reverse_cons, List.reverse_nil, List.nil_append, List.singleton_append,
      List.cons_append, List.findIdx?_cons, hl, Bool.not_false, if_true, Option.map_some',
      Nat.zero_add, List.length_reverse, List.length_append, List.length_cons,
      List.length_nil]
    congr 1
    omega
  unfold trim
  rw [hfirst]
  simp only [hlast, Option.getD_some, substr]
  have hle : ¬ (lead.length > (lead ++ (c :: rest) ++ trail).length) := by
    simp only [List.length_append]; omega
  rw [if_neg hle]
  have hlen : lead.length + (c :: rest).length - 1 - lead.length + 1 = (c :: rest).length := by
    simp only [List.length_cons]; omega
  rw [hlen, List.append_assoc, List.drop_left, Option.getD_some, List.take_left]

/-- The extraction `>>` reads back the decimal form of a `long`, and the nearest
`long` for the decimal form of a number that is not one. -/
theorem extract_long_lexical_cast_int (v : Int) :
    extract_long (lexical_cast v) = some (clamp_long v) := by
  rcases Int.lt_or_le v 0 with hneg | hpos
  · have hcast : lexical_cast v = '-' :: Nat.toDigits 10 v.natAbs := by
      simp [lexical_cast, hneg]
    have hne := toDigits_ne_nil v.natAbs
    have hall := toDigits_all v.natAbs
    rw [hcast]
    cases hd : Nat.toDigits 10 v.natAbs with
    | nil => exact absurd hd hne
    | cons c cs =>
      rw [hd] at hall
      have hc : c.isDigit = true := by
        simp only [List.all_cons, Bool.and_eq_true] at hall
        exact hall.1
      have hval : atoi_digits 0 (c :: cs) = (v.natAbs : Int) := by
        rw [← hd, atoi_digits_toDigits]
      have hsp : isspace '-' = false := by decide
      simp only [extract_long, List.dropWhile, hsp, hc, if_true, hval, Option.some.injEq]
      unfold clamp_long LONG_MIN LONG_MAX
      omega
  · obtain ⟨n, rfl⟩ := Int.eq_ofNat_of_zero_le hpos
    rw [extract_long_lexical_cast n]
    unfold clamp_long LONG_MIN LONG_MAX
    simp only [Option.some.injEq]
    omega

/-- A set transaction on a port where the send and the receive succeed. -/
theorem NumericSet_ok (k : KUtils) (cmd : Str) (val : Int) (p : Port)
    (hsend : (p.reply p.log.length).1 = DEVICE_OK)
    (hrecv : (p.reply (p.log.length + 1)).1 = DEVICE_OK) :
    NumericSet k cmd val p = (DEVICE_OK, { p with log := p.log ++ NumericSet_plan k cmd val }) := by
  rw [NumericSet_cases]
  simp only [hsend, hrecv, ne_eq, not_true_eq_false, if_false]
  rfl

/-- A get transaction on a port where every operation succeeds, the first answer is
the echo of the query followed by the decimal form of `v`, and the second is ` ok`. -/
theorem NumericGet_value (k : KUtils) (cmd : Str) (v : Int) (p : Port) (c : Char) (rest : Str)
    (hecho : k.getcmdstr_ ++ cmd = c :: rest) (hc : " \t\n".toList.contains c = false)
    (hpurge : (p.reply p.log.length).1 = DEVICE_OK)
    (hsend : (p.reply (p.log.length + 1)).1 = DEVICE_OK)
    (hrecv1 : p.reply (p.log.length + 2) = (DEVICE_OK, k.getcmdstr_ ++ cmd ++ lexical_cast v))
    (hrecv2 : p.reply (p.log.length + 3) = (DEVICE_OK, " ok".toList)) :
    NumericGet k cmd p =
      .ok (DEVICE_OK, some (clamp_long v),
        { p with log := p.log ++ NumericGet_plan k cmd }) := by
  have htrim := trim_echo_number (k.getcmdstr_ ++ cmd) c rest v hecho hc
  have hsub : substr " ok".toList (size_t_sub " ok".toList.length 3) none
      = some " ok".toList := by decide
  rw [NumericGet_echoed k cmd p _ (lexical_cast v) hpurge hsend hrecv1 htrim, hrecv2]
  simp only [ne_eq, not_true_eq_false, if_false]
  rw [hsub, orThrow_some, extract_long_lexical_cast_int]
  simp only [not_true_eq_false, if_false, Option.getD_some]

/-- One turn of the `for` loop of the setup functions on a port where its eight
operations succeed, the first answer of the get transaction is the echo of the query
followed by the decimal form of `v`, and the second is ` ok`. -/
theorem read_level_ok (k : KUtils) (threshstr trigopstr : Str) (thr v : Int)
    (val : Option Int) (p : Port) (c : Char) (rest : Str)
    (hecho : k.getcmdstr_ ++ trigopstr = c :: rest)
    (hc : " \t\n".toList.contains c = false)
    (hcodes : ∀ i, i < 8 → (p.reply (p.log.length + i)).1 = DEVICE_OK)
    (h5 : (p.reply (p.log.length + 5)).2 = k.getcmdstr_ ++ trigopstr ++ lexical_cast v)
    (h6 : (p.reply (p.log.length + 6)).2 = " ok".toList) :
    read_level k threshstr trigopstr thr val p =
      .ok (DEVICE_OK, some (clamp_long v),
        { p with log := p.log ++ level_plan k threshstr trigopstr thr }) := by
  have hset := NumericSet_ok k threshstr thr p (by simpa using hcodes 0 (by omega))
    (hcodes 1 (by omega))
  have hget := NumericGet_value k trigopstr v
    { p with log := p.log ++ NumericSet_plan k threshstr thr ++ [PortOp.purge] } c rest
    hecho hc
    (by simpa [NumericSet_plan, Nat.add_assoc] using hcodes 3 (by omega))
    (by simpa [NumericSet_plan, Nat.add_assoc] using hcodes 4 (by omega))
    (by
      have h := hcodes 5 (by omega)
      have e : p.reply (p.log.length + 5) =
          (DEVICE_OK, k.getcmdstr_ ++ trigopstr ++ lexical_cast v) := by
        rw [← h, ← h5]
      simpa [NumericSet_plan, Nat.add_assoc] using e)
    (by
      have h := hcodes 6 (by omega)
      have e : p.reply (p.log.length + 6) = (DEVICE_OK, " ok".toList) := by
        rw [← h, ← h6]
      simpa [NumericSet_plan, Nat.add_assoc] using e)
  have h2 : (p.reply (p.log ++ NumericSet_plan k threshstr thr).length).1 = DEVICE_OK := by
    simpa [NumericSet_plan] using hcodes 2 (by omega)
  have h7 : (p.reply (p.log ++ NumericSet_plan k threshstr thr ++ [PortOp.purge] ++
      NumericGet_plan k trigopstr).length).1 = DEVICE_OK := by
    simpa [NumericSet_plan, NumericGet_plan, Nat.add_assoc] using hcodes 7 (by omega)
  unfold read_level
  rw [hset]
  simp only [ne_eq, not_true_eq_false, if_false, PurgeComPort, h2]
  rw [hget]
  simp only [ne_eq, not_true_eq_false, if_false, h7, level_plan, val_after]
  simp only [List.append_assoc]

/-- The adjustment computed by a turn of the tuning loop. -/
theorem tune_step_eq (diff : Int) (h : 5 < iabs diff) :
    (if diff > 0 then (-1) * (if iabs diff > 50 then (50 : Int) else 1)
      else (if iabs diff > 50 then (50 : Int) else 1)) = tune_step diff := by
  unfold iabs at h ⊢
  unfold tune_step
  split_ifs at h ⊢ <;> omega

/-- A turn of the tuning loop in which the set and the get transactions succeed and
the get transaction writes a value. -/
theorem tune_loop_turn (k : KUtils) (threshstr trigopstr : Str) (midop : Int) (fuel : Nat)
    (thr op diff v : Int) (p q : Port) (hloop : 5 < iabs diff)
    (hset : (NumericSet k threshstr (to_int (thr + tune_step diff)) p).1 = DEVICE_OK)
    (hget : NumericGet k trigopstr (NumericSet k threshstr (to_int (thr + tune_step diff)) p).2
      = .ok (DEVICE_OK, some v, q)) :
    tune_loop k threshstr trigopstr midop (fuel + 1) thr op diff p =
      tune_loop k threshstr trigopstr midop fuel (to_int (thr + tune_step diff)) (to_int v)
        (float_sub (to_float (to_int v)) midop) q := by
  have hl : iabs diff > 5 := hloop
  simp only [tune_loop, hl, if_true, tune_step_eq diff hloop, hset, hget, ne_eq,
    not_true_eq_false, if_false]

/-- The tuning loop ends at once when the difference is at most `5`. -/
theorem tune_loop_done (k : KUtils) (threshstr trigopstr : Str) (midop : Int) (fuel : Nat)
    (thr op diff : Int) (p : Port) (hdone : iabs diff ≤ 5) :
    tune_loop k threshstr trigopstr midop (fuel + 1) thr op diff p =
      .ok (DEVICE_OK, thr, op, p) := by
  have hl : ¬ (iabs diff > 5) := by omega
  simp only [tune_loop, hl, if_false]

/-- When the tuning loop ends with `DEVICE_OK`, the difference for the output level
queried last is at most `5`. -/
theorem tune_loop_exit (k : KUtils) (threshstr trigopstr : Str) (midop : Int) :
    ∀ (fuel : Nat) (thr op diff : Int) (p : Port) (thr1 o : Int) (q : Port),
      diff = float_sub (to_float op) midop →
      tune_loop k threshstr trigopstr midop fuel thr op diff p = .ok (DEVICE_OK, thr1, o, q) →
      iabs (float_sub (to_float o) midop) ≤ 5 := by
  intro fuel
  induction fuel with
  | zero =>
    intro thr op diff p thr1 o q _ h
    simp only [tune_loop, reduceCtorEq] at h
  | succ fuel ih =>
    intro thr op diff p thr1 o q hdiff h
    by_cases hl : iabs diff > 5
    · simp only [tune_loop, hl, if_true] at h
      by_cases hs : (NumericSet k threshstr (to_int (thr + (if diff > 0 then
          (-1) * (if iabs diff > 50 then (50 : Int) else 1)
          else (if iabs diff > 50 then (50 : Int) else 1)))) p).1 = DEVICE_OK
      · simp only [hs, ne_eq, not_true_eq_false, if_false] at h
        cases hg : NumericGet k trigopstr (NumericSet k threshstr (to_int (thr +
            (if diff > 0 then (-1) * (if iabs diff > 50 then (50 : Int) else 1)
            else (if iabs diff > 50 then (50 : Int) else 1)))) p).2 with
        | ok r =>
          obtain ⟨ret, val, p2⟩ := r
          rw [hg] at h
          simp only at h
          by_cases hr : ret = DEVICE_OK
          · simp only [hr, ne_eq, not_true_eq_false, if_false] at h
            cases val with
            | none =>
              simp only at h
              exact ih _ _ _ _ _ _ _ rfl h
            | some v =>
              simp only at h
              exact ih _ _ _ _ _ _ _ rfl h
          · simp only [hr, ne_eq, not_false_eq_true, if_true, Outcome.ok.injEq,
              Prod.mk.injEq] at h
            exact h.1.elim
        | threw r => rw [hg] at h; simp only [reduceCtorEq] at h
        | undef => rw [hg] at h; simp only [reduceCtorEq] at h
        | timeout => rw [hg] at h; simp only [reduceCtorEq] at h
      · simp only [hs, ne_eq, not_false_eq_true, if_true, Outcome.ok.injEq,
          Prod.mk.injEq] at h
        exact h.1.elim
    · simp only [tune_loop, hl, if_false, Outcome.ok.injEq, Prod.mk.injEq] at h
      obtain ⟨_, _, ho, _⟩ := h
      rw [← ho, ← hdiff]
      omega

/-- Every operation of the tuner succeeds on the device. -/
theorem tuner_reply_code (f : Int → Int) (echo : Str) (lo hi : Int) (n : Nat) :
    (tuner_reply f echo lo hi n).1 = DEVICE_OK := by
  unfold tuner_reply
  split_ifs <;> rfl

/-- The first answer of the get transaction of turn `j + 1` of the tuning loop. -/
theorem tuner_reply_first (f : Int → Int) (echo : Str) (lo hi : Int) (j : Nat) :
    tuner_reply f echo lo hi (16 + 6 * j + 4) =
      (DEVICE_OK, echo ++ lexical_cast (f (tuner_thr f (tuner_midop f lo hi) hi (j + 1)))) := by
  have h1 : ¬ (16 + 6 * j + 4 = 5) := by omega
  have h2 : ¬ (16 + 6 * j + 4 = 13) := by omega
  have h3 : ¬ (16 + 6 * j + 4 = 6 ∨ 16 + 6 * j + 4 = 14) := by omega
  have h4 : 16 ≤ 16 + 6 * j + 4 ∧ (16 + 6 * j + 4 - 16) % 6 = 4 := by omega
  have h5 : (16 + 6 * j + 4 - 16) / 6 = j := by omega
  unfold tuner_reply
  rw [if_neg h1, if_neg h2, if_neg h3, if_pos h4, h5]

/-- The second answer of the get transaction of turn `j + 1` of the tuning loop. -/
theorem tuner_reply_second (f : Int → Int) (echo : Str) (lo hi : Int) (j : Nat) :
    tuner_reply f echo lo hi (16 + 6 * j + 5) = (DEVICE_OK, " ok".toList) := by
  have h1 : ¬ (16 + 6 * j + 5 = 5) := by omega
  have h2 : ¬ (16 + 6 * j + 5 = 13) := by omega
  have h3 : ¬ (16 + 6 * j + 5 = 6 ∨ 16 + 6 * j + 5 = 14) := by omega
  have h4 : ¬ (16 ≤ 16 + 6 * j + 5 ∧ (16 + 6 * j + 5 - 16) % 6 = 4) := by omega
  have h5 : 16 ≤ 16 + 6 * j + 5 ∧ (16 + 6 * j + 5 - 16) % 6 = 5 := by omega
  unfold tuner_reply
  rw [if_neg h1, if_neg h2, if_neg h3, if_neg h4, if_pos h5]

theorem tuner_log_length (f : Int → Int) (k : KUtils) (threshstr trigopstr : Str)
    (midop hi : Int) (j : Nat) :
    (tuner_log f k threshstr trigopstr midop hi j).length = 6 * j := by
  induction j with
  | zero => rfl
  | succ j ih =>
    simp only [tuner_log, List.length_append, ih, NumericSet_plan, NumericGet_plan,
      List.length_cons, List.length_nil]
    omega

theorem level_plan_length (k : KUtils) (threshstr trigopstr : Str) (thr : Int) :
    (level_plan k threshstr trigopstr thr).length = 8 := by
  simp [level_plan, NumericSet_plan, NumericGet_plan]

/-- The two turns of the `for` loop against a device whose output level is `f` of the
threshold. -/
theorem tuner_levels (f : Int → Int) (k : KUtils) (threshstr trigopstr : Str) (lo hi : Int)
    (p : Port) (c : Char) (rest : Str)
    (hecho : k.getcmdstr_ ++ trigopstr = c :: rest)
    (hc : " \t\n".toList.contains c = false)
    (hp : ∀ n, p.reply (p.log.length + n) = tuner_reply f (k.getcmdstr_ ++ trigopstr) lo hi n) :
    read_level k threshstr trigopstr lo none p =
        .ok (DEVICE_OK, some (clamp_long (f lo)),
          { p with log := p.log ++ level_plan k threshstr trigopstr lo }) ∧
      read_level k threshstr trigopstr hi (some (clamp_long (f lo)))
          { p with log := p.log ++ level_plan k threshstr trigopstr lo } =
        .ok (DEVICE_OK, some (clamp_long (f hi)),
          { p with log := p.log ++ level_plan k threshstr trigopstr lo ++
            level_plan k threshstr trigopstr hi }) := by
  refine ⟨?_, ?_⟩
  · apply read_level_ok k threshstr trigopstr lo (f lo) none p c rest hecho hc
    · intro i _
      rw [hp i]
      exact tuner_reply_code _ _ _ _ _
    · rw [hp 5]; rfl
    · rw [hp 6]; rfl
  · have h := read_level_ok k threshstr trigopstr hi (f hi) (some (clamp_long (f lo)))
      { p with log := p.log ++ level_plan k threshstr trigopstr lo } c rest hecho hc
      (by
        intro i _
        simp only [List.length_append, level_plan_length, Nat.add_assoc]
        rw [hp (8 + i)]
        exact tuner_reply_code _ _ _ _ _)
      (by
        simp only [List.length_append, level_plan_length, Nat.add_assoc]
        rw [hp (8 + 5)]; rfl)
      (by
        simp only [List.length_append, level_plan_length, Nat.add_assoc]
        rw [hp (8 + 6)]; rfl)
    rw [h]

/-- The threshold of turn `j + 1` is the one of turn `j` with the adjustment, as an
`int`. -/
theorem tuner_thr_succ (f : Int → Int) (midop hi : Int) (j : Nat) :
    tuner_thr f midop hi (j + 1) =
      to_int (tuner_thr f midop hi j + tune_step (tuner_diff f midop hi j)) := rfl

/-- The set and the get transaction of turn `j + 1` of the tuning loop against a device
whose output level is `f` of the threshold. -/
theorem tuner_turn (f : Int → Int) (k : KUtils) (threshstr trigopstr : Str) (lo hi : Int)
    (p : Port) (c : Char) (rest : Str)
    (hecho : k.getcmdstr_ ++ trigopstr = c :: rest)
    (hc : " \t\n".toList.contains c = false)
    (hp : ∀ n, p.reply (p.log.length + n) = tuner_reply f (k.getcmdstr_ ++ trigopstr) lo hi n)
    (j : Nat) :
    (NumericSet k threshstr (tuner_thr f (tuner_midop f lo hi) hi (j + 1))
        { p with log := p.log ++ level_plan k threshstr trigopstr lo ++
          level_plan k threshstr trigopstr hi ++
          tuner_log f k threshstr trigopstr (tuner_midop f lo hi) hi j }).1 = DEVICE_OK ∧
      NumericGet k trigopstr
          (NumericSet k threshstr (tuner_thr f (tuner_midop f lo hi) hi (j + 1))
            { p with log := p.log ++ level_plan k threshstr trigopstr lo ++
              level_plan k threshstr trigopstr hi ++
              tuner_log f k threshstr trigopstr (tuner_midop f lo hi) hi j }).2 =
        .ok (DEVICE_OK,
          some (clamp_long (f (tuner_thr f (tuner_midop f lo hi) hi (j + 1)))),
          { p with log := p.log ++ level_plan k threshstr trigopstr lo ++
            level_plan k threshstr trigopstr hi ++
            tuner_log f k threshstr trigopstr (tuner_midop f lo hi) hi (j + 1) }) := by
  have hlen : (p.log ++ level_plan k threshstr trigopstr lo ++
      level_plan k threshstr trigopstr hi ++
      tuner_log f k threshstr trigopstr (tuner_midop f lo hi) hi j).length
      = p.log.length + (16 + 6 * j) := by
    simp only [List.length_append, level_plan_length, tuner_log_length]
    omega
  have hset := NumericSet_ok k threshstr (tuner_thr f (tuner_midop f lo hi) hi (j + 1))
    { p with log := p.log ++ level_plan k threshstr trigopstr lo ++
      level_plan k threshstr trigopstr hi ++
      tuner_log f k threshstr trigopstr (tuner_midop f lo hi) hi j }
    (by
      show (p.reply _).1 = DEVICE_OK
      rw [hlen, hp]
      exact tuner_reply_code _ _ _ _ _)
    (by
      show (p.reply _).1 = DEVICE_OK
      rw [hlen, Nat.add_assoc, hp]
      exact tuner_reply_code _ _ _ _ _)
  have hlen2 : (p.log ++ level_plan k threshstr trigopstr lo ++
      level_plan k threshstr trigopstr hi ++
      tuner_log f k threshstr trigopstr (tuner_midop f lo hi) hi j ++
      NumericSet_plan k threshstr (tuner_thr f (tuner_midop f lo hi) hi (j + 1))).length
      = p.log.length + (16 + 6 * j + 2) := by
    rw [List.length_append, hlen]
    simp only [NumericSet_plan, List.length_cons, List.length_nil]
    omega
  have hget := NumericGet_value k trigopstr
    (f (tuner_thr f (tuner_midop f lo hi) hi (j + 1)))
    { p with log := p.log ++ level_plan k threshstr trigopstr lo ++
      level_plan k threshstr trigopstr hi ++
      tuner_log f k threshstr trigopstr (tuner_midop f lo hi) hi j ++
      NumericSet_plan k threshstr (tuner_thr f (tuner_midop f lo hi) hi (j + 1)) }
    c rest hecho hc
    (by
      show (p.reply _).1 = DEVICE_OK
      rw [hlen2, hp]
      exact tuner_reply_code _ _ _ _ _)
    (by
      show (p.reply _).1 = DEVICE_OK
      rw [hlen2, Nat.add_assoc, hp]
      exact tuner_reply_code _ _ _ _ _)
    (by
      show p.reply _ = _
      rw [hlen2, Nat.add_assoc, hp]
      exact tuner_reply_first f _ lo hi j)
    (by
      show p.reply _ = _
      rw [hlen2, Nat.add_assoc, hp]
      exact tuner_reply_second f _ lo hi j)
  rw [hset]
  refine ⟨rfl, ?_⟩
  rw [hget]
  simp only [tuner_log, List.append_assoc]

/-- The first `j` turns of the tuning loop against a device whose output level is `f`
of the threshold, while the difference stays above `5`. -/
theorem tuner_sim (f : Int → Int) (k : KUtils) (threshstr trigopstr : Str) (lo hi : Int)
    (p : Port) (c : Char) (rest : Str)
    (hecho : k.getcmdstr_ ++ trigopstr = c :: rest)
    (hc : " \t\n".toList.contains c = false)
    (hp : ∀ n, p.reply (p.log.length + n) = tuner_reply f (k.getcmdstr_ ++ trigopstr) lo hi n) :
    ∀ (j fuel : Nat), (∀ i, i < j → 5 < iabs (tuner_diff f (tuner_midop f lo hi) hi i)) →
      tune_loop k threshstr trigopstr (tuner_midop f lo hi) (fuel + j) hi (tuner_op f hi)
          (tuner_diff f (tuner_midop f lo hi) hi 0)
          { p with log := p.log ++ level_plan k threshstr trigopstr lo ++
            level_plan k threshstr trigopstr hi } =
        tune_loop k threshstr trigopstr (tuner_midop f lo hi) fuel
          (tuner_thr f (tuner_midop f lo hi) hi j)
          (tuner_op f (tuner_thr f (tuner_midop f lo hi) hi j))
          (tuner_diff f (tuner_midop f lo hi) hi j)
          { p with log := p.log ++ level_plan k threshstr trigopstr lo ++
            level_plan k threshstr trigopstr hi ++
            tuner_log f k threshstr trigopstr (tuner_midop f lo hi) hi j } := by
  intro j
  induction j with
  | zero =>
    intro fuel _
    simp only [Nat.add_zero, tuner_log, List.append_nil]
    rfl
  | succ j ih =>
    intro fuel hall
    have e : fuel + (j + 1) = (fuel + 1) + j := by omega
    rw [e, ih (fuel + 1) (fun i hi => hall i (by omega))]
    obtain ⟨hset, hget⟩ := tuner_turn f k threshstr trigopstr lo hi p c rest hecho hc hp j
    rw [tuner_thr_succ] at hset hget
    rw [tune_loop_turn k threshstr trigopstr (tuner_midop f lo hi) fuel _ _ _
      (clamp_long (f (tuner_thr f (tuner_midop f lo hi) hi (j + 1)))) _ _
      (hall j (by omega)) hset hget]
    rfl

/-- The set command of turn `j + 1` in the operations of the tuning loop. -/
theorem tuner_log_send (f : Int → Int) (k : KUtils) (threshstr trigopstr : Str)
    (midop hi : Int) :
    ∀ (J j : Nat), j < J →
      (tuner_log f k threshstr trigopstr midop hi J)[6 * j]? =
        some (PortOp.send (lexical_cast (tuner_thr f midop hi (j + 1)) ++ k.setcmdstr_ ++
          threshstr) k.termstr_) := by
  intro J
  induction J with
  | zero => intro j hj; omega
  | succ J ih =>
    intro j hj
    rcases Nat.lt_or_ge j J with hlt | hge
    · have hlen : 6 * j < (tuner_log f k threshstr trigopstr midop hi J).length := by
        rw [tuner_log_length]; omega
      simp only [tuner_log]
      rw [List.getElem?_append_left hlen]
      exact ih j hlt
    · have hj2 : j = J := by omega
      subst hj2
      have hlen : (tuner_log f k threshstr trigopstr midop hi j).length ≤ 6 * j := by
        rw [tuner_log_length]
      simp only [tuner_log]
      rw [List.getElem?_append_right hlen, tuner_log_length]
      simp [NumericSet_plan]

/-- The tuner against a device whose output level is `f` of the threshold, when the
difference stays above `5` for `J` turns and is at most `5` after them: the loop ends
after `J` turns. -/
theorem tuner_run (f : Int → Int) (k : KUtils) (threshstr trigopstr : Str) (lo hi : Int)
    (p : Port) (c : Char) (rest : Str)
    (hecho : k.getcmdstr_ ++ trigopstr = c :: rest)
    (hc : " \t\n".toList.contains c = false)
    (hp : ∀ n, p.reply (p.log.length + n) = tuner_reply f (k.getcmdstr_ ++ trigopstr) lo hi n)
    (J : Nat) (hall : ∀ i, i < J → 5 < iabs (tuner_diff f (tuner_midop f lo hi) hi i))
    (hend : iabs (tuner_diff f (tuner_midop f lo hi) hi J) ≤ 5) (n : Nat) :
    tune k threshstr trigopstr lo hi (J + 1 + n) p =
      .ok (DEVICE_OK,
        some (tuner_midop f lo hi, tuner_thr f (tuner_midop f lo hi) hi J,
          tuner_op f (tuner_thr f (tuner_midop f lo hi) hi J)),
        { p with log := p.log ++ level_plan k threshstr trigopstr lo ++
          level_plan k threshstr trigopstr hi ++
          tuner_log f k threshstr trigopstr (tuner_midop f lo hi) hi J }) := by
  obtain ⟨h1, h2⟩ := tuner_levels f k threshstr trigopstr lo hi p c rest hecho hc hp
  have hsim := tuner_sim f k threshstr trigopstr lo hi p c rest hecho hc hp J (n + 1) hall
  rw [tune_loop_done _ _ _ _ _ _ _ _ _ hend] at hsim
  have e : J + 1 + n = n + 1 + J := by omega
  unfold tune
  rw [h1]
  simp only
  rw [h2]
  simp only
  rw [e]
  have hm : to_float (to_long (Int.tdiv (to_long (clamp_long (f hi) - clamp_long (f lo))) 2 +
      clamp_long (f lo))) = tuner_midop f lo hi := rfl
  have ho : to_int (clamp_long (f hi)) = tuner_op f hi := rfl
  have hd : float_sub (to_float (tuner_op f hi)) (tuner_midop f lo hi)
      = tuner_diff f (tuner_midop f lo hi) hi 0 := rfl
  rw [hm, ho, hd, hsim]

/-- The tuner against a device whose output level is `f` of the threshold, when the
difference stays above `5` for ever: the loop uses up every amount of fuel. -/
theorem tuner_runs_on (f : Int → Int) (k : KUtils) (threshstr trigopstr : Str) (lo hi : Int)
    (p : Port) (c : Char) (rest : Str)
    (hecho : k.getcmdstr_ ++ trigopstr = c :: rest)
    (hc : " \t\n".toList.contains c = false)
    (hp : ∀ n, p.reply (p.log.length + n) = tuner_reply f (k.getcmdstr_ ++ trigopstr) lo hi n)
    (hall : ∀ i, 5 < iabs (tuner_diff f (tuner_midop f lo hi) hi i)) (fuel : Nat) :
    tune k threshstr trigopstr lo hi fuel p = .timeout := by
  obtain ⟨h1, h2⟩ := tuner_levels f k threshstr trigopstr lo hi p c rest hecho hc hp
  have hsim := tuner_sim f k threshstr trigopstr lo hi p c rest hecho hc hp fuel 0
    (fun i _ => hall i)
  have h0 : ∀ a b d q, tune_loop k threshstr trigopstr (tuner_midop f lo hi) 0 a b d q
      = .timeout := by
    intros; rfl
  rw [h0, Nat.zero_add] at hsim
  unfold tune
  rw [h1]
  simp only
  rw [h2]
  simp only
  have hm : to_float (to_long (Int.tdiv (to_long (clamp_long (f hi) - clamp_long (f lo))) 2 +
      clamp_long (f lo))) = tuner_midop f lo hi := rfl
  have ho : to_int (clamp_long (f hi)) = tuner_op f hi := rfl
  have hd : float_sub (to_float (tuner_op f hi)) (tuner_midop f lo hi)
      = tuner_diff f (tuner_midop f lo hi) hi 0 := rfl
  rw [hm, ho, hd, hsim]

/-- The function `SetupHDG800` on a port where the purge and the two toggle commands
succeed with their echo: the tuner runs from the eighth operation, and a last purge
follows it. -/
theorem SetupHDG800_prelude (fuel : Nat) (d : Dev) (p : Port) (c1 c2 : Str)
    (h1 : c1 = (if d.monostable_ then '+' else '-') :: d.monostr_)
    (h2 : c2 = (if d.polarityPositive_ then '+' else '-') :: d.polstr_)
    (hcodes : ∀ i, i < 7 → (p.reply (p.log.length + i)).1 = DEVICE_OK)
    (he1 : (p.reply (p.log.length + 2)).2 = c1 ++ "  ok".toList)
    (he2 : (p.reply (p.log.length + 5)).2 = c2 ++ "  ok".toList) :
    SetupHDG800 fuel d p =
      match tune d.k_ d.threshstr_ d.trigopstr_ 1500 3500 fuel
          { p with log := p.log ++ [PortOp.purge] ++ ToggleSet_plan c1 ++ ToggleSet_plan c2 } with
      | .ok (ret, _, p) =>
        if ret ≠ DEVICE_OK then .ok (ret, p)
        else if (p.reply p.log.length).1 ≠ DEVICE_OK then
          .ok ((p.reply p.log.length).1, { p with log := p.log ++ [PortOp.purge] })
        else .ok (DEVICE_OK, { p with log := p.log ++ [PortOp.purge] })
      | .threw (ret, _, p) => .threw (ret, p)
      | .undef => .undef
      | .timeout => .timeout := by
  have hpair : ∀ i, i < 7 → ∀ s, (p.reply (p.log.length + i)).2 = s →
      p.reply (p.log.length + i) = (DEVICE_OK, s) := by
    intro i hi s hs
    rw [← hcodes i hi, ← hs]
  have e0 := hcodes 0 (by omega)
  simp only [Nat.add_zero] at e0
  have t1 := ToggleSet_ok d.k_ c1 { p with log := p.log ++ [PortOp.purge] }
    (by simpa using hcodes 1 (by omega))
    (by simpa [Nat.add_assoc] using hpair 2 (by omega) _ he1)
    (by simpa [Nat.add_assoc] using hcodes 3 (by omega))
  have t2 := ToggleSet_ok d.k_ c2
    { p with log := p.log ++ [PortOp.purge] ++ ToggleSet_plan c1 }
    (by simpa [ToggleSet_plan, Nat.add_assoc] using hcodes 4 (by omega))
    (by simpa [ToggleSet_plan, Nat.add_assoc] using hpair 5 (by omega) _ he2)
    (by simpa [ToggleSet_plan, Nat.add_assoc] using hcodes 6 (by omega))
  simp only [SetupHDG800, PurgeComPort, e0, ne_eq, not_true_eq_false, if_false,
    sign_command, ← h1, ← h2]
  rw [t1]
  simp only [ne_eq, not_true_eq_false, if_false]
  rw [t2]
  simp only [ne_eq, not_true_eq_false, if_false]

/-- The function `SetupHDG800` when the tuner ends with `DEVICE_OK` and the last purge
succeeds. -/
theorem SetupHDG800_done (fuel : Nat) (d : Dev) (p : Port) (c1 c2 : Str)
    (h1 : c1 = (if d.monostable_ then '+' else '-') :: d.monostr_)
    (h2 : c2 = (if d.polarityPositive_ then '+' else '-') :: d.polstr_)
    (hcodes : ∀ i, i < 7 → (p.reply (p.log.length + i)).1 = DEVICE_OK)
    (he1 : (p.reply (p.log.length + 2)).2 = c1 ++ "  ok".toList)
    (he2 : (p.reply (p.log.length + 5)).2 = c2 ++ "  ok".toList)
    (locals : Option (Int × Int × Int)) (q : Port)
    (htune : tune d.k_ d.threshstr_ d.trigopstr_ 1500 3500 fuel
      { p with log := p.log ++ [PortOp.purge] ++ ToggleSet_plan c1 ++ ToggleSet_plan c2 }
      = .ok (DEVICE_OK, locals, q))
    (hq : (q.reply q.log.length).1 = DEVICE_OK) :
    SetupHDG800 fuel d p = .ok (DEVICE_OK, { q with log := q.log ++ [PortOp.purge] }) := by
  rw [SetupHDG800_prelude fuel d p c1 c2 h1 h2 hcodes he1 he2, htune]
  simp only [ne_eq, not_true_eq_false, if_false, hq]

/-- The function `SetupHDG800` when the tuner uses up its fuel. -/
theorem SetupHDG800_runs_on (fuel : Nat) (d : Dev) (p : Port) (c1 c2 : Str)
    (h1 : c1 = (if d.monostable_ then '+' else '-') :: d.monostr_)
    (h2 : c2 = (if d.polarityPositive_ then '+' else '-') :: d.polstr_)
    (hcodes : ∀ i, i < 7 → (p.reply (p.log.length + i)).1 = DEVICE_OK)
    (he1 : (p.reply (p.log.length + 2)).2 = c1 ++ "  ok".toList)
    (he2 : (p.reply (p.log.length + 5)).2 = c2 ++ "  ok".toList)
    (htune : tune d.k_ d.threshstr_ d.trigopstr_ 1500 3500 fuel
      { p with log := p.log ++ [PortOp.purge] ++ ToggleSet_plan c1 ++ ToggleSet_plan c2 }
      = .timeout) :
    SetupHDG800 fuel d p = .timeout := by
  rw [SetupHDG800_prelude fuel d p c1 c2 h1 h2 hcodes he1 he2, htune]

/-- The function `SetupHDG800` against a device whose output level is `f` of the
threshold, when the difference stays above `5` for `J` turns and is at most `5` after
them. -/
theorem SetupHDG800_run (f : Int → Int) (d : Dev) (p : Port) (c : Char) (rest c1 c2 : Str)
    (h1 : c1 = (if d.monostable_ then '+' else '-') :: d.monostr_)
    (h2 : c2 = (if d.polarityPositive_ then '+' else '-') :: d.polstr_)
    (hcodes : ∀ i, i < 7 → (p.reply (p.log.length + i)).1 = DEVICE_OK)
    (he1 : (p.reply (p.log.length + 2)).2 = c1 ++ "  ok".toList)
    (he2 : (p.reply (p.log.length + 5)).2 = c2 ++ "  ok".toList)
    (hecho : d.k_.getcmdstr_ ++ d.trigopstr_ = c :: rest)
    (hc : " \t\n".toList.contains c = false)
    (hp : ∀ n, p.reply (p.log.length + 7 + n) =
      tuner_reply f (d.k_.getcmdstr_ ++ d.trigopstr_) 1500 3500 n)
    (J : Nat) (hall : ∀ i, i < J → 5 < iabs (tuner_diff f (tuner_midop f 1500 3500) 3500 i))
    (hend : iabs (tuner_diff f (tuner_midop f 1500 3500) 3500 J) ≤ 5) (n : Nat) :
    SetupHDG800 (J + 1 + n) d p =
      .ok (DEVICE_OK,
        { p with log := p.log ++ [PortOp.purge] ++ ToggleSet_plan c1 ++ ToggleSet_plan c2 ++
          level_plan d.k_ d.threshstr_ d.trigopstr_ 1500 ++
          level_plan d.k_ d.threshstr_ d.trigopstr_ 3500 ++
          tuner_log f d.k_ d.threshstr_ d.trigopstr_ (tuner_midop f 1500 3500) 3500 J ++
          [PortOp.purge] }) := by
  have hlen7 : (p.log ++ [PortOp.purge] ++ ToggleSet_plan c1 ++ ToggleSet_plan c2).length
      = p.log.length + 7 := by
    simp [ToggleSet_plan]
  have htune := tuner_run f d.k_ d.threshstr_ d.trigopstr_ 1500 3500
    { p with log := p.log ++ [PortOp.purge] ++ ToggleSet_plan c1 ++ ToggleSet_plan c2 }
    c rest hecho hc
    (by
      intro m
      show p.reply (List.length _ + m) = _
      rw [hlen7]
      exact hp m)
    J hall hend n
  have hq : (p.reply (p.log ++ [PortOp.purge] ++ ToggleSet_plan c1 ++ ToggleSet_plan c2 ++
      level_plan d.k_ d.threshstr_ d.trigopstr_ 1500 ++
      level_plan d.k_ d.threshstr_ d.trigopstr_ 3500 ++
      tuner_log f d.k_ d.threshstr_ d.trigopstr_ (tuner_midop f 1500 3500) 3500 J).length).1
      = DEVICE_OK := by
    have e : (p.log ++ [PortOp.purge] ++ ToggleSet_plan c1 ++ ToggleSet_plan c2 ++
        level_plan d.k_ d.threshstr_ d.trigopstr_ 1500 ++
        level_plan d.k_ d.threshstr_ d.trigopstr_ 3500 ++
        tuner_log f d.k_ d.threshstr_ d.trigopstr_ (tuner_midop f 1500 3500) 3500 J).length
        = p.log.length + 7 + (16 + 6 * J) := by
      rw [List.length_append, List.length_append, List.length_append, hlen7,
        level_plan_length, level_plan_length, tuner_log_length]
      omega
    rw [e, hp]
    exact tuner_reply_code _ _ _ _ _
  exact SetupHDG800_done (J + 1 + n) d p c1 c2 h1 h2 hcodes he1 he2 _ _ htune hq

/-- The function `SetupHDG800` against a device whose output level is `f` of the
threshold, when the difference stays above `5` for ever. -/
theorem SetupHDG800_never (f : Int → Int) (d : Dev) (p : Port) (c : Char) (rest c1 c2 : Str)
    (h1 : c1 = (if d.monostable_ then '+' else '-') :: d.monostr_)
    (h2 : c2 = (if d.polarityPositive_ then '+' else '-') :: d.polstr_)
    (hcodes : ∀ i, i < 7 → (p.reply (p.log.length + i)).1 = DEVICE_OK)
    (he1 : (p.reply (p.log.length + 2)).2 = c1 ++ "  ok".toList)
    (he2 : (p.reply (p.log.length + 5)).2 = c2 ++ "  ok".toList)
    (hecho : d.k_.getcmdstr_ ++ d.trigopstr_ = c :: rest)
    (hc : " \t\n".toList.contains c = false)
    (hp : ∀ n, p.reply (p.log.length + 7 + n) =
      tuner_reply f (d.k_.getcmdstr_ ++ d.trigopstr_) 1500 3500 n)
    (hall : ∀ i, 5 < iabs (tuner_diff f (tuner_midop f 1500 3500) 3500 i)) (fuel : Nat) :
    SetupHDG800 fuel d p = .timeout := by
  have hlen7 : (p.log ++ [PortOp.purge] ++ ToggleSet_plan c1 ++ ToggleSet_plan c2).length
      = p.log.length + 7 := by
    simp [ToggleSet_plan]
  have htune := tuner_runs_on f d.k_ d.threshstr_ d.trigopstr_ 1500 3500
    { p with log := p.log ++ [PortOp.purge] ++ ToggleSet_plan c1 ++ ToggleSet_plan c2 }
    c rest hecho hc
    (by
      intro m
      show p.reply (List.length _ + m) = _
      rw [hlen7]
      exact hp m)
    hall fuel
  exact SetupHDG800_runs_on fuel d p c1 c2 h1 h2 hcodes he1 he2 htune

/-- The operations of the tuner on the port of `SetupHDG800` are those of the
device. -/
theorem HDG800_port_tuner (f : Int → Int) (n : Nat) :
    (HDG800_port f).reply ((HDG800_port f).log.length + 7 + n) =
      tuner_reply f ((KHDG800_initial []).k_.getcmdstr_ ++ (KHDG800_initial []).trigopstr_)
        1500 3500 n := by
  have h1 : ¬ (0 + 7 + n = 2) := by omega
  have h2 : ¬ (0 + 7 + n = 5) := by omega
  have h3 : ¬ (0 + 7 + n < 7) := by omega
  have h4 : 0 + 7 + n - 7 = n := by omega
  show (if 0 + 7 + n = 2 then _ else if 0 + 7 + n = 5 then _ else if 0 + 7 + n < 7 then _
    else tuner_reply f ".oplevel".toList 1500 3500 (0 + 7 + n - 7)) = _
  rw [if_neg h1, if_neg h2, if_neg h3, h4]
  rfl

/-- The first seven operations succeed on the port of `SetupHDG800`. -/
theorem HDG800_port_codes (f : Int → Int) (i : Nat) (hi : i < 7) :
    ((HDG800_port f).reply ((HDG800_port f).log.length + i)).1 = DEVICE_OK := by
  interval_cases i <;> rfl

/-! ## Lemmas on two synthetic devices -/

/-- A value in the range of `long` is its own conversion. -/
theorem to_long_eq (x : Int) (h1 : -9223372036854775808 ≤ x) (h2 : x ≤ 9223372036854775807) :
    to_long x = x := by
  unfold to_long
  omega

/-- An output level in the range of `int` is held as it is. -/
theorem tuner_op_eq (f : Int → Int) (t : Int) (h1 : -2147483648 ≤ f t)
    (h2 : f t ≤ 2147483647) : tuner_op f t = f t := by
  unfold tuner_op
  rw [clamp_long_eq _ (by unfold LONG_MIN; omega) (by unfold LONG_MAX; omega)]
  exact to_int_eq _ h1 h2

theorem identity_midop : tuner_midop identity_output 1500 3500 = 2500 := by
  have h : to_long (Int.tdiv (to_long (clamp_long (identity_output 3500) -
      clamp_long (identity_output 1500))) 2 + clamp_long (identity_output 1500)) = 2500 := by
    decide
  unfold tuner_midop
  rw [h]
  exact to_float_exact 2500 (by decide)

/-- The thresholds of the tuner against the device whose output level equals the
threshold: `50` down per turn from `3500` to `2550`, then `1` down per turn. -/
theorem identity_thr :
    ∀ j, j ≤ 64 → tuner_thr identity_output 2500 3500 j =
      if j ≤ 19 then 3500 - 50 * (j : Int) else 2569 - (j : Int) := by
  intro j
  induction j with
  | zero => intro _; rfl
  | succ j ih =>
    intro hj
    have hprev := ih (by omega)
    have hrange : 2505 < tuner_thr identity_output 2500 3500 j ∧
        tuner_thr identity_output 2500 3500 j ≤ 3500 := by
      rw [hprev]; split_ifs <;> omega
    have hop : tuner_op identity_output (tuner_thr identity_output 2500 3500 j)
        = tuner_thr identity_output 2500 3500 j :=
      tuner_op_eq identity_output _
        (by show -2147483648 ≤ tuner_thr identity_output 2500 3500 j; omega)
        (by show tuner_thr identity_output 2500 3500 j ≤ 2147483647; omega)
    have hfl : to_float (tuner_thr identity_output 2500 3500 j)
        = tuner_thr identity_output 2500 3500 j := to_float_exact _ (by omega)
    have hsub : float_sub (tuner_thr identity_output 2500 3500 j) 2500
        = tuner_thr identity_output 2500 3500 j - 2500 := float_sub_exact _ _ (by omega)
    rw [tuner_thr_succ]
    unfold tuner_diff
    rw [hop, hfl, hsub, hprev]
    unfold tune_step to_int
    push_cast
    split_ifs <;> omega

theorem identity_diff (j : Nat) (hj : j ≤ 64) :
    tuner_diff identity_output 2500 3500 j = tuner_thr identity_output 2500 3500 j - 2500 := by
  have h := identity_thr j hj
  have hrange : 2505 ≤ tuner_thr identity_output 2500 3500 j ∧
      tuner_thr identity_output 2500 3500 j ≤ 3500 := by
    rw [h]; split_ifs <;> omega
  have hop : tuner_op identity_output (tuner_thr identity_output 2500 3500 j)
      = tuner_thr identity_output 2500 3500 j :=
    tuner_op_eq identity_output _
      (by show -2147483648 ≤ tuner_thr identity_output 2500 3500 j; omega)
      (by show tuner_thr identity_output 2500 3500 j ≤ 2147483647; omega)
  unfold tuner_diff
  rw [hop, to_float_exact _ (by omega), float_sub_exact _ _ (by omega)]

/-- The output level held for the device whose level equals the threshold, at a
threshold of a turn. -/
theorem identity_op (j : Nat) (hj : j ≤ 64) :
    tuner_op identity_output (tuner_thr identity_output 2500 3500 j)
      = tuner_thr identity_output 2500 3500 j := by
  have h := identity_thr j hj
  have hrange : 2505 ≤ tuner_thr identity_output 2500 3500 j ∧
      tuner_thr identity_output 2500 3500 j ≤ 3500 := by
    rw [h]; split_ifs <;> omega
  exact tuner_op_eq identity_output _
    (by show -2147483648 ≤ tuner_thr identity_output 2500 3500 j; omega)
    (by show tuner_thr identity_output 2500 3500 j ≤ 2147483647; omega)

theorem step_midop : tuner_midop step_output 1500 3500 = 20 := by
  have h : to_long (Int.tdiv (to_long (clamp_long (step_output 3500) -
      clamp_long (step_output 1500))) 2 + clamp_long (step_output 1500)) = 20 := by
    decide
  unfold tuner_midop
  rw [h]
  exact to_float_exact 20 (by decide)

/-- The output level of the step device is held as it is. -/
theorem step_op (t : Int) : tuner_op step_output t = step_output t := by
  apply tuner_op_eq <;> unfold step_output <;> split_ifs <;> omega

/-- The difference against the step device is `20` or `-20` at every threshold. -/
theorem step_diff (t : Int) :
    float_sub (to_float (tuner_op step_output t)) 20 = if t < 3500 then -20 else 20 := by
  rw [step_op]
  unfold step_output
  split_ifs
  · rw [to_float_exact 0 (by decide)]; exact float_sub_exact _ _ (by decide)
  · rw [to_float_exact 40 (by decide)]; exact float_sub_exact _ _ (by decide)

/-- Against the step device the threshold alternates between `3500` and `3499`. -/
theorem step_thr (j : Nat) :
    tuner_thr step_output 20 3500 (2 * j) = 3500 ∧
      tuner_thr step_output 20 3500 (2 * j + 1) = 3499 := by
  induction j with
  | zero =>
    refine ⟨rfl, ?_⟩
    simp only [tuner_thr, step_diff]
    decide
  | succ j ih =>
    have h1 : tuner_thr step_output 20 3500 (2 * (j + 1)) = 3500 := by
      have e : 2 * (j + 1) = (2 * j + 1) + 1 := by ring
      rw [e]
      simp only [tuner_thr, step_diff]
      simp only [tuner_thr, step_diff] at ih
      rw [ih.2]
      decide
    refine ⟨h1, ?_⟩
    simp only [tuner_thr, step_diff]
    simp only [tuner_thr, step_diff] at h1
    rw [h1]
    decide

theorem step_diff_abs (i : Nat) : iabs (tuner_diff step_output 20 3500 i) = 20 := by
  unfold tuner_diff
  rw [step_diff]
  split_ifs <;> decide

/-- The truncating half of a `long` lies between `0` and the number. -/
theorem tdiv_two_bounds (x : Int) :
    (0 ≤ x → 0 ≤ Int.tdiv x 2 ∧ Int.tdiv x 2 ≤ x) ∧
      (x ≤ 0 → x ≤ Int.tdiv x 2 ∧ Int.tdiv x 2 ≤ 0) := by
  refine ⟨?_, ?_⟩
  · intro h
    rw [Int.tdiv_eq_ediv h (by decide)]
    omega
  · intro h
    have e : Int.tdiv x 2 = -(Int.tdiv (-x) 2) := by
      rw [Int.neg_tdiv, Int.neg_neg]
    rw [e, Int.tdiv_eq_ediv (by omega) (by decide)]
    omega

/-- The target between two output levels of magnitude below `2^23` is computed
exactly. -/
theorem midop_exact (opLow opHigh : Int) (hl : opLow.natAbs < 8388608)
    (hh : opHigh.natAbs < 8388608) :
    to_float (to_long (Int.tdiv (to_long (opHigh - opLow)) 2 + opLow))
        = opLow + Int.tdiv (opHigh - opLow) 2 ∧
      (opLow + Int.tdiv (opHigh - opLow) 2).natAbs < 8388608 := by
  have hb := tdiv_two_bounds (opHigh - opLow)
  have hr : (opLow + Int.tdiv (opHigh - opLow) 2).natAbs < 8388608 := by
    rcases Int.le_total 0 (opHigh - opLow) with h | h
    · have := hb.1 h; omega
    · have := hb.2 h; omega
  refine ⟨?_, hr⟩
  rw [to_long_eq (opHigh - opLow) (by omega) (by omega),
    to_long_eq _ (by omega) (by omega), Int.add_comm, to_float_exact _ (by omega)]

/-- The difference between an output level and a target, both of magnitude below
`2^23`, is computed exactly. -/
theorem diff_exact (op midop : Int) (ho : op.natAbs < 8388608) (hm : midop.natAbs < 8388608) :
    float_sub (to_float op) midop = op - midop := by
  rw [to_float_exact op (by omega), float_sub_exact _ _ (by omega)]

/-- The adjustment of a turn, by the cases of the difference. -/
theorem tune_step_cases (d : Int) (h : 5 < iabs d) :
    (if 50 < d then (-50 : Int) else if d < -50 then 50 else if 5 < d then -1 else 1)
      = tune_step d := by
  unfold iabs at h
  unfold tune_step
  split_ifs at h ⊢ <;> omega

/-- The port left by a set transaction that returned `DEVICE_OK`. -/
theorem NumericSet_ok_port (k : KUtils) (cmd : Str) (val : Int) (p : Port)
    (h : (NumericSet k cmd val p).1 = DEVICE_OK) :
    (NumericSet k cmd val p).2 = { p with log := p.log ++ NumericSet_plan k cmd val } := by
  rw [NumericSet_cases] at h ⊢
  split_ifs at h ⊢ with h0 h1
  · exact absurd h h0
  · exact absurd h h1
  · rfl

/-! ## Claims -/

/-- C1 (counterexample): the value `4294967301`, which a `long` holds and an `int`
does not, looked up in the table of the measured values `0, 5, 2000000000`.  The
vector `lookup_val` holds the value converted to `int`, which is `5`, so the lookup
leaves `5` in `v` and returns its code `150`, although `2000000000` is strictly
closer to `4294967301`. -/
theorem doCalibration_narrowed_counterexample :
    doCalibration true 4294967301 [0, 5, 2000000000] [100, 150, 300] = some (5, 150) ∧
      to_int 4294967301 = 5 ∧
      iabs (2000000000 - 4294967301) < iabs (5 - 4294967301) := by
  decide

/-- C1 (amended): on a non-empty calibration table given as two vectors of equal
length, for a value `v` in the range of `int` whose distance from every measured
value is below `2^31`, so that the arithmetic on `int` is exact:
`doCalibration(true, v, measured, settings)` completes, leaves `measured[i]` in `v`
and returns `settings[i]`, where `i` is the smallest index minimising
`|measured[i] - v|`: no entry is strictly closer to `v`, and every earlier entry is
strictly farther. -/
theorem doCalibration_nearest_first (v : Int) (measured settings : Vec)
    (hne : measured ≠ []) (hlen : measured.length = settings.length)
    (hv : -2147483648 ≤ v ∧ v ≤ 2147483647)
    (hd : ∀ m ∈ measured, (m - v).natAbs ≤ 2147483647) :
    ∃ i, ∃ (hi : i < measured.length) (hs : i < settings.length),
      doCalibration true v measured settings = some (measured[i], settings[i]) ∧
      (∀ j (hj : j < measured.length),
        iabs (measured[i] - v) ≤ iabs (measured[j] - v)) ∧
      (∀ j (hj : j < measured.length), j < i →
        iabs (measured[i] - v) < iabs (measured[j] - v)) := by
  have hmap := answer_exact v measured hv hd
  have hane : measured.map (fun a => iabs (a - v)) ≠ [] := by
    simpa using hne
  obtain ⟨i, hi0, hidx, hmin, hfirst⟩ := min_element_spec _ hane
  have hi : i < measured.length := by simpa using hi0
  refine ⟨i, hi, hlen ▸ hi, ?_, ?_, ?_⟩
  · simp only [doCalibration, if_true]
    rw [hmap, hidx, List.getElem?_eq_getElem hi, List.getElem?_eq_getElem (hlen ▸ hi)]
  · intro j hj
    have := hmin j (by simpa using hj)
    simpa only [List.getElem_map] using this
  · intro j hj hlt
    have := hfirst j (by simpa using hj) hlt
    simpa only [List.getElem_map] using this

/-- Witness of C1 on the table of the calibration-file scenario, at `v = 700`. -/
theorem doCalibration_nearest_first_witness :
    ∃ i, ∃ (_ : i < [(0 : Int), 500, 1200].length)
      (hs : i < [(100 : Int), 150, 300].length),
      doCalibration true 700 [0, 500, 1200] [100, 150, 300]
        = some ([(0 : Int), 500, 1200][i], [(100 : Int), 150, 300][i]) ∧
      (∀ j (hj : j < [(0 : Int), 500, 1200].length),
        iabs ([(0 : Int), 500, 1200][i] - 700) ≤ iabs ([(0 : Int), 500, 1200][j] - 700)) ∧
      (∀ j (hj : j < [(0 : Int), 500, 1200].length), j < i →
        iabs ([(0 : Int), 500, 1200][i] - 700) < iabs ([(0 : Int), 500, 1200][j] - 700)) :=
  doCalibration_nearest_first 700 [0, 500, 1200] [100, 150, 300] (by decide) (by decide)
    (by decide) (by decide)

/-- C2 (counterexample): the value `2147483647`, uncalibrated.  The multiple of 25
nearest to it is `2147483650`, which the `long` parameter keeps and an `int` does not
hold: the function returns `-2147483646`, so that the raw code and the physical value
differ. -/
theorem doCalibration_uncalibrated_counterexample :
    doCalibration false 2147483647 [] [] = some (2147483650, -2147483646) ∧
      25 * Int.floor ((2147483647 : ℚ) / 25 + 1 / 2) = 2147483650 := by
  have h := round25_eq 2147483647
  have h2 : (25 : Int) * ((2 * 2147483647 + 25) / 50) = 2147483650 := by decide
  rw [h2] at h
  refine ⟨?_, h⟩
  simp only [doCalibration, Bool.false_eq_true, if_false, h]
  decide

/-- C2 (amended): for a value `v` of magnitude at most `2147483637`, for which the
nearest multiple of 25 is in the range of `int`: `doCalibration(false, v, _, _)`
ignores the tables, leaves in `v` the value `r = 25 * floor(v/25 + 1/2)`, which is a
multiple of 25 at distance at most 12 from `v`, and returns that same `r`. -/
theorem doCalibration_uncalibrated (v : Int) (in_type_vector out_type_vector : Vec)
    (hv : v.natAbs ≤ 2147483637) :
    doCalibration false v in_type_vector out_type_vector
        = some (25 * Int.floor ((v : ℚ) / 25 + 1 / 2), 25 * Int.floor ((v : ℚ) / 25 + 1 / 2)) ∧
      (25 : Int) ∣ 25 * Int.floor ((v : ℚ) / 25 + 1 / 2) ∧
      iabs (25 * Int.floor ((v : ℚ) / 25 + 1 / 2) - v) ≤ 12 := by
  have h := round25_eq v
  have hr : to_int (round25 v) = round25 v := by
    rw [h]
    apply to_int_eq <;> omega
  unfold round25 at h hr
  refine ⟨?_, Dvd.intro _ rfl, ?_⟩
  · simp only [doCalibration, Bool.false_eq_true, if_false, round25, hr]
  · rw [h]
    unfold iabs
    split <;> omega

/-- Witness of C2 at `v = 1010`. -/
theorem doCalibration_uncalibrated_witness :
    doCalibration false 1010 [] []
        = some (25 * Int.floor ((1010 : ℚ) / 25 + 1 / 2),
            25 * Int.floor ((1010 : ℚ) / 25 + 1 / 2)) ∧
      (25 : Int) ∣ 25 * Int.floor ((1010 : ℚ) / 25 + 1 / 2) ∧
      iabs (25 * Int.floor ((1010 : ℚ) / 25 + 1 / 2) - 1010) ≤ 12 :=
  doCalibration_uncalibrated 1010 [] [] (by decide)

/-- C3 (counterexample): the uncalibrated fallback at `2147483647` returns
`-2147483646`, and applied to that result it returns `2147483646`: the result of the
first call is not a fixed point. -/
theorem doCalibration_fallback_counterexample :
    (doCalibration false 2147483647 [] []).map Prod.snd = some (-2147483646) ∧
      (doCalibration false (-2147483646) [] []).map Prod.snd = some 2147483646 := by
  have h1 := round25_eq 2147483647
  have e1 : (25 : Int) * ((2 * 2147483647 + 25) / 50) = 2147483650 := by decide
  have h2 := round25_eq (-2147483646)
  have e2 : (25 : Int) * ((2 * (-2147483646) + 25) / 50) = -2147483650 := by decide
  rw [e1] at h1
  rw [e2] at h2
  refine ⟨?_, ?_⟩
  · simp only [doCalibration, Bool.false_eq_true, if_false, h1, Option.map_some']
    decide
  · simp only [doCalibration, Bool.false_eq_true, if_false, h2, Option.map_some']
    decide

/-- C3 (amended): for a value `v` of magnitude at most `2147483637` the uncalibrated
fallback is idempotent: feeding the value produced by `doCalibration(false, v, ...)`
back into `doCalibration(false, ...)` produces the same value and the same raw
code. -/
theorem doCalibration_uncalibrated_idempotent (v : Int) (a b c d : Vec)
    (hv : v.natAbs ≤ 2147483637) :
    ∃ r, doCalibration false v a b = some (r, r) ∧
      doCalibration false r c d = some (r, r) := by
  have h1 := round25_eq v
  have h2 := round25_eq (round25 v)
  have hr : to_int (round25 v) = round25 v := by
    rw [h1]
    apply to_int_eq <;> omega
  have hrr : round25 (round25 v) = round25 v := by
    rw [h2, h1]; omega
  refine ⟨round25 v, ?_, ?_⟩
  · simp only [doCalibration, Bool.false_eq_true, if_false, hr]
  · simp only [doCalibration, Bool.false_eq_true, if_false, hrr, hr]

/-- Witness of C3 at `v = 1010`, for which the value is `1000`. -/
theorem doCalibration_uncalibrated_idempotent_witness :
    ∃ r, doCalibration false 1010 [] [] = some (r, r) ∧
      doCalibration false r [] [] = some (r, r) :=
  doCalibration_uncalibrated_idempotent 1010 [] [] [] [] (by decide)

/-- The set transaction of `OnDelay` returns the code of the first port operation
that fails, and `DEVICE_OK` when the send and the receive both succeed. -/
theorem delaySet_ret (b : Box) (d : Dev) (v : Int) (p : Port) :
    (delaySet b d v p).1 =
      if (p.reply p.log.length).1 ≠ DEVICE_OK then (p.reply p.log.length).1
      else if (p.reply (p.log.length + 1)).1 ≠ DEVICE_OK then
        (p.reply (p.log.length + 1)).1
      else DEVICE_OK := by
  cases b <;>
    simp only [delaySet, NumericSet, SDBNumericSet, SendSerialCommand, GetSerialAnswer,
      List.length_append, List.length_singleton] <;>
    split <;> simp_all <;> split <;> simp_all

/-- C4: `OnDelay` with `MM::AfterSet`, in `KHDG`, `KHDG800`, `KSE` and `KSDB`, when
the calibration lookup of the requested value `v` yields the achievable value `delay`
and the code `setting`: the handler returns the code of the serial set transaction,
that is the code of the first port operation that fails; when this code is not
`DEVICE_OK` the device object, and so the cached `delay_`, is as before the call;
when it is `DEVICE_OK`, `delay_` has become `delay` and nothing else has changed. -/
theorem OnDelay_atomic (b : Box) (d : Dev) (p : Port) (v delay setting : Int)
    (hcal : doCalibration d.calibrated_ v d.real_delays d.delay_settings
      = some (delay, setting)) :
    ∃ h, OnDelay b .AfterSet v d p = .ok h ∧
      h.ret = (delaySet b d setting p).1 ∧
      h.ret = (if (p.reply p.log.length).1 ≠ DEVICE_OK then (p.reply p.log.length).1
        else if (p.reply (p.log.length + 1)).1 ≠ DEVICE_OK then
          (p.reply (p.log.length + 1)).1
        else DEVICE_OK) ∧
      (h.ret ≠ DEVICE_OK → h.dev = d) ∧
      (h.ret = DEVICE_OK → h.dev = { d with delay_ := delay }) := by
  have hr := delaySet_ret b d setting p
  simp only [OnDelay, hcal]
  by_cases hok : (delaySet b d setting p).1 = DEVICE_OK
  · refine ⟨_, by simp only [reduceCtorEq, if_false, if_true, hok]; rfl, ?_, ?_, ?_, ?_⟩
    · exact hok.symm
    · rw [← hr]; exact hok.symm
    · intro h; exact absurd rfl h
    · intro _; rfl
  · refine ⟨_, by simp only [reduceCtorEq, if_false, if_true, hok]; rfl, ?_, ?_, ?_, ?_⟩
    · rfl
    · exact hr
    · intro _; rfl
    · intro h; exact absurd h hok

/-- Witness of C4: an uncalibrated `KHDG800` caching the delay `0` is asked for
`1010` ps on such a port. -/
theorem OnDelay_atomic_witness :
    ∃ h, OnDelay .HDG800 .AfterSet 1010 (KHDG800_initial []) port_failing = .ok h ∧
      h.ret = (delaySet .HDG800 (KHDG800_initial []) 1000 port_failing).1 ∧
      h.ret = (if (port_failing.reply port_failing.log.length).1 ≠ DEVICE_OK then
          (port_failing.reply port_failing.log.length).1
        else if (port_failing.reply (port_failing.log.length + 1)).1 ≠ DEVICE_OK then
          (port_failing.reply (port_failing.log.length + 1)).1
        else DEVICE_OK) ∧
      (h.ret ≠ DEVICE_OK → h.dev = KHDG800_initial []) ∧
      (h.ret = DEVICE_OK → h.dev = { KHDG800_initial [] with delay_ := 1000 }) :=
  OnDelay_atomic .HDG800 (KHDG800_initial []) port_failing 1010 1000 1000
    (by simp [doCalibration, KHDG800_initial, round25_eq, to_int])

/-- C6 (evaluation at the failing input): a data block that runs to the end of the
input, `0,100` then `500,150`.  When the last row ends with a newline both rows are
appended; when it does not, `getline` sets `eofbit` while reading it, the loop
condition `!file.eof()` fails and the row `500,150` is not appended. -/
theorem fill_vectors_unterminated_last_row :
    fill_vectors [] [] (IfStream.opened ["0,100".toList, "500,150".toList] true) =
        .ok (2, [100, 150], [0, 500],
          ⟨["0,100".toList, "500,150".toList], true, 2, true, true⟩) ∧
      fill_vectors [] [] (IfStream.opened ["0,100".toList, "500,150".toList] false) =
        .ok (1, [100], [0],
          ⟨["0,100".toList, "500,150".toList], false, 2, true, false⟩) := by
  decide

/-- C7 (counterexample): loading the file of the scenario into the vectors left by a
first load of the same file does not leave the table of the first load: every row
is there twice. -/
theorem PopulateCalibrationVectors_reload_counterexample :
    PopulateCalibrationVectors 7 scenario_fs [] [] [] =
        .ok (DEVICE_OK, [100, 150, 300], [0, 500, 1200]) ∧
      PopulateCalibrationVectors 7 scenario_fs [] [100, 150, 300] [0, 500, 1200] =
        .ok (DEVICE_OK, [100, 150, 300, 100, 150, 300], [0, 500, 1200, 0, 500, 1200]) ∧
      PopulateCalibrationVectors 7 scenario_fs [] [100, 150, 300] [0, 500, 1200] ≠
        PopulateCalibrationVectors 7 scenario_fs [] [] [] := by
  decide

/-- C7 (amended): a calibration load appends to the prior contents of the vectors.
When loading a file into empty vectors returns the code `ret` with the vectors `xs`
and `ys`, loading it into vectors holding `ds` and `rd` returns the same code with
`ds ++ xs` and `rd ++ ys`; and the rows come in pairs, `xs` and `ys` having the same
length. -/
theorem PopulateCalibrationVectors_appends (fuel : Nat) (fs : FileSystem) (path : Str)
    (ret : Int) (xs ys : Vec)
    (hload : PopulateCalibrationVectors fuel fs path [] [] = .ok (ret, xs, ys))
    (ds rd : Vec) :
    PopulateCalibrationVectors fuel fs path ds rd = .ok (ret, ds ++ xs, rd ++ ys) ∧
      xs.length = ys.length := by
  refine ⟨?_, PopulateCalibrationVectors_pairs fuel fs path ret xs ys hload⟩
  rw [PopulateCalibrationVectors_shift, hload]; rfl

/-- Witness of C7 (amended): the file of the scenario loaded over a table that holds
one row. -/
theorem PopulateCalibrationVectors_appends_witness :
    PopulateCalibrationVectors 7 scenario_fs [] [7] [9] =
        .ok (DEVICE_OK, [7] ++ [100, 150, 300], [9] ++ [0, 500, 1200]) ∧
      [(100 : Int), 150, 300].length = [(0 : Int), 500, 1200].length :=
  PopulateCalibrationVectors_appends 7 scenario_fs [] DEVICE_OK [100, 150, 300]
    [0, 500, 1200] (by decide) [7] [9]

/-- C9 (counterexample): a `KHDG` loads a calibration file whose delay block is the
single row `0,100`.  The load returns `DEVICE_OK`, the handler then asks for the
property limits `0 .. 0`, the property table refuses them, and the handler returns
the code at once: the value was `Yes`, the load returned `DEVICE_OK`, and
`calibrated_` is `false`. -/
theorem OnCalibrate_flag_counterexample :
    PopulateCalibrationVectors 4 (fun _ => some zero_file) [] [] [] =
        .ok (DEVICE_OK, [100], [0]) ∧
      ∃ h, OnCalibrate .HDG (env_limits (fun _ => some zero_file)) 4 .AfterSet "Yes".toList
          (KHDG_initial []) port_ok = .ok h ∧
        h.dev.calibrated_ = false ∧ h.ret = 24 :=
  ⟨by decide, _, rfl, rfl, rfl⟩

/-- C9 (amended): when the calibration file cannot be opened,
`PopulateCalibrationVectors` returns `ERR_OPENFILE_FAILED` with the vectors as they
were, and `OnCalibrate` asked for `Yes` returns with `calibrated_ = false` and the
vectors as they were, so that any following delay set sends (converted to `int`), and
on success caches, the requested value rounded to a multiple of 25.  More generally, when `OnCalibrate`
of `KHDG`, `KHDG800` or `KSDB` returns from `MM::AfterSet`: `calibrated_` is `false`
unless the value was `Yes` and the load returned `DEVICE_OK`; in that case the
measured vector has a maximum, `calibrated_` is `true` when `SetPropertyLimits`
accepted that maximum, and when it did not `calibrated_` has its previous value and
the handler returns the code of `SetPropertyLimits`. -/
theorem OnCalibrate_load_flag (b : Box) (env : Env) (fuel : Nat) (d : Dev) (p : Port) :
    (env.fs (c_str d.calibPath_) = none →
      PopulateCalibrationVectors fuel env.fs d.calibPath_ d.delay_settings d.real_delays =
          .ok (ERR_OPENFILE_FAILED, d.delay_settings, d.real_delays) ∧
        ∃ h, OnCalibrate b env fuel .AfterSet "Yes".toList d p = .ok h ∧
          h.dev.calibrated_ = false ∧ h.dev.delay_settings = d.delay_settings ∧
          h.dev.real_delays = d.real_delays ∧
          ∀ (v : Int) (p1 : Port), ∃ h1, OnDelay b .AfterSet v h.dev p1 = .ok h1 ∧
            h1.ret =
              (delaySet b h.dev (to_int (25 * Int.floor ((v : ℚ) / 25 + 1 / 2))) p1).1 ∧
            (h1.ret = DEVICE_OK → h1.dev.delay_ = 25 * Int.floor ((v : ℚ) / 25 + 1 / 2))) ∧
    (b ≠ .SE → ∀ (prop : Str) (h : Handled Str),
      OnCalibrate b env fuel .AfterSet prop d p = .ok h →
      ∃ ret ds rd,
        (if prop = "Yes".toList then
            PopulateCalibrationVectors fuel env.fs d.calibPath_ d.delay_settings d.real_delays
          else .ok (ERR_CALIBRATION_FAILED, d.delay_settings, d.real_delays))
          = .ok (ret, ds, rd) ∧
        (¬ (prop = "Yes".toList ∧ ret = DEVICE_OK) → h.dev.calibrated_ = false) ∧
        ((prop = "Yes".toList ∧ ret = DEVICE_OK) →
          ∃ max, max_element_value rd = some max ∧
            (env.SetPropertyLimits "Delay (ps)".toList 0 max = DEVICE_OK →
              h.dev.calibrated_ = true) ∧
            (env.SetPropertyLimits "Delay (ps)".toList 0 max ≠ DEVICE_OK →
              h.dev.calibrated_ = d.calibrated_ ∧
              h.ret = env.SetPropertyLimits "Delay (ps)".toList 0 max))) := by
  refine ⟨?_, ?_⟩
  · intro hopen
    refine ⟨by simp [PopulateCalibrationVectors, hopen], ?_⟩
    obtain ⟨h, hrun, hc, hs, hr, _⟩ := OnCalibrate_unopened b env fuel d p hopen
    refine ⟨h, hrun, hc, hs, hr, ?_⟩
    intro v p1
    obtain ⟨h1, hrun1, hret1, hd1, _⟩ := OnDelay_uncalibrated b v h.dev p1 hc
    exact ⟨h1, hrun1, hret1, hd1⟩
  · intro hb prop h hrun
    have hrun2 : HDG_OnCalibrate b env fuel .AfterSet prop d p = .ok h := by
      cases b
      · exact hrun
      · exact hrun
      · exact hrun
      · exact absurd rfl hb
    obtain ⟨ret, ds, rd, hl, _, _, hno, hyes⟩ :=
      HDG_OnCalibrate_AfterSet b env fuel prop d p h (Or.inl hrun2)
    exact ⟨ret, ds, rd, hl, hno, hyes⟩

/-- Witness of C9 (amended): a `KHDG` whose calibration file cannot be opened, and a
`KHDG800` that loads the file of the scenario. -/
theorem OnCalibrate_load_flag_witness :
    (PopulateCalibrationVectors 7 no_fs [] [] [] = .ok (ERR_OPENFILE_FAILED, [], []) ∧
      ∃ h, OnCalibrate .HDG (env_ok no_fs) 7 .AfterSet "Yes".toList (KHDG_initial []) port_ok
          = .ok h ∧
        h.dev.calibrated_ = false ∧ h.dev.delay_settings = [] ∧ h.dev.real_delays = [] ∧
        ∀ (v : Int) (p1 : Port), ∃ h1, OnDelay .HDG .AfterSet v h.dev p1 = .ok h1 ∧
          h1.ret =
            (delaySet .HDG h.dev (to_int (25 * Int.floor ((v : ℚ) / 25 + 1 / 2))) p1).1 ∧
          (h1.ret = DEVICE_OK → h1.dev.delay_ = 25 * Int.floor ((v : ℚ) / 25 + 1 / 2))) ∧
    ∃ max, max_element_value [0, 500, 1200] = some max ∧
      ((env_ok scenario_fs).SetPropertyLimits "Delay (ps)".toList 0 max = DEVICE_OK →
        scenario_calibrated.calibrated_ = true) :=
  ⟨(OnCalibrate_load_flag .HDG (env_ok no_fs) 7 (KHDG_initial []) port_ok).1 rfl,
    by
      obtain ⟨ret, ds, rd, hl, _, hyes⟩ :=
        (OnCalibrate_load_flag .HDG800 (env_ok scenario_fs) 7 (KHDG800_initial []) port_ok).2
          (by decide) "Yes".toList
          { ret := DEVICE_OK, dev := scenario_calibrated,
            port := (delaySet .HDG800 scenario_calibrated 100 port_ok).2,
            prop := "Yes".toList } rfl
      have hl2 : Outcome.ok (DEVICE_OK, [(100 : Int), 150, 300], [(0 : Int), 500, 1200])
          = Outcome.ok (ret, ds, rd) := hl
      simp only [Outcome.ok.injEq, Prod.mk.injEq] at hl2
      obtain ⟨h1, _, h3⟩ := hl2
      obtain ⟨max, hm, hok, _⟩ := hyes ⟨rfl, h1.symm⟩
      rw [← h3] at hm
      exact ⟨max, hm, fun _ => rfl⟩⟩

/-- C10 (evaluation at the failing input): `OnCalibrate` asked for `Yes` on a box
whose calibration file cannot be opened, when the property table validates the
cached delay and the send and the receive of the delay set that follows succeed,
returns `DEVICE_OK`, in `KHDG`, `KHDG800`, `KSDB` and `KSE`. -/
theorem OnCalibrate_unopened_returns_ok (b : Box) (env : Env) (fuel : Nat) (d : Dev)
    (p : Port) (hopen : env.fs (c_str d.calibPath_) = none)
    (hval : env.SetProperty_validate "Delay (ps)".toList (lexical_cast d.delay_)
      = DEVICE_OK)
    (hsend : (p.reply p.log.length).1 = DEVICE_OK)
    (hrecv : (p.reply (p.log.length + 1)).1 = DEVICE_OK) :
    ∃ h, OnCalibrate b env fuel .AfterSet "Yes".toList d p = .ok h ∧ h.ret = DEVICE_OK := by
  obtain ⟨h, hrun, _, _, _, hret⟩ := OnCalibrate_unopened b env fuel d p hopen
  refine ⟨h, hrun, ?_⟩
  rcases hret with ⟨_, hr⟩ | ⟨_, hr⟩
  · exact hr
  · rw [hr, if_neg (not_not.mpr hval), delaySet_ret, if_neg (not_not.mpr hsend),
      if_neg (not_not.mpr hrecv)]

/-- Witness of C10: a `KHDG800` in a file system where no file can be opened. -/
theorem OnCalibrate_unopened_returns_ok_witness :
    ∃ h, OnCalibrate .HDG800 (env_ok no_fs) 7 .AfterSet "Yes".toList (KHDG800_initial [])
        port_ok = .ok h ∧ h.ret = DEVICE_OK :=
  OnCalibrate_unopened_returns_ok .HDG800 (env_ok no_fs) 7 (KHDG800_initial []) port_ok
    rfl rfl rfl rfl

/-- C11 (counterexample): the device answers the token `DEL` with the twenty digits
`99999999999999999999`, a number that a `long` does not hold, and then with ` ok`.
`KUtils::NumericGet` returns `DEVICE_OK` and the value written to `val` is `LONG_MAX`,
not the number sent. -/
theorem NumericGet_clamped_counterexample :
    NumericGet k_plain "DEL".toList
        (port_script [(0, ""), (0, ""), (0, "DEL99999999999999999999"), (0, " ok")]) =
      .ok (DEVICE_OK, some 9223372036854775807,
        { port_script [(0, ""), (0, ""), (0, "DEL99999999999999999999"), (0, " ok")] with
          log := NumericGet_plan k_plain "DEL".toList }) ∧
      lexical_cast 99999999999999999999 = "99999999999999999999".toList ∧
      LONG_MAX = 9223372036854775807 :=
  ⟨rfl, by decide, rfl⟩

/-- C11 (amended): when the purge, the send and the two receives succeed, the first
answer is the get operator, the command token and the decimal digits of a natural
number `n` that a `long` holds (`n <= LONG_MAX`), between any spaces, tabs and
newlines, and the second answer (of a length that fits `size_t`) ends with ` ok`: the
first answer trimmed is the operator, the token and the digits, and
`KUtils::NumericGet` returns `DEVICE_OK` and writes `n` to `val`, after exactly the
four port operations of its plan. -/
theorem NumericGet_reads_value (k : KUtils) (cmd : Str) (n : Nat) (p : Port)
    (lead trail pre : Str) (c : Char) (rest : Str)
    (hpurge : (p.reply p.log.length).1 = DEVICE_OK)
    (hsend : (p.reply (p.log.length + 1)).1 = DEVICE_OK)
    (hrecv1 : p.reply (p.log.length + 2) =
      (DEVICE_OK, lead ++ (k.getcmdstr_ ++ cmd ++ lexical_cast n) ++ trail))
    (hlead : ∀ x ∈ lead, " \t\n".toList.contains x = true)
    (htrail : ∀ x ∈ trail, " \t\n".toList.contains x = true)
    (hfirst : k.getcmdstr_ ++ cmd ++ lexical_cast n = c :: rest)
    (hc : " \t\n".toList.contains c = false)
    (hn : (n : Int) ≤ LONG_MAX)
    (hrecv2 : p.reply (p.log.length + 3) = (DEVICE_OK, pre ++ " ok".toList))
    (hsize : (pre ++ " ok".toList).length < size_t_modulus) :
    trim (lead ++ (k.getcmdstr_ ++ cmd ++ lexical_cast n) ++ trail) " \t\n".toList
        = k.getcmdstr_ ++ cmd ++ lexical_cast n ∧
      NumericGet k cmd p =
        .ok (DEVICE_OK, some (n : Int), { p with log := p.log ++ NumericGet_plan k cmd }) := by
  have hd : ∃ init l, k.getcmdstr_ ++ cmd ++ lexical_cast n = init ++ [l] ∧
      l.isDigit = true := by
    have hne := toDigits_ne_nil n
    refine ⟨k.getcmdstr_ ++ cmd ++ (Nat.toDigits 10 n).dropLast,
      (Nat.toDigits 10 n).getLast hne, ?_, ?_⟩
    · rw [lexical_cast_nat, List.append_assoc _ _ [_], List.dropLast_append_getLast hne]
    · have hall := toDigits_all n
      rw [List.all_eq_true] at hall
      exact hall _ (List.getLast_mem hne)
  obtain ⟨init, l, hl, hdig⟩ := hd
  have htrim : trim (lead ++ (k.getcmdstr_ ++ cmd ++ lexical_cast n) ++ trail)
      " \t\n".toList = k.getcmdstr_ ++ cmd ++ lexical_cast n := by
    rw [hfirst]
    exact trim_padded lead trail c l rest init _ (hfirst ▸ hl) hc
      (isDigit_not_blank l hdig) hlead htrail
  refine ⟨htrim, ?_⟩
  have h3 : 3 ≤ (pre ++ " ok".toList).length := by simp
  rw [NumericGet_echoed k cmd p _ _ hpurge hsend hrecv1 htrim, hrecv2]
  simp only [ne_eq, not_true_eq_false, if_false]
  rw [substr_tail _ h3 hsize, drop_ok_suffix, orThrow_some, extract_long_lexical_cast,
    min_eq_right hn]
  simp

/-- Witness of C11: the answer `DEL1500` to the token `DEL` with an empty get operator,
received with a space before it and a newline after it and followed by the answer
` ok`, gives `1500`. -/
theorem NumericGet_reads_value_witness :
    trim (" ".toList ++ ("".toList ++ "DEL".toList ++ lexical_cast (1500 : Nat)) ++
        "\n".toList) " \t\n".toList = "".toList ++ "DEL".toList ++ lexical_cast (1500 : Nat) ∧
      NumericGet k_plain "DEL".toList
          (port_script [(0, ""), (0, ""), (0, " DEL1500\n"), (0, " ok")]) =
        .ok (DEVICE_OK, some ((1500 : Nat) : Int),
          { port_script [(0, ""), (0, ""), (0, " DEL1500\n"), (0, " ok")] with
            log := (port_script [(0, ""), (0, ""), (0, " DEL1500\n"), (0, " ok")]).log ++
              NumericGet_plan k_plain "DEL".toList }) :=
  NumericGet_reads_value k_plain "DEL".toList 1500
    (port_script [(0, ""), (0, ""), (0, " DEL1500\n"), (0, " ok")]) " ".toList "\n".toList []
    'D' "EL1500".toList rfl rfl rfl (by decide) (by decide) (by decide) (by decide)
    (by decide) rfl (by decide)

/-- C12 (counterexample): the answers `DEL` and `DELabc` to the token `DEL` begin with
the echoed prefix and carry no number, and `KUtils::NumericGet` returns `DEVICE_OK`
when the answer that follows is ` ok`; the extraction leaves `val` as it was for the
first and stores `0` for the second. -/
theorem NumericGet_unparsed_counterexample :
    (NumericGet k_plain "DEL".toList
        (port_script [(0, ""), (0, ""), (0, "DEL"), (0, " ok")])).ret? = some DEVICE_OK ∧
      (NumericGet k_plain "DEL".toList
        (port_script [(0, ""), (0, ""), (0, "DELabc"), (0, " ok")])).ret? = some DEVICE_OK ∧
      extract_long [] = none ∧ extract_long "abc".toList = some 0 := by
  decide

/-- C12 (amended): for every answer that, once trimmed, begins with the echoed get
operator and command token, whatever follows the echo (nothing, text that is not a
number, or a number), `KUtils::NumericGet` does not examine whether the rest parses:
when the port operations succeed its return code depends on the following answer
alone, `DEVICE_OK` when that answer ends with ` ok` and the invalid-response code
when it has at least three characters and does not end with ` ok`. -/
theorem NumericGet_ignores_remainder (k : KUtils) (cmd : Str) (p : Port)
    (line1 rest line2 : Str)
    (hpurge : (p.reply p.log.length).1 = DEVICE_OK)
    (hsend : (p.reply (p.log.length + 1)).1 = DEVICE_OK)
    (hrecv1 : p.reply (p.log.length + 2) = (DEVICE_OK, line1))
    (htrim : trim line1 " \t\n".toList = k.getcmdstr_ ++ cmd ++ rest)
    (hrecv2 : p.reply (p.log.length + 3) = (DEVICE_OK, line2))
    (hsize : line2.length < size_t_modulus) :
    ((∃ pre, line2 = pre ++ " ok".toList) → (NumericGet k cmd p).ret? = some DEVICE_OK) ∧
      (3 ≤ line2.length → (¬ ∃ pre, line2 = pre ++ " ok".toList) →
        (NumericGet k cmd p).ret? = some DEVICE_SERIAL_INVALID_RESPONSE) := by
  rw [NumericGet_echoed k cmd p line1 _ hpurge hsend hrecv1 htrim, hrecv2]
  simp only [ne_eq, not_true_eq_false, if_false]
  refine ⟨?_, ?_⟩
  · rintro ⟨pre, rfl⟩
    have h3 : 3 ≤ (pre ++ " ok".toList).length := by simp
    rw [substr_tail _ h3 hsize, drop_ok_suffix, orThrow_some]
    simp [Outcome.ret?]
  · intro h3 hno
    rw [substr_tail _ h3 hsize, orThrow_some]
    have hne : ¬ (line2.drop (line2.length - 3) = " ok".toList) := by
      intro he
      apply hno
      refine ⟨line2.take (line2.length - 3), ?_⟩
      rw [← he, List.take_append_drop]
    simp only [ne_eq, hne, not_false_eq_true, if_true, Outcome.ret?]

/-- Witness of C12 (amended): the answer `DEL` followed by ` ok`, and followed by
`nak`. -/
theorem NumericGet_ignores_remainder_witness :
    (((∃ pre, " ok".toList = pre ++ " ok".toList) →
        (NumericGet k_plain "DEL".toList
          (port_script [(0, ""), (0, ""), (0, "DEL"), (0, " ok")])).ret? = some DEVICE_OK) ∧
      (3 ≤ " ok".toList.length → (¬ ∃ pre, " ok".toList = pre ++ " ok".toList) →
        (NumericGet k_plain "DEL".toList
          (port_script [(0, ""), (0, ""), (0, "DEL"), (0, " ok")])).ret?
            = some DEVICE_SERIAL_INVALID_RESPONSE)) ∧
    (NumericGet k_plain "DEL".toList
        (port_script [(0, ""), (0, ""), (0, "DEL"), (0, "nak")])).ret?
      = some DEVICE_SERIAL_INVALID_RESPONSE :=
  ⟨NumericGet_ignores_remainder k_plain "DEL".toList
      (port_script [(0, ""), (0, ""), (0, "DEL"), (0, " ok")]) "DEL".toList [] " ok".toList
      rfl rfl rfl (by decide) rfl (by decide),
    (NumericGet_ignores_remainder k_plain "DEL".toList
      (port_script [(0, ""), (0, ""), (0, "DEL"), (0, "nak")]) "DEL".toList [] "nak".toList
      rfl rfl rfl (by decide) rfl (by decide)).2 (by decide)
      (by rintro ⟨pre, h⟩
          have := congrArg (fun l => l.drop (l.length - 3)) h
          simp only [drop_ok_suffix] at this
          exact absurd this (by decide))⟩

/-- C13 (counterexample): the answer to the toggle command `+pol` is the echo and
`  ok` preceded by a newline; every port operation succeeds and the answer trimmed of
spaces, tabs and newlines is `+pol  ok`, yet `KUtils::ToggleSet` returns the
command-failed code, because it compares the answer as received. -/
theorem ToggleSet_untrimmed_counterexample :
    (ToggleSet k_plain "+pol".toList (port_script [(0, ""), (0, "\n+pol  ok")])).1
        = DEVICE_SERIAL_COMMAND_FAILED ∧
      trim "\n+pol  ok".toList " \t\n".toList = "+pol".toList ++ "  ok".toList := by
  decide

/-- C13 (amended): for every toggle command `cmd` and every answer, provided the port
operations succeed, `KUtils::ToggleSet` returns `DEVICE_OK` if and only if the answer
as received, untrimmed, equals `cmd` followed by two spaces and `ok`; every other
answer yields the command-failed code. -/
theorem ToggleSet_exact_echo (k : KUtils) (cmd : Str) (p : Port) (answer : Str)
    (hsend : (p.reply p.log.length).1 = DEVICE_OK)
    (hrecv : p.reply (p.log.length + 1) = (DEVICE_OK, answer))
    (hpurge : (p.reply (p.log.length + 2)).1 = DEVICE_OK) :
    ((ToggleSet k cmd p).1 = DEVICE_OK ↔ answer = cmd ++ "  ok".toList) ∧
      (answer ≠ cmd ++ "  ok".toList →
        (ToggleSet k cmd p).1 = DEVICE_SERIAL_COMMAND_FAILED) := by
  rw [ToggleSet_cases, hrecv]
  simp only [hsend, hpurge, ne_eq, not_true_eq_false, if_false]
  by_cases ha : answer = cmd ++ "  ok".toList
  · simp only [ha, not_true_eq_false, if_false, true_iff, false_implies, and_true]
  · simp only [ha, not_false_eq_true, if_true, iff_false, true_implies, and_true]
    decide

/-- Witness of C13 (amended): the answers `+pol  ok` and `+pol ok` to the toggle
command `+pol`. -/
theorem ToggleSet_exact_echo_witness :
    (ToggleSet k_plain "+pol".toList (port_script [(0, ""), (0, "+pol  ok")])).1 = DEVICE_OK ∧
      (ToggleSet k_plain "+pol".toList (port_script [(0, ""), (0, "+pol ok")])).1
        = DEVICE_SERIAL_COMMAND_FAILED :=
  ⟨(ToggleSet_exact_echo k_plain "+pol".toList (port_script [(0, ""), (0, "+pol  ok")])
      "+pol  ok".toList rfl rfl rfl).1.2 (by decide),
    (ToggleSet_exact_echo k_plain "+pol".toList (port_script [(0, ""), (0, "+pol ok")])
      "+pol ok".toList rfl rfl rfl).2 (by decide)⟩

/-- C14 (counterexample): the device answers the set command `5000 !DEL` with `?`, a
line that does not end with ` ok`; `KUtils::NumericSet` returns `DEVICE_OK`, and so
does `KSDB::SDBNumericSet` on the answer `?` to `5000 PS`. -/
theorem NumericSet_unchecked_counterexample :
    (NumericSet k_plain "DEL".toList 5000 (port_script [(0, ""), (0, "?")])).1 = DEVICE_OK ∧
      (SDBNumericSet (KSDB_initial []) "PS".toList 5000
        (port_script [(0, ""), (0, "?")])).1 = DEVICE_OK ∧
      "?".toList.drop ("?".toList.length - 3) ≠ " ok".toList := by
  decide

/-- C14 (amended): `KUtils::NumericSet` and `KSDB::SDBNumericSet` do not examine the
answer: whenever the send and the receive succeed they return `DEVICE_OK`, whatever
the line received. -/
theorem NumericSet_ignores_answer (k : KUtils) (d : Dev) (cmd : Str) (val : Int) (p : Port)
    (hsend : (p.reply p.log.length).1 = DEVICE_OK)
    (hrecv : (p.reply (p.log.length + 1)).1 = DEVICE_OK) :
    (NumericSet k cmd val p).1 = DEVICE_OK ∧ (SDBNumericSet d cmd val p).1 = DEVICE_OK := by
  rw [SDBNumericSet_eq, NumericSet_cases, NumericSet_cases]
  simp only [hsend, hrecv, ne_eq, not_true_eq_false, if_false, and_self]

/-- Witness of C14 (amended): the answer `error` to a set command. -/
theorem NumericSet_ignores_answer_witness :
    (NumericSet k_plain "DEL".toList 5000 (port_script [(0, ""), (0, "error")])).1
        = DEVICE_OK ∧
      (SDBNumericSet (KSDB_initial []) "DEL".toList 5000
        (port_script [(0, ""), (0, "error")])).1 = DEVICE_OK :=
  NumericSet_ignores_answer k_plain (KSDB_initial []) "DEL".toList 5000
    (port_script [(0, ""), (0, "error")]) rfl rfl

/-- C15: the first port operation of `KUtils::NumericSet` sends the decimal form of the
value, the set operator and the command token, in this order, with the terminator of
the device, and it is the only command the transaction sends; for the token `DEL`, the
operator ` !` and the value `5000` the line is `5000 !DEL`, and when the device
answers `5000 !DEL  ok` the transaction returns `DEVICE_OK`. -/
theorem NumericSet_transmits (k : KUtils) (cmd : Str) (n : Int) (p : Port) :
    (NumericSet k cmd n p).2.log.take (p.log.length + 1) =
        p.log ++ [PortOp.send (lexical_cast n ++ k.setcmdstr_ ++ cmd) k.termstr_] ∧
      ((NumericSet k cmd n p).2.log.drop p.log.length).filter PortOp.isSend =
        [PortOp.send (lexical_cast n ++ k.setcmdstr_ ++ cmd) k.termstr_] ∧
      lexical_cast 5000 ++ " !".toList ++ "DEL".toList = "5000 !DEL".toList ∧
      NumericSet k_plain "DEL".toList 5000 (port_script [(0, ""), (0, "5000 !DEL  ok")]) =
        (DEVICE_OK,
          { port_script [(0, ""), (0, "5000 !DEL  ok")] with
            log := [PortOp.send "5000 !DEL".toList "\r".toList, PortOp.receive "\r".toList] }) := by
  refine ⟨?_, ?_, by decide, rfl⟩
  · rw [NumericSet_cases]
    split_ifs <;> simp [NumericSet_plan, List.take_append_eq_append_take]
  · rw [NumericSet_cases]
    split_ifs <;> simp [NumericSet_plan, PortOp.isSend, List.filter]

/-- C16: `KUtils::NumericSet`, `KUtils::NumericGet` and `KUtils::ToggleSet` run over a
port that returns a code for each purge, send and receive: each performs a prefix of
its sequence of port operations; an operation that returns a code other than
`DEVICE_OK` is the last one performed and its code is the return code of the function;
and the operations performed contain at most one send, so no command is sent twice. -/
theorem serial_stops_at_first_failure (k : KUtils) (cmd : Str) (val : Int) (p : Port) :
    StopsAtFailure p (NumericSet_plan k cmd val)
        (some (NumericSet k cmd val p).1) (some (NumericSet k cmd val p).2) ∧
      StopsAtFailure p (NumericGet_plan k cmd)
        (NumericGet k cmd p).ret? (NumericGet k cmd p).port? ∧
      StopsAtFailure p (ToggleSet_plan cmd)
        (some (ToggleSet k cmd p).1) (some (ToggleSet k cmd p).2) := by
  refine ⟨?_, ?_, ?_⟩
  · rw [NumericSet_cases]
    split_ifs with h0 h1
    · refine ⟨1, le_refl _, by simp [NumericSet_plan], rfl, ?_, by simp [NumericSet_plan, PortOp.isSend]⟩
      intro i hi _
      interval_cases i
      exact ⟨rfl, rfl⟩
    · refine ⟨2, by omega, by simp [NumericSet_plan], rfl, ?_, by simp [NumericSet_plan, PortOp.isSend]⟩
      intro i hi hne
      interval_cases i
      · exact absurd hne h0
      · exact ⟨rfl, rfl⟩
    · refine ⟨2, by omega, by simp [NumericSet_plan], rfl, ?_, by simp [NumericSet_plan, PortOp.isSend]⟩
      intro i hi hne
      interval_cases i
      · exact absurd hne h0
      · exact absurd hne h1
  · rw [NumericGet_cases]
    split_ifs with h0 h1 h2 h3 h4
    · refine ⟨1, le_refl _, by simp [NumericGet_plan], rfl, ?_, by simp [NumericGet_plan, PortOp.isSend]⟩
      intro i hi _
      interval_cases i
      exact ⟨rfl, rfl⟩
    · refine ⟨2, by omega, by simp [NumericGet_plan], rfl, ?_, by simp [NumericGet_plan, PortOp.isSend]⟩
      intro i hi hne
      interval_cases i
      · exact absurd hne h0
      · exact ⟨rfl, rfl⟩
    · refine ⟨3, by omega, by simp [NumericGet_plan], rfl, ?_, by simp [NumericGet_plan, PortOp.isSend]⟩
      intro i hi hne
      interval_cases i
      · exact absurd hne h0
      · exact absurd hne h1
      · exact ⟨rfl, rfl⟩
    · refine ⟨3, by omega, by simp [NumericGet_plan], rfl, ?_, by simp [NumericGet_plan, PortOp.isSend]⟩
      intro i hi hne
      interval_cases i
      · exact absurd hne h0
      · exact absurd hne h1
      · exact absurd hne h2
    · refine ⟨4, by omega, by simp [NumericGet_plan], rfl, ?_, by simp [NumericGet_plan, PortOp.isSend]⟩
      intro i hi hne
      interval_cases i
      · exact absurd hne h0
      · exact absurd hne h1
      · exact absurd hne h2
      · exact ⟨rfl, rfl⟩
    · refine ⟨4, by omega, by simp [NumericGet_plan], ?_, ?_, by simp [NumericGet_plan, PortOp.isSend]⟩
      · cases substr (p.reply (p.log.length + 3)).2
            (size_t_sub (p.reply (p.log.length + 3)).2.length 3) none with
        | none => rfl
        | some tail =>
          rw [orThrow_some]
          split_ifs <;> rfl
      · intro i hi hne
        interval_cases i
        · exact absurd hne h0
        · exact absurd hne h1
        · exact absurd hne h2
        · exact absurd hne h4
  · rw [ToggleSet_cases]
    split_ifs with h0 h1 ha h2
    · refine ⟨1, le_refl _, by simp [ToggleSet_plan], rfl, ?_, by simp [ToggleSet_plan, PortOp.isSend]⟩
      intro i hi _
      interval_cases i
      exact ⟨rfl, rfl⟩
    · refine ⟨2, by omega, by simp [ToggleSet_plan], rfl, ?_, by simp [ToggleSet_plan, PortOp.isSend]⟩
      intro i hi hne
      interval_cases i
      · exact absurd hne h0
      · exact ⟨rfl, rfl⟩
    · refine ⟨2, by omega, by simp [ToggleSet_plan], rfl, ?_, by simp [ToggleSet_plan, PortOp.isSend]⟩
      intro i hi hne
      interval_cases i
      · exact absurd hne h0
      · exact absurd hne h1
    · refine ⟨3, by omega, by simp [ToggleSet_plan], rfl, ?_, by simp [ToggleSet_plan, PortOp.isSend]⟩
      intro i hi hne
      interval_cases i
      · exact absurd hne h0
      · exact absurd hne h1
      · exact ⟨rfl, rfl⟩
    · refine ⟨3, by omega, by simp [ToggleSet_plan], rfl, ?_, by simp [ToggleSet_plan, PortOp.isSend]⟩
      intro i hi hne
      interval_cases i
      · exact absurd hne h0
      · exact absurd hne h1
      · exact absurd hne h2

/-- C17: `MM::AfterSet` with a label outside the two labels of the handler.  The
handlers of the polarity, trigger attenuation, impedance and coupling, frequency,
monostable and trigger logic flags, and `KHRI::OnDC` and `KHRI::OnInhibit`, return
their invalid-value code (`ERR_UNRECOGNISED_PARAM_VALUE` for the monostable flag)
with the object and the port as they were.  `KSE::OnInhibit` does not: on a box that
is not calibrated every label other than `Inhibited` is treated as `Running`, the
gain set transaction is performed, `inhibited_` becomes `false` and the handler
returns `DEVICE_OK`. -/
theorem unknown_label_handling (state : Str) (d : Dev) (p : Port) :
    (state ≠ "Attenuated".toList → state ≠ "Direct".toList →
      OnTrigAttenuation .AfterSet state d p =
        { ret := DEVICE_INVALID_PROPERTY_VALUE, dev := d, port := p, prop := state }) ∧
    (state ≠ "50 Ohm".toList → state ≠ "High".toList →
      OnTrigImpedance .AfterSet state d p =
        { ret := DEVICE_INVALID_PROPERTY_VALUE, dev := d, port := p, prop := state }) ∧
    (state ≠ "DC".toList → state ≠ "AC".toList →
      OnTrigCoupling .AfterSet state d p =
        { ret := DEVICE_INVALID_PROPERTY_VALUE, dev := d, port := p, prop := state }) ∧
    (state ≠ "Positive".toList → state ≠ "Negative".toList →
      OnPolarity .AfterSet state d p =
        { ret := DEVICE_INVALID_PROPERTY_VALUE, dev := d, port := p, prop := state }) ∧
    (state ≠ "80 MHz".toList → state ≠ "40 MHz".toList →
      OnFrequency .AfterSet state d p =
        { ret := DEVICE_INVALID_PROPERTY_VALUE, dev := d, port := p, prop := state }) ∧
    (state ≠ "True".toList → state ≠ "False".toList →
      OnMonostable .AfterSet state d p =
        { ret := ERR_UNRECOGNISED_PARAM_VALUE, dev := d, port := p, prop := state }) ∧
    (state ≠ "ECL".toList → state ≠ "TTL".toList →
      OnTrigLogic .AfterSet state d p =
        { ret := DEVICE_INVALID_PROPERTY_VALUE, dev := d, port := p, prop := state }) ∧
    (state ≠ "On".toList → state ≠ "Off".toList →
      KHRI_OnDC .AfterSet state d p =
        { ret := DEVICE_INVALID_PROPERTY_VALUE, dev := d, port := p, prop := state }) ∧
    (state ≠ "Inhibited".toList → state ≠ "Running".toList →
      KHRI_OnInhibit .AfterSet state d p =
        { ret := DEVICE_INVALID_PROPERTY_VALUE, dev := d, port := p, prop := state }) ∧
    (state ≠ "Inhibited".toList → d.calibrated_ = false →
      KSE_OnInhibit .AfterSet state d p =
        .ok { ret := DEVICE_OK,
              dev := { d with dummy_gain_ := round25 d.dummy_gain_, inhibited_ := false },
              port := (NumericSet d.k_ d.gainstr_ (to_int (round25 d.dummy_gain_)) p).2,
              prop := c_str state }) := by
  refine ⟨OnFlag_unknown _ _ _ _ _ _ _ _, OnFlag_unknown _ _ _ _ _ _ _ _,
    OnFlag_unknown _ _ _ _ _ _ _ _, OnFlag_unknown _ _ _ _ _ _ _ _,
    OnFlag_unknown _ _ _ _ _ _ _ _, OnFlag_unknown _ _ _ _ _ _ _ _,
    OnFlag_unknown _ _ _ _ _ _ _ _, ?_, ?_, ?_⟩
  · intro h1 h2
    simp only [KHRI_OnDC, reduceCtorEq, if_false, if_true, h1, h2]
  · intro h1 h2
    simp only [KHRI_OnInhibit, reduceCtorEq, if_false, if_true, h1, h2]
  · intro h1 hc
    have hcal : doCalibration d.calibrated_ d.dummy_gain_ d.real_mcps d.mcp_settings
        = some (round25 d.dummy_gain_, to_int (round25 d.dummy_gain_)) := by
      simp [doCalibration, hc]
    simp only [KSE_OnInhibit, reduceCtorEq, if_false, if_true, h1, hcal, decide_False,
      Bool.false_eq_true]

/-- Witness of C17: the label `Paused`, given to the polarity handler of a `KHDG` and
to the inhibit handler of a `KSE` after `Initialize()`, on a port where every
operation succeeds. -/
theorem unknown_label_handling_witness :
    OnPolarity .AfterSet "Paused".toList (KHDG_initial []) port_ok =
        { ret := DEVICE_INVALID_PROPERTY_VALUE, dev := KHDG_initial [], port := port_ok,
          prop := "Paused".toList } ∧
      KSE_OnInhibit .AfterSet "Paused".toList (KSE_initial []) port_ok =
        .ok { ret := DEVICE_OK,
              dev := { KSE_initial [] with
                dummy_gain_ := round25 (KSE_initial []).dummy_gain_, inhibited_ := false },
              port := (NumericSet (KSE_initial []).k_ (KSE_initial []).gainstr_
                (to_int (round25 (KSE_initial []).dummy_gain_)) port_ok).2,
              prop := c_str "Paused".toList } :=
  ⟨(unknown_label_handling "Paused".toList (KHDG_initial []) port_ok).2.2.2.1
      (by decide) (by decide),
    (unknown_label_handling "Paused".toList (KSE_initial []) port_ok).2.2.2.2.2.2.2.2.2
      (by decide) rfl⟩

/-- C18: `MM::AfterSet` of `KHRI::OnGain`, `KHRI::OnWidth`, `KHRI::OnInhibit` and
`KHRI::OnDC` on a port where the send or the receive of the set transaction fails.
Each handler returns the code of the first port operation that fails, which is not
`DEVICE_OK`; the member (`gain_`, `width_`, `inhibited_`, `dcMode_`) was assigned
before the transaction and holds the value requested, not the value it had before
the call. -/
theorem KHRI_failed_set_keeps_assignment (state : Str) (d : Dev) (p : Port)
    (hfail : (p.reply p.log.length).1 ≠ DEVICE_OK ∨
      (p.reply (p.log.length + 1)).1 ≠ DEVICE_OK) :
    ((KHRI_OnGain .AfterSet state d p).ret ≠ DEVICE_OK ∧
      (KHRI_OnGain .AfterSet state d p).ret =
        (if (p.reply p.log.length).1 ≠ DEVICE_OK then (p.reply p.log.length).1
         else (p.reply (p.log.length + 1)).1) ∧
      (KHRI_OnGain .AfterSet state d p).dev.gain_ = atoi (c_str state)) ∧
    ((KHRI_OnWidth .AfterSet state d p).ret ≠ DEVICE_OK ∧
      (KHRI_OnWidth .AfterSet state d p).ret =
        (if (p.reply p.log.length).1 ≠ DEVICE_OK then (p.reply p.log.length).1
         else (p.reply (p.log.length + 1)).1) ∧
      (KHRI_OnWidth .AfterSet state d p).dev.width_ = atoi (c_str state)) ∧
    ((KHRI_OnInhibit .AfterSet "Inhibited".toList d p).ret ≠ DEVICE_OK ∧
      (KHRI_OnInhibit .AfterSet "Inhibited".toList d p).dev.inhibited_ = true) ∧
    ((KHRI_OnInhibit .AfterSet "Running".toList d p).ret ≠ DEVICE_OK ∧
      (KHRI_OnInhibit .AfterSet "Running".toList d p).dev.inhibited_ = false) ∧
    ((KHRI_OnDC .AfterSet "On".toList d p).ret ≠ DEVICE_OK ∧
      (KHRI_OnDC .AfterSet "On".toList d p).dev.dcMode_ = true) ∧
    ((KHRI_OnDC .AfterSet "Off".toList d p).ret ≠ DEVICE_OK ∧
      (KHRI_OnDC .AfterSet "Off".toList d p).dev.dcMode_ = false) := by
  have hcode : ∀ (k : KUtils) (cmd : Str) (val : Int), (NumericSet k cmd val p).1 =
      (if (p.reply p.log.length).1 ≠ DEVICE_OK then (p.reply p.log.length).1
       else (p.reply (p.log.length + 1)).1) := by
    intro k cmd val
    rw [NumericSet_ret]
    split_ifs with h0 h1
    · rfl
    · rfl
    · rcases hfail with h | h
      · exact absurd h h0
      · exact absurd h h1
  have hoff : "Off".toList ≠ "On".toList := by decide
  have hrun : "Running".toList ≠ "Inhibited".toList := by decide
  refine ⟨⟨?_, ?_, ?_⟩, ⟨?_, ?_, ?_⟩, ⟨?_, ?_⟩, ⟨?_, ?_⟩, ⟨?_, ?_⟩, ⟨?_, ?_⟩⟩
  · simp only [KHRI_OnGain, reduceCtorEq, if_false, if_true, KHRI_set_eq]
    exact NumericSet_fails _ _ _ _ hfail
  · simp only [KHRI_OnGain, reduceCtorEq, if_false, if_true, KHRI_set_eq]
    exact hcode _ _ _
  · simp only [KHRI_OnGain, reduceCtorEq, if_false, if_true, KHRI_set_eq]
  · simp only [KHRI_OnWidth, reduceCtorEq, if_false, if_true, KHRI_set_eq]
    exact NumericSet_fails _ _ _ _ hfail
  · simp only [KHRI_OnWidth, reduceCtorEq, if_false, if_true, KHRI_set_eq]
    exact hcode _ _ _
  · simp only [KHRI_OnWidth, reduceCtorEq, if_false, if_true, KHRI_set_eq]
  · simp only [KHRI_OnInhibit, reduceCtorEq, if_false, if_true, KHRI_set_eq]
    exact NumericSet_fails _ _ _ _ hfail
  · simp only [KHRI_OnInhibit, reduceCtorEq, if_false, if_true, KHRI_set_eq]
  · simp only [KHRI_OnInhibit, reduceCtorEq, if_false, if_true, KHRI_set_eq, hrun]
    exact NumericSet_fails _ _ _ _ hfail
  · simp only [KHRI_OnInhibit, reduceCtorEq, if_false, if_true, KHRI_set_eq, hrun]
  · simp only [KHRI_OnDC, reduceCtorEq, if_false, if_true, KHRI_set_eq]
    exact NumericSet_fails _ _ _ _ hfail
  · simp only [KHRI_OnDC, reduceCtorEq, if_false, if_true, KHRI_set_eq]
  · simp only [KHRI_OnDC, reduceCtorEq, if_false, if_true, KHRI_set_eq, hoff]
    exact NumericSet_fails _ _ _ _ hfail
  · simp only [KHRI_OnDC, reduceCtorEq, if_false, if_true, KHRI_set_eq, hoff]

/-- Witness of C18: a `KHRI` after `Initialize()`, caching the gain `0`, is asked for
the gain `500` on a port where every operation fails with the code `14`; the handler
returns `14` and `gain_` is `500`. -/
theorem KHRI_failed_set_keeps_assignment_witness :
    (KHRI_OnGain .AfterSet "500".toList (KHRI_initial 2) port_failing).ret = 14 ∧
      (KHRI_OnGain .AfterSet "500".toList (KHRI_initial 2) port_failing).dev.gain_ = 500 ∧
      (KHRI_initial 2).gain_ = 0 := by
  have h := (KHRI_failed_set_keeps_assignment "500".toList (KHRI_initial 2) port_failing
    (Or.inl (by decide))).1
  exact ⟨h.2.1.trans (by decide), h.2.2.trans (by decide), by decide⟩

/-- C19: `MM::AfterSet` of `KSE::OnInhibit` on a port where the send or the receive of
the gain set transaction fails.  With the label `Inhibited` the handler returns the
failure code and leaves the object as it was.  With the label `Running`, when the
lookup of `dummy_gain_` yields the setting `s`, the transaction fails as well but the
handler returns `DEVICE_OK` and `inhibited_` has become `false`. -/
theorem KSE_OnInhibit_failed_set (d : Dev) (p : Port) (g s : Int)
    (hcal : doCalibration d.calibrated_ d.dummy_gain_ d.real_mcps d.mcp_settings
      = some (g, s))
    (hfail : (p.reply p.log.length).1 ≠ DEVICE_OK ∨
      (p.reply (p.log.length + 1)).1 ≠ DEVICE_OK) :
    (∃ h, KSE_OnInhibit .AfterSet "Inhibited".toList d p = .ok h ∧
      h.ret = (NumericSet d.k_ d.gainstr_ 0 p).1 ∧ h.ret ≠ DEVICE_OK ∧ h.dev = d) ∧
    (∃ h, KSE_OnInhibit .AfterSet "Running".toList d p = .ok h ∧
      (NumericSet d.k_ d.gainstr_ s p).1 ≠ DEVICE_OK ∧
      h.port = (NumericSet d.k_ d.gainstr_ s p).2 ∧
      h.ret = DEVICE_OK ∧ h.dev.inhibited_ = false) := by
  have hrun : "Running".toList ≠ "Inhibited".toList := by decide
  have h0 := NumericSet_fails d.k_ d.gainstr_ 0 p hfail
  have hs := NumericSet_fails d.k_ d.gainstr_ s p hfail
  refine ⟨?_, ?_⟩
  · refine ⟨{ ret := (NumericSet d.k_ d.gainstr_ 0 p).1, dev := d,
              port := (NumericSet d.k_ d.gainstr_ 0 p).2, prop := "Inhibited".toList },
      ?_, rfl, h0, rfl⟩
    simp only [KSE_OnInhibit, reduceCtorEq, if_false, if_true, decide_True, h0]
  · refine ⟨{ ret := DEVICE_OK, dev := { d with dummy_gain_ := g, inhibited_ := false },
              port := (NumericSet d.k_ d.gainstr_ s p).2, prop := c_str "Running".toList },
      ?_, hs, rfl, rfl, rfl⟩
    simp only [KSE_OnInhibit, reduceCtorEq, if_false, if_true, hrun, decide_False,
      Bool.false_eq_true, hcal]

/-- Witness of C19: a `KSE` after `Initialize()`, inhibited, on a port where every
operation fails with the code `14`. -/
theorem KSE_OnInhibit_failed_set_witness :
    (∃ h, KSE_OnInhibit .AfterSet "Inhibited".toList (KSE_initial []) port_failing = .ok h ∧
      h.ret = (NumericSet (KSE_initial []).k_ (KSE_initial []).gainstr_ 0 port_failing).1 ∧
      h.ret ≠ DEVICE_OK ∧ h.dev = KSE_initial []) ∧
    (∃ h, KSE_OnInhibit .AfterSet "Running".toList (KSE_initial []) port_failing = .ok h ∧
      (NumericSet (KSE_initial []).k_ (KSE_initial []).gainstr_ 0 port_failing).1
        ≠ DEVICE_OK ∧
      h.port = (NumericSet (KSE_initial []).k_ (KSE_initial []).gainstr_ 0 port_failing).2 ∧
      h.ret = DEVICE_OK ∧ h.dev.inhibited_ = false) :=
  KSE_OnInhibit_failed_set (KSE_initial []) port_failing 0 0
    (by simp [doCalibration, KSE_initial, KHDG800_initial, round25_eq, to_int])
    (Or.inl (by decide))

/-- C20 (counterexample): a `KSE` after `Initialize()` caches the width `511` and the
state inhibited, and no `MM::AfterSet` has been run.  `KSE::OnWidth` with
`MM::BeforeGet` performs the four port operations of a get transaction and, when the
device answers `.width300`, reports `300` and overwrites `width_`; `KSE::OnInhibit`
with `MM::BeforeGet` does the same and, when the device answers `.mcp500`, reports
`Running` and clears `inhibited_`. -/
theorem KSE_BeforeGet_live_read_counterexample :
    KSE_OnWidth .BeforeGet 511 (KSE_initial []) (port_answering ".width300") =
        .ok { ret := DEVICE_OK, dev := { KSE_initial [] with width_ := 300 },
              port := { port_answering ".width300" with
                log := NumericGet_plan (KSE_initial []).k_ "width".toList },
              prop := 300 } ∧
      KSE_OnInhibit .BeforeGet "Inhibited".toList (KSE_initial []) (port_answering ".mcp500") =
        .ok { ret := DEVICE_OK,
              dev := { KSE_initial [] with inhibited_ := false, dummy_gain_ := 500 },
              port := { port_answering ".mcp500" with
                log := NumericGet_plan (KSE_initial []).k_ "mcp".toList },
              prop := "Running".toList } ∧
      (KSE_initial []).width_ = 511 ∧ (KSE_initial []).inhibited_ = true := by
  have hw : NumericGet (KSE_initial []).k_ (KSE_initial []).widthstr_
      (port_answering ".width300") =
      .ok (DEVICE_OK, some 300, { port_answering ".width300" with
        log := NumericGet_plan (KSE_initial []).k_ "width".toList }) := rfl
  have hg : NumericGet (KSE_initial []).k_ (KSE_initial []).gainstr_
      (port_answering ".mcp500") =
      .ok (DEVICE_OK, some 500, { port_answering ".mcp500" with
        log := NumericGet_plan (KSE_initial []).k_ "mcp".toList }) := rfl
  have hcal : doCalibration (KSE_initial []).calibrated_ 300 (KSE_initial []).width_settings
      (KSE_initial []).real_widths = some (300, 300) := by
    simp [doCalibration, KSE_initial, KHDG800_initial, round25_eq, to_int]
  refine ⟨?_, ?_, rfl, rfl⟩
  · simp only [KSE_OnWidth, if_true, hw, Option.getD_some, hcal]
  · simp only [KSE_OnInhibit, if_true, hg]
    rfl

/-- C20 (amended): with `MM::BeforeGet`, the handlers of every quantity other than the
width and the inhibit state of `KSE` perform no port operation, leave the object as it
is and report the cached member of the quantity (`KHRI::OnMode` reports the
description of the cached mode number, or fails without touching the object or the
port).  `KSE::OnWidth` and `KSE::OnInhibit` run a get transaction instead: when it
delivers the value `v` they have performed its four port operations and report what
the device answered, `OnWidth` the value looked up for `v` (its rounding, as an `int`,
on a box that is not calibrated), which it stores in `width_`, and `OnInhibit` the
label `Inhibited` exactly when `v` is `0`, storing the state in `inhibited_`.  When the
transaction returns without a value, because an operation fails or nothing follows
the echo, `OnWidth` looks up the cached `width_` in the same way and `OnInhibit` tests
a variable that has no value, which is undefined. -/
theorem BeforeGet_cached_or_live (b : Box) (env : Env) (fuel : Nat) (d : Dev) (p : Port)
    (s : Str) (n : Int) :
    OnDelay b .BeforeGet n d p =
        .ok { ret := DEVICE_OK, dev := d, port := p, prop := d.delay_ } ∧
    OnCalibrate b env fuel .BeforeGet s d p =
        .ok { ret := DEVICE_OK, dev := d, port := p,
              prop := if d.calibrated_ then "Yes".toList else "No".toList } ∧
    OnCalibrationPath .BeforeGet s d p =
        { ret := DEVICE_OK, dev := d, port := p, prop := c_str d.calibPath_ } ∧
    OnPort .BeforeGet s d p =
        { ret := DEVICE_OK, dev := d, port := p, prop := c_str d.port_ } ∧
    OnBoxType .BeforeGet s d p =
        { ret := DEVICE_OK, dev := d, port := p, prop := c_str d.boxType_ } ∧
    OnScanMode .BeforeGet s d p = { ret := DEVICE_OK, dev := d, port := p, prop := s } ∧
    OnTrigAttenuation .BeforeGet s d p =
        { ret := DEVICE_OK, dev := d, port := p,
          prop := if d.triggerAttenuated_ then "Attenuated".toList else "Direct".toList } ∧
    OnTrigImpedance .BeforeGet s d p =
        { ret := DEVICE_OK, dev := d, port := p,
          prop := if d.fiftyOhmInput_ then "50 Ohm".toList else "High".toList } ∧
    OnTrigCoupling .BeforeGet s d p =
        { ret := DEVICE_OK, dev := d, port := p,
          prop := if d.triggerDC_ then "DC".toList else "AC".toList } ∧
    OnPolarity .BeforeGet s d p =
        { ret := DEVICE_OK, dev := d, port := p,
          prop := if d.polarityPositive_ then "Positive".toList else "Negative".toList } ∧
    OnFrequency .BeforeGet s d p =
        { ret := DEVICE_OK, dev := d, port := p,
          prop := if d.eightyMhz_ then "80 MHz".toList else "40 MHz".toList } ∧
    OnMonostable .BeforeGet s d p =
        { ret := DEVICE_OK, dev := d, port := p,
          prop := if d.monostable_ then "True".toList else "False".toList } ∧
    OnTrigLogic .BeforeGet s d p =
        { ret := DEVICE_OK, dev := d, port := p,
          prop := if d.eclTrigger_ then "ECL".toList else "TTL".toList } ∧
    KHRI_OnDC .BeforeGet s d p =
        { ret := DEVICE_OK, dev := d, port := p,
          prop := if d.dcMode_ then "On".toList else "Off".toList } ∧
    KHRI_OnInhibit .BeforeGet s d p =
        { ret := DEVICE_OK, dev := d, port := p,
          prop := if d.inhibited_ then "Inhibited".toList else "Running".toList } ∧
    KHRI_OnWidth .BeforeGet s d p =
        { ret := DEVICE_OK, dev := d, port := p, prop := c_str (lexical_cast d.width_) } ∧
    KHRI_OnGain .BeforeGet s d p =
        { ret := DEVICE_OK, dev := d, port := p, prop := c_str (lexical_cast d.gain_) } ∧
    (∃ h, (KHRI_OnMode .BeforeGet s d p = .ok h ∨ KHRI_OnMode .BeforeGet s d p = .threw h) ∧
      h.dev = d ∧ h.port = p ∧
      (∀ desc, d.modeNumbers_.indexOf d.modeNumber_ ≠ d.modeNumbers_.length →
        d.modeDescriptions_[d.modeNumbers_.indexOf d.modeNumber_]? = some desc →
        KHRI_OnMode .BeforeGet s d p = .ok h ∧ h.ret = DEVICE_OK ∧ h.prop = c_str desc)) ∧
    KSE_OnGain .BeforeGet n d p =
        .ok { ret := DEVICE_OK, dev := d, port := p, prop := d.gain_ } ∧
    (∀ ret v q, NumericGet d.k_ d.widthstr_ p = .ok (ret, some v, q) →
      ∀ w r, doCalibration d.calibrated_ v d.width_settings d.real_widths = some (w, r) →
      KSE_OnWidth .BeforeGet n d p =
          .ok { ret := DEVICE_OK, dev := { d with width_ := r }, port := q, prop := r } ∧
        q.log = p.log ++ NumericGet_plan d.k_ d.widthstr_ ∧
        (d.calibrated_ = false → r = to_int (round25 v))) ∧
    (∀ ret v q, NumericGet d.k_ d.gainstr_ p = .ok (ret, some v, q) →
      KSE_OnInhibit .BeforeGet s d p =
          (if v = 0 then
            .ok { ret := DEVICE_OK, dev := { d with inhibited_ := true }, port := q,
                  prop := "Inhibited".toList }
          else
            .ok { ret := DEVICE_OK, dev := { d with inhibited_ := false, dummy_gain_ := v },
                  port := q, prop := "Running".toList }) ∧
        q.log = p.log ++ NumericGet_plan d.k_ d.gainstr_) ∧
    (∀ ret q, NumericGet d.k_ d.widthstr_ p = .ok (ret, none, q) →
      ∀ w r, doCalibration d.calibrated_ d.width_ d.width_settings d.real_widths = some (w, r) →
      KSE_OnWidth .BeforeGet n d p =
          .ok { ret := DEVICE_OK, dev := { d with width_ := r }, port := q, prop := r } ∧
        (d.calibrated_ = false → r = to_int (round25 d.width_))) ∧
    (∀ ret q, NumericGet d.k_ d.gainstr_ p = .ok (ret, none, q) →
      KSE_OnInhibit .BeforeGet s d p = .undef) := by
  refine ⟨?_, ?_, ?_, ?_, ?_, rfl, OnFlag_BeforeGet _ _ _ _ _ _ _ _,
    OnFlag_BeforeGet _ _ _ _ _ _ _ _, OnFlag_BeforeGet _ _ _ _ _ _ _ _,
    OnFlag_BeforeGet _ _ _ _ _ _ _ _, OnFlag_BeforeGet _ _ _ _ _ _ _ _,
    OnFlag_BeforeGet _ _ _ _ _ _ _ _, OnFlag_BeforeGet _ _ _ _ _ _ _ _,
    ?_, ?_, ?_, ?_, ?_, ?_, ?_, ?_, ?_, ?_⟩
  · simp only [OnDelay, if_true]
  · cases b <;> simp only [OnCalibrate, HDG_OnCalibrate, KSE_OnCalibrate, if_true]
  · simp only [OnCalibrationPath, if_true]
  · simp only [OnPort, if_true]
  · simp only [OnBoxType, if_true]
  · simp only [KHRI_OnDC, if_true]
  · simp only [KHRI_OnInhibit, if_true]
  · simp only [KHRI_OnWidth, if_true]
  · simp only [KHRI_OnGain, if_true]
  · by_cases hfound : d.modeNumbers_.indexOf d.modeNumber_ = d.modeNumbers_.length
    · refine ⟨{ ret := DEVICE_INVALID_PROPERTY_VALUE, dev := d, port := p, prop := s },
        Or.inl ?_, rfl, rfl, fun desc hne _ => absurd hfound hne⟩
      simp only [KHRI_OnMode, if_true, hfound, ne_eq, not_true_eq_false, if_false]
    · cases hdesc : d.modeDescriptions_[d.modeNumbers_.indexOf d.modeNumber_]? with
      | none =>
        refine ⟨{ ret := DEVICE_OK, dev := d, port := p, prop := s },
          Or.inr ?_, rfl, rfl, fun desc _ h => absurd h (by simp)⟩
        simp only [KHRI_OnMode, if_true, hfound, ne_eq, not_false_eq_true, hdesc]
      | some desc0 =>
        have hrun : KHRI_OnMode .BeforeGet s d p =
            .ok { ret := DEVICE_OK, dev := d, port := p, prop := c_str desc0 } := by
          simp only [KHRI_OnMode, if_true, hfound, ne_eq, not_false_eq_true, hdesc]
        refine ⟨_, Or.inl hrun, rfl, rfl, fun desc _ h => ⟨hrun, rfl, ?_⟩⟩
        simp only [Option.some.injEq] at h
        rw [h]
  · simp only [KSE_OnGain, if_true]
  · intro ret v q hget w r hcal
    refine ⟨?_, ?_, ?_⟩
    · simp only [KSE_OnWidth, if_true, hget, Option.getD_some, hcal]
    · rw [NumericGet_written _ _ _ _ _ _ hget]
    · intro hc
      simp only [doCalibration, hc, Bool.false_eq_true, if_false, Option.some.injEq,
        Prod.mk.injEq] at hcal
      exact hcal.2.symm
  · intro ret v q hget
    refine ⟨?_, ?_⟩
    · by_cases hv : v = 0
      · simp only [KSE_OnInhibit, if_true, hget, hv]
      · simp only [KSE_OnInhibit, if_true, hget, hv, if_false]
    · rw [NumericGet_written _ _ _ _ _ _ hget]
  · intro ret q hget w r hcal
    refine ⟨?_, ?_⟩
    · simp only [KSE_OnWidth, if_true, hget, Option.getD_none, hcal]
    · intro hc
      simp only [doCalibration, hc, Bool.false_eq_true, if_false, Option.some.injEq,
        Prod.mk.injEq] at hcal
      exact hcal.2.symm
  · intro ret q hget
    simp only [KSE_OnInhibit, if_true, hget]

/-- Witness of C20 (amended): the `KSE` after `Initialize()`, which caches the width
`511`, on a port where the device answers `.width300` and ` ok`, on one where it
answers `.mcp0` and ` ok`, and on one where it answers the echo `.width` alone and
` ok`: nothing is written there and the width reported and cached is `500`, the
rounding of `511`. -/
theorem BeforeGet_cached_or_live_witness :
    (KSE_OnWidth .BeforeGet 511 (KSE_initial []) (port_answering ".width300") =
        .ok { ret := DEVICE_OK, dev := { KSE_initial [] with width_ := 300 },
              port := { port_answering ".width300" with
                log := NumericGet_plan (KSE_initial []).k_ (KSE_initial []).widthstr_ },
              prop := 300 } ∧
      ({ port_answering ".width300" with
          log := NumericGet_plan (KSE_initial []).k_ (KSE_initial []).widthstr_ } : Port).log =
        (port_answering ".width300").log ++
          NumericGet_plan (KSE_initial []).k_ (KSE_initial []).widthstr_ ∧
      ((KSE_initial []).calibrated_ = false → (300 : Int) = to_int (round25 300))) ∧
    (KSE_OnInhibit .BeforeGet [] (KSE_initial []) (port_answering ".mcp0") =
        (if (0 : Int) = 0 then
          .ok { ret := DEVICE_OK, dev := { KSE_initial [] with inhibited_ := true },
                port := { port_answering ".mcp0" with
                  log := NumericGet_plan (KSE_initial []).k_ (KSE_initial []).gainstr_ },
                prop := "Inhibited".toList }
        else
          .ok { ret := DEVICE_OK,
                dev := { KSE_initial [] with inhibited_ := false, dummy_gain_ := 0 },
                port := { port_answering ".mcp0" with
                  log := NumericGet_plan (KSE_initial []).k_ (KSE_initial []).gainstr_ },
                prop := "Running".toList }) ∧
      ({ port_answering ".mcp0" with
          log := NumericGet_plan (KSE_initial []).k_ (KSE_initial []).gainstr_ } : Port).log =
        (port_answering ".mcp0").log ++
          NumericGet_plan (KSE_initial []).k_ (KSE_initial []).gainstr_) ∧
    (KSE_OnWidth .BeforeGet 511 (KSE_initial []) (port_answering ".width") =
        .ok { ret := DEVICE_OK, dev := { KSE_initial [] with width_ := 500 },
              port := { port_answering ".width" with
                log := NumericGet_plan (KSE_initial []).k_ (KSE_initial []).widthstr_ },
              prop := 500 } ∧
      ((KSE_initial []).calibrated_ = false →
        (500 : Int) = to_int (round25 (KSE_initial []).width_))) :=
  ⟨(BeforeGet_cached_or_live .SE (env_ok no_fs) 0 (KSE_initial [])
      (port_answering ".width300") [] 511).2.2.2.2.2.2.2.2.2.2.2.2.2.2.2.2.2.2.2.1
      DEVICE_OK 300 _ rfl 300 300
      (by simp [doCalibration, KSE_initial, KHDG800_initial, round25_eq, to_int]),
    (BeforeGet_cached_or_live .SE (env_ok no_fs) 0 (KSE_initial [])
      (port_answering ".mcp0") [] 511).2.2.2.2.2.2.2.2.2.2.2.2.2.2.2.2.2.2.2.2.1
      DEVICE_OK 0 _ rfl,
    (BeforeGet_cached_or_live .SE (env_ok no_fs) 0 (KSE_initial [])
      (port_answering ".width") [] 511).2.2.2.2.2.2.2.2.2.2.2.2.2.2.2.2.2.2.2.2.2.1
      DEVICE_OK _ rfl 500 500
      (by simp [doCalibration, KSE_initial, KHDG800_initial, round25_eq, to_int])⟩

/-- C21: the tuner of `SetupHDG800`, with the bounds `1500` and `3500`, against the
synthetic device whose output level equals the threshold, every operation succeeding.
The target is `2500`.  For every amount of fuel from `65` on, the tuner returns
`DEVICE_OK` after `64` turns of its loop with the threshold `2505` set last and the
output level `2505` read last, at distance `5` from the target, and `SetupHDG800`
returns `DEVICE_OK`.  In turn `j + 1` the set command carries the threshold given in
closed form (`50` down per turn to `2550`, then `1` down per turn) and the first
answer of the get transaction that follows carries the same number. -/
theorem HDG800_tuner_identity (n : Nat) :
    tuner_midop identity_output 1500 3500 = 2500 ∧
    tune (KHDG800_initial []).k_ "thr".toList "oplevel".toList 1500 3500 (65 + n)
        (tuner_port identity_output ".oplevel".toList 1500 3500) =
      .ok (DEVICE_OK, some (2500, 2505, 2505),
        { tuner_port identity_output ".oplevel".toList 1500 3500 with
          log :=
            level_plan (KHDG800_initial []).k_ "thr".toList "oplevel".toList 1500 ++
            level_plan (KHDG800_initial []).k_ "thr".toList "oplevel".toList 3500 ++
            tuner_log identity_output (KHDG800_initial []).k_ "thr".toList "oplevel".toList
              2500 3500 64 }) ∧
    SetupHDG800 (65 + n) (KHDG800_initial []) (HDG800_port identity_output) =
      .ok (DEVICE_OK,
        { HDG800_port identity_output with
          log :=
            [PortOp.purge] ++ ToggleSet_plan "-usemono".toList ++ ToggleSet_plan "+pol".toList ++
            level_plan (KHDG800_initial []).k_ "thr".toList "oplevel".toList 1500 ++
            level_plan (KHDG800_initial []).k_ "thr".toList "oplevel".toList 3500 ++
            tuner_log identity_output (KHDG800_initial []).k_ "thr".toList "oplevel".toList
              2500 3500 64 ++ [PortOp.purge] }) ∧
    iabs (2505 - 2500) ≤ 5 ∧
    (∀ j, j < 64 →
      (tuner_log identity_output (KHDG800_initial []).k_ "thr".toList "oplevel".toList
          2500 3500 64)[6 * j]? =
        some (PortOp.send
          (lexical_cast (tuner_thr identity_output 2500 3500 (j + 1)) ++ " !".toList ++
            "thr".toList) "\r".toList) ∧
      (tuner_port identity_output ".oplevel".toList 1500 3500).reply (16 + 6 * j + 4) =
        (DEVICE_OK,
          ".oplevel".toList ++ lexical_cast (tuner_thr identity_output 2500 3500 (j + 1))) ∧
      tuner_thr identity_output 2500 3500 (j + 1) =
        if j + 1 ≤ 19 then 3500 - 50 * ((j + 1 : Nat) : Int) else 2569 - ((j + 1 : Nat) : Int)) := by
  have hT : tuner_thr identity_output 2500 3500 64 = 2505 := by
    rw [identity_thr 64 (le_refl _)]; decide
  have hall : ∀ i, i < 64 →
      5 < iabs (tuner_diff identity_output (tuner_midop identity_output 1500 3500) 3500 i) := by
    intro i hi
    rw [identity_midop, identity_diff i (by omega), identity_thr i (by omega)]
    unfold iabs
    split_ifs <;> omega
  have hend :
      iabs (tuner_diff identity_output (tuner_midop identity_output 1500 3500) 3500 64) ≤ 5 := by
    rw [identity_midop, identity_diff 64 (le_refl _), hT]
    decide
  have hecho : (KHDG800_initial []).k_.getcmdstr_ ++ (KHDG800_initial []).trigopstr_
      = '.' :: "oplevel".toList := rfl
  have hblank : " \t\n".toList.contains '.' = false := by decide
  refine ⟨identity_midop, ?_, ?_, by decide, ?_⟩
  · have h := tuner_run identity_output (KHDG800_initial []).k_ (KHDG800_initial []).threshstr_
      (KHDG800_initial []).trigopstr_ 1500 3500
      (tuner_port identity_output ".oplevel".toList 1500 3500) '.' "oplevel".toList
      hecho hblank (fun m => by
        show tuner_reply identity_output ".oplevel".toList 1500 3500 (0 + m) = _
        rw [Nat.zero_add]; rfl) 64 hall hend n
    rw [identity_midop, hT] at h
    exact h
  · have h := SetupHDG800_run identity_output (KHDG800_initial []) (HDG800_port identity_output)
      '.' "oplevel".toList "-usemono".toList "+pol".toList rfl rfl
      (HDG800_port_codes identity_output) rfl rfl hecho hblank
      (HDG800_port_tuner identity_output) 64 hall hend n
    rw [show (64 + 1 + n) = 65 + n from by omega, identity_midop] at h
    exact h
  · intro j hj
    refine ⟨tuner_log_send identity_output (KHDG800_initial []).k_ "thr".toList
      "oplevel".toList 2500 3500 64 j hj, ?_, identity_thr (j + 1) (by omega)⟩
    have h := tuner_reply_first identity_output ".oplevel".toList 1500 3500 j
    rw [identity_midop] at h
    exact h

/-- C22 (counterexample): a device reports the output level `134217742` at the lower
bound and `134217728` at the upper bound, every operation succeeding.  The target
`opLow + (opHigh - opLow)/2` is `134217735`, which `float midop` holds as `134217728`:
the difference is `0`, the loop body is not entered and the tuner returns `DEVICE_OK`
with the output level `134217728` queried last, at distance `7` from the target. -/
theorem tune_float_target_counterexample :
    tune (KHDG800_initial []).k_ "thr".toList "oplevel".toList 1500 3500 1
        (tuner_port rail_output ".oplevel".toList 1500 3500) =
      .ok (DEVICE_OK, some (134217728, 3500, 134217728),
        { tuner_port rail_output ".oplevel".toList 1500 3500 with
          log :=
            level_plan (KHDG800_initial []).k_ "thr".toList "oplevel".toList 1500 ++
            level_plan (KHDG800_initial []).k_ "thr".toList "oplevel".toList 3500 }) ∧
    rail_output 1500 + Int.tdiv (rail_output 3500 - rail_output 1500) 2 = 134217735 ∧
    iabs (134217728 - 134217735) = 7 := by
  have hmid : tuner_midop rail_output 1500 3500 = 134217728 := by decide
  have hend : iabs (tuner_diff rail_output (tuner_midop rail_output 1500 3500) 3500 0) ≤ 5 := by
    rw [hmid]; decide
  have h := tuner_run rail_output (KHDG800_initial []).k_ (KHDG800_initial []).threshstr_
    (KHDG800_initial []).trigopstr_ 1500 3500
    (tuner_port rail_output ".oplevel".toList 1500 3500) '.' "oplevel".toList
    rfl (by decide) (fun m => by
      show tuner_reply rail_output ".oplevel".toList 1500 3500 (0 + m) = _
      rw [Nat.zero_add]; rfl) 0 (fun i hi => absurd hi (by omega)) hend 0
  rw [hmid, show tuner_log rail_output (KHDG800_initial []).k_ (KHDG800_initial []).threshstr_
      (KHDG800_initial []).trigopstr_ 134217728 3500 0 = [] from rfl, List.append_nil] at h
  exact ⟨h, by decide, by decide⟩

/-- C22 (amended): the part of `SetupHDG800` (bounds `1500` and `3500`) and of
`SetupHDG` (bounds `0` and `250`) from the two level readings to the end of the loop.
When the readings at the lower and at the upper bound deliver `opLow` and `opHigh`,
the tuner returns `DEVICE_OK` with the output level `o` queried last, and these three
levels have a magnitude below `2^23`, so that `float` holds the target and the
differences exactly: the target is `opLow + (opHigh - opLow)/2` with the division
truncating, `|o - target|` is at most `5`, and when `|opHigh - target|` is at most `5`
already the loop body is not entered, the threshold and the port being those left by
the second reading. -/
theorem tune_exit_within_five (k : KUtils) (threshstr trigopstr : Str) (lo hi : Int)
    (fuel : Nat) (p p1 p2 q : Port) (opLow opHigh midop thr o : Int)
    (hlow : read_level k threshstr trigopstr lo none p = .ok (DEVICE_OK, some opLow, p1))
    (hhigh : read_level k threshstr trigopstr hi (some opLow) p1 =
      .ok (DEVICE_OK, some opHigh, p2))
    (hexit : tune k threshstr trigopstr lo hi fuel p = .ok (DEVICE_OK, some (midop, thr, o), q))
    (hl : opLow.natAbs < 8388608) (hh : opHigh.natAbs < 8388608) (ho : o.natAbs < 8388608) :
    midop = opLow + Int.tdiv (opHigh - opLow) 2 ∧ iabs (o - midop) ≤ 5 ∧
      (iabs (opHigh - midop) ≤ 5 → thr = hi ∧ o = opHigh ∧ q = p2) := by
  obtain ⟨hm, hmr⟩ := midop_exact opLow opHigh hl hh
  unfold tune at hexit
  rw [hlow] at hexit
  simp only at hexit
  rw [hhigh] at hexit
  simp only at hexit
  rw [hm, to_int_eq opHigh (by omega) (by omega), diff_exact opHigh _ hh hmr] at hexit
  cases hloop : tune_loop k threshstr trigopstr (opLow + Int.tdiv (opHigh - opLow) 2) fuel hi
      opHigh (opHigh - (opLow + Int.tdiv (opHigh - opLow) 2)) p2 with
  | ok r =>
    obtain ⟨ret, thr1, o1, q1⟩ := r
    rw [hloop] at hexit
    simp only [Outcome.ok.injEq, Prod.mk.injEq, Option.some.injEq] at hexit
    obtain ⟨hret, ⟨hmid, hthr, hop⟩, hq⟩ := hexit
    subst hret hthr hop hq
    have hx := tune_loop_exit k threshstr trigopstr _ fuel hi opHigh _ p2 thr1 o1 q1
      (diff_exact opHigh _ hh hmr).symm hloop
    rw [diff_exact o1 _ ho hmr] at hx
    refine ⟨hmid.symm, by rw [← hmid]; exact hx, ?_⟩
    intro hle
    rw [← hmid] at hle
    cases fuel with
    | zero => simp only [tune_loop, reduceCtorEq] at hloop
    | succ fuel =>
      rw [tune_loop_done _ _ _ _ _ _ _ _ _ hle] at hloop
      simp only [Outcome.ok.injEq, Prod.mk.injEq] at hloop
      exact ⟨hloop.2.1.symm, hloop.2.2.1.symm, hloop.2.2.2.symm⟩
  | threw r => rw [hloop] at hexit; simp only [reduceCtorEq] at hexit
  | undef => rw [hloop] at hexit; simp only [reduceCtorEq] at hexit
  | timeout => rw [hloop] at hexit; simp only [reduceCtorEq] at hexit

/-- Witness of C22: the device whose output level equals the threshold, with the bounds
`1500` and `3500` of `SetupHDG800`; the tuner returns after `64` turns with the output
level `2505`, at distance `5` from the target `2500`. -/
theorem tune_exit_within_five_witness :
    tune (KHDG800_initial []).k_ "thr".toList "oplevel".toList 1500 3500 65
        (tuner_port identity_output ".oplevel".toList 1500 3500) =
      .ok (DEVICE_OK, some (2500, 2505, 2505),
        { tuner_port identity_output ".oplevel".toList 1500 3500 with
          log := (tuner_port identity_output ".oplevel".toList 1500 3500).log ++
            level_plan (KHDG800_initial []).k_ "thr".toList "oplevel".toList 1500 ++
            level_plan (KHDG800_initial []).k_ "thr".toList "oplevel".toList 3500 ++
            tuner_log identity_output (KHDG800_initial []).k_ "thr".toList
              "oplevel".toList 2500 3500 64 }) ∧
      (2500 : Int) =
        identity_output 1500 + Int.tdiv (identity_output 3500 - identity_output 1500) 2 ∧
      iabs (2505 - 2500) ≤ 5 ∧
      (iabs (identity_output 3500 - 2500) ≤ 5 →
        (2505 : Int) = 3500 ∧ (2505 : Int) = identity_output 3500 ∧
          ({ tuner_port identity_output ".oplevel".toList 1500 3500 with
            log := (tuner_port identity_output ".oplevel".toList 1500 3500).log ++
              level_plan (KHDG800_initial []).k_ "thr".toList "oplevel".toList 1500 ++
              level_plan (KHDG800_initial []).k_ "thr".toList "oplevel".toList 3500 ++
              tuner_log identity_output (KHDG800_initial []).k_ "thr".toList
                "oplevel".toList 2500 3500 64 } : Port) =
          { tuner_port identity_output ".oplevel".toList 1500 3500 with
            log := (tuner_port identity_output ".oplevel".toList 1500 3500).log ++
              level_plan (KHDG800_initial []).k_ "thr".toList "oplevel".toList 1500 ++
              level_plan (KHDG800_initial []).k_ "thr".toList "oplevel".toList 3500 }) := by
  have hT : tuner_thr identity_output 2500 3500 64 = 2505 := by
    rw [identity_thr 64 (le_refl _)]; decide
  have hall : ∀ i, i < 64 →
      5 < iabs (tuner_diff identity_output (tuner_midop identity_output 1500 3500) 3500 i) := by
    intro i hi
    rw [identity_midop, identity_diff i (by omega), identity_thr i (by omega)]
    unfold iabs
    split_ifs <;> omega
  have hend :
      iabs (tuner_diff identity_output (tuner_midop identity_output 1500 3500) 3500 64) ≤ 5 := by
    rw [identity_midop, identity_diff 64 (le_refl _), hT]
    decide
  have hecho : (KHDG800_initial []).k_.getcmdstr_ ++ "oplevel".toList
      = '.' :: "oplevel".toList := rfl
  have hblank : " \t\n".toList.contains '.' = false := by decide
  have hp : ∀ m, (tuner_port identity_output ".oplevel".toList 1500 3500).reply
      ((tuner_port identity_output ".oplevel".toList 1500 3500).log.length + m) =
      tuner_reply identity_output ((KHDG800_initial []).k_.getcmdstr_ ++ "oplevel".toList)
        1500 3500 m := fun m => by
    show tuner_reply identity_output ".oplevel".toList 1500 3500 (0 + m) = _
    rw [Nat.zero_add]; rfl
  obtain ⟨hlow, hhigh⟩ := tuner_levels identity_output (KHDG800_initial []).k_ "thr".toList
    "oplevel".toList 1500 3500 (tuner_port identity_output ".oplevel".toList 1500 3500)
    '.' "oplevel".toList hecho hblank hp
  have hexit := tuner_run identity_output (KHDG800_initial []).k_ "thr".toList
    "oplevel".toList 1500 3500 (tuner_port identity_output ".oplevel".toList 1500 3500)
    '.' "oplevel".toList hecho hblank hp 64 hall hend 0
  rw [identity_midop, hT] at hexit
  exact ⟨hexit, tune_exit_within_five (KHDG800_initial []).k_ "thr".toList "oplevel".toList
    1500 3500 (64 + 1 + 0) (tuner_port identity_output ".oplevel".toList 1500 3500) _ _ _
    (identity_output 1500) (identity_output 3500) 2500 2505 2505 hlow hhigh hexit
    (by decide) (by decide) (by decide)⟩

/-- C23: the tuning loop has no iteration cap.  The device whose output level is `0`
below the threshold `3500` and `40` from it on is monotonic non-decreasing; for it the
target is `20`, the threshold alternates between the adjacent values `3500` and
`3499`, and the difference is `20` or `-20` after every turn.  For every `N`, the loop
of `SetupHDG800` with every operation succeeding performs `N` turns, each with one set
and one get transaction, and is then at its head again with a difference above `5`,
so that it enters turn `N + 1`; the tuner and `SetupHDG800` use up every amount of
fuel.  In turn `j + 1` the set command carries the threshold of that turn and the
first answer of the get transaction carries the output level of the device at it. -/
theorem tuner_no_iteration_cap (N fuel : Nat) :
    (∀ a b : Int, a ≤ b → step_output a ≤ step_output b) ∧
    tuner_midop step_output 1500 3500 = 20 ∧
    (tuner_thr step_output 20 3500 (2 * N) = 3500 ∧
      tuner_thr step_output 20 3500 (2 * N + 1) = 3499) ∧
    iabs (tuner_diff step_output 20 3500 N) = 20 ∧
    tune_loop (KHDG800_initial []).k_ "thr".toList "oplevel".toList 20 (fuel + N) 3500
        (step_output 3500) (tuner_diff step_output 20 3500 0)
        { tuner_port step_output ".oplevel".toList 1500 3500 with
          log :=
            level_plan (KHDG800_initial []).k_ "thr".toList "oplevel".toList 1500 ++
            level_plan (KHDG800_initial []).k_ "thr".toList "oplevel".toList 3500 } =
      tune_loop (KHDG800_initial []).k_ "thr".toList "oplevel".toList 20 fuel
        (tuner_thr step_output 20 3500 N) (step_output (tuner_thr step_output 20 3500 N))
        (tuner_diff step_output 20 3500 N)
        { tuner_port step_output ".oplevel".toList 1500 3500 with
          log :=
            level_plan (KHDG800_initial []).k_ "thr".toList "oplevel".toList 1500 ++
            level_plan (KHDG800_initial []).k_ "thr".toList "oplevel".toList 3500 ++
            tuner_log step_output (KHDG800_initial []).k_ "thr".toList "oplevel".toList
              20 3500 N } ∧
    (tuner_log step_output (KHDG800_initial []).k_ "thr".toList "oplevel".toList
      20 3500 N).length = 6 * N ∧
    (∀ j, j < N →
      (tuner_log step_output (KHDG800_initial []).k_ "thr".toList "oplevel".toList
          20 3500 N)[6 * j]? =
        some (PortOp.send
          (lexical_cast (tuner_thr step_output 20 3500 (j + 1)) ++ " !".toList ++
            "thr".toList) "\r".toList) ∧
      (tuner_port step_output ".oplevel".toList 1500 3500).reply (16 + 6 * j + 4) =
        (DEVICE_OK,
          ".oplevel".toList ++
            lexical_cast (step_output (tuner_thr step_output 20 3500 (j + 1))))) ∧
    tune (KHDG800_initial []).k_ "thr".toList "oplevel".toList 1500 3500 fuel
        (tuner_port step_output ".oplevel".toList 1500 3500) = .timeout ∧
    SetupHDG800 fuel (KHDG800_initial []) (HDG800_port step_output) = .timeout := by
  have hall : ∀ i, 5 < iabs (tuner_diff step_output (tuner_midop step_output 1500 3500) 3500 i) := by
    intro i
    rw [step_midop, step_diff_abs]
    decide
  have hecho : (KHDG800_initial []).k_.getcmdstr_ ++ (KHDG800_initial []).trigopstr_
      = '.' :: "oplevel".toList := rfl
  have hblank : " \t\n".toList.contains '.' = false := by decide
  have hport : ∀ m, (tuner_port step_output ".oplevel".toList 1500 3500).reply
      ((tuner_port step_output ".oplevel".toList 1500 3500).log.length + m) =
      tuner_reply step_output
        ((KHDG800_initial []).k_.getcmdstr_ ++ (KHDG800_initial []).trigopstr_) 1500 3500 m := by
    intro m
    show tuner_reply step_output ".oplevel".toList 1500 3500 (0 + m) = _
    rw [Nat.zero_add]; rfl
  refine ⟨?_, step_midop, step_thr N, step_diff_abs N, ?_, tuner_log_length _ _ _ _ _ _ _,
    ?_, ?_, ?_⟩
  · intro a b hab
    unfold step_output
    split_ifs <;> omega
  · have h := tuner_sim step_output (KHDG800_initial []).k_ (KHDG800_initial []).threshstr_
      (KHDG800_initial []).trigopstr_ 1500 3500
      (tuner_port step_output ".oplevel".toList 1500 3500) '.' "oplevel".toList
      hecho hblank hport N fuel (fun i _ => hall i)
    rw [step_midop] at h
    rw [step_op, step_op] at h
    exact h
  · intro j hj
    refine ⟨tuner_log_send step_output (KHDG800_initial []).k_ "thr".toList
      "oplevel".toList 20 3500 N j hj, ?_⟩
    have h := tuner_reply_first step_output ".oplevel".toList 1500 3500 j
    rw [step_midop] at h
    exact h
  · exact tuner_runs_on step_output (KHDG800_initial []).k_ (KHDG800_initial []).threshstr_
      (KHDG800_initial []).trigopstr_ 1500 3500
      (tuner_port step_output ".oplevel".toList 1500 3500) '.' "oplevel".toList
      hecho hblank hport hall fuel
  · exact SetupHDG800_never step_output (KHDG800_initial []) (HDG800_port step_output)
      '.' "oplevel".toList "-usemono".toList "+pol".toList rfl rfl
      (HDG800_port_codes step_output) rfl rfl hecho hblank
      (HDG800_port_tuner step_output) hall fuel

/-- C24 (counterexample): a device reports the output level `134217790` at the lower
bound and `134217680` at the upper bound `3500`.  With the target
`opLow + (opHigh - opLow)/2 = 134217735` the difference `d` of the first turn is `-55`,
below `-50`, for which the threshold `3550` is expected.  `float midop` holds the
target as `134217728`, the difference of the program is `-48`, and the threshold sent
is `3501`; the level `134217728` read then ends the loop. -/
theorem tune_float_step_counterexample :
    tune (KHDG800_initial []).k_ "thr".toList "oplevel".toList 1500 3500 2
        (tuner_port far_output ".oplevel".toList 1500 3500) =
      .ok (DEVICE_OK, some (134217728, 3501, 134217728),
        { tuner_port far_output ".oplevel".toList 1500 3500 with
          log :=
            level_plan (KHDG800_initial []).k_ "thr".toList "oplevel".toList 1500 ++
            level_plan (KHDG800_initial []).k_ "thr".toList "oplevel".toList 3500 ++
            tuner_log far_output (KHDG800_initial []).k_ "thr".toList "oplevel".toList
              134217728 3500 1 }) ∧
    tuner_log far_output (KHDG800_initial []).k_ "thr".toList "oplevel".toList
        134217728 3500 1 =
      [PortOp.send "3501 !thr".toList "\r".toList, PortOp.receive "\r".toList,
        PortOp.purge, PortOp.send ".oplevel".toList "\r".toList,
        PortOp.receive "\r".toList, PortOp.receive "\r".toList] ∧
    far_output 1500 + Int.tdiv (far_output 3500 - far_output 1500) 2 = 134217735 ∧
    far_output 3500 - 134217735 = -55 ∧
    float_sub (to_float (far_output 3500)) 134217728 = -48 := by
  have hmid : tuner_midop far_output 1500 3500 = 134217728 := by decide
  have hT : tuner_thr far_output 134217728 3500 1 = 3501 := by decide
  have hall : ∀ i, i < 1 →
      5 < iabs (tuner_diff far_output (tuner_midop far_output 1500 3500) 3500 i) := by
    intro i hi
    rw [hmid]
    interval_cases i
    decide
  have hend : iabs (tuner_diff far_output (tuner_midop far_output 1500 3500) 3500 1) ≤ 5 := by
    rw [hmid]; decide
  have h := tuner_run far_output (KHDG800_initial []).k_ (KHDG800_initial []).threshstr_
    (KHDG800_initial []).trigopstr_ 1500 3500
    (tuner_port far_output ".oplevel".toList 1500 3500) '.' "oplevel".toList
    rfl (by decide) (fun m => by
      show tuner_reply far_output ".oplevel".toList 1500 3500 (0 + m) = _
      rw [Nat.zero_add]; rfl) 1 hall hend 0
  rw [hmid, hT] at h
  exact ⟨h, by decide, by decide, by decide, by decide⟩

/-- C24 (amended): the tuning loop of `SetupHDG800` (bounds `1500` and `3500`) and of
`SetupHDG` (bounds `0` and `250`), when the levels `opLow` and `opHigh` read at the
bounds and the current output level have a magnitude below `2^23`, so that `float`
holds the target `opLow + (opHigh - opLow)/2` and the difference exactly.  The loop
starts at the upper bound `hi` with the level `opHigh`.  In a turn the difference of
the program is `d = current output - target`; when its magnitude is above `5`, the
threshold sent (an `int`, as is the level read, so both are given by their conversion
to `int`, which leaves a value in the range of `int` as it is) is the current one plus `t`, where `t` is `-50` if `d > 50`,
`50` if `d < -50`, `-1` if `5 < d <= 50` and `1` otherwise; when the set and the get
transaction succeed the loop goes on with that threshold and the level read, and the
operations of the turn are those of one set and one get transaction. -/
theorem tune_adjustment (k : KUtils) (threshstr trigopstr : Str) (lo hi : Int)
    (fuel : Nat) (p p1 p2 s q : Port) (opLow opHigh target thr op d t v : Int)
    (hlow : read_level k threshstr trigopstr lo none p = .ok (DEVICE_OK, some opLow, p1))
    (hhigh : read_level k threshstr trigopstr hi (some opLow) p1 =
      .ok (DEVICE_OK, some opHigh, p2))
    (hl : opLow.natAbs < 8388608) (hh : opHigh.natAbs < 8388608) (ho : op.natAbs < 8388608)
    (htarget : target = opLow + Int.tdiv (opHigh - opLow) 2)
    (hd : d = op - target) (hloop : 5 < iabs d)
    (ht : t = if 50 < d then -50 else if d < -50 then 50 else if 5 < d then -1 else 1)
    (hset : (NumericSet k threshstr (to_int (thr + t)) s).1 = DEVICE_OK)
    (hget : NumericGet k trigopstr (NumericSet k threshstr (to_int (thr + t)) s).2 =
      .ok (DEVICE_OK, some v, q)) :
    tune k threshstr trigopstr lo hi fuel p =
        (match tune_loop k threshstr trigopstr target fuel hi opHigh
            (float_sub (to_float opHigh) target) p2 with
        | .ok (ret, currentthr, currentop, p) =>
          .ok (ret, some (target, currentthr, currentop), p)
        | .threw (ret, currentthr, currentop, p) =>
          .threw (ret, some (target, currentthr, currentop), p)
        | .undef => .undef
        | .timeout => .timeout) ∧
      float_sub (to_float op) target = d ∧
      tune_loop k threshstr trigopstr target (fuel + 1) thr op
          (float_sub (to_float op) target) s =
        tune_loop k threshstr trigopstr target fuel (to_int (thr + t)) (to_int v)
          (float_sub (to_float (to_int v)) target) q ∧
      q = { s with log := s.log ++ NumericSet_plan k threshstr (to_int (thr + t)) ++
        NumericGet_plan k trigopstr } ∧
      (-2147483648 ≤ thr + t → thr + t ≤ 2147483647 → to_int (thr + t) = thr + t) ∧
      (-2147483648 ≤ v → v ≤ 2147483647 → to_int v = v) := by
  obtain ⟨hm, hmr⟩ := midop_exact opLow opHigh hl hh
  rw [← htarget] at hm hmr
  rw [tune_step_cases d hloop] at ht
  subst ht
  refine ⟨?_, ?_, ?_, ?_, to_int_eq _, to_int_eq _⟩
  · unfold tune
    rw [hlow]
    simp only
    rw [hhigh]
    simp only
    rw [hm, to_int_eq opHigh (by omega) (by omega)]
  · rw [hd]
    exact diff_exact op target ho hmr
  · rw [diff_exact op target ho hmr, ← hd]
    exact tune_loop_turn k threshstr trigopstr target fuel thr op d v s q hloop hset hget
  · have hq := NumericGet_written k trigopstr _ q DEVICE_OK v hget
    rw [NumericSet_ok_port k threshstr _ s hset] at hq
    rw [hq]

/-- Witness of C24: the first turn of the loop of `SetupHDG800` against the device whose
output level equals the threshold.  The target is `2500`, the current threshold and
output level are `3500`, the difference is `1000`, and the threshold `3450` is sent
and the level `3450` read. -/
theorem tune_adjustment_witness :
    float_sub (to_float 3500) 2500 = 1000 ∧
      tune_loop (KHDG800_initial []).k_ "thr".toList "oplevel".toList 2500 (63 + 1) 3500 3500
          (float_sub (to_float 3500) 2500)
          { tuner_port identity_output ".oplevel".toList 1500 3500 with
            log := (tuner_port identity_output ".oplevel".toList 1500 3500).log ++
              level_plan (KHDG800_initial []).k_ "thr".toList "oplevel".toList 1500 ++
              level_plan (KHDG800_initial []).k_ "thr".toList "oplevel".toList 3500 } =
        tune_loop (KHDG800_initial []).k_ "thr".toList "oplevel".toList 2500 63
          (to_int (3500 + -50)) (to_int 3450) (float_sub (to_float (to_int 3450)) 2500)
          { tuner_port identity_output ".oplevel".toList 1500 3500 with
            log := (tuner_port identity_output ".oplevel".toList 1500 3500).log ++
              level_plan (KHDG800_initial []).k_ "thr".toList "oplevel".toList 1500 ++
              level_plan (KHDG800_initial []).k_ "thr".toList "oplevel".toList 3500 ++
              NumericSet_plan (KHDG800_initial []).k_ "thr".toList (to_int (3500 + -50)) ++
              NumericGet_plan (KHDG800_initial []).k_ "oplevel".toList } ∧
      ({ tuner_port identity_output ".oplevel".toList 1500 3500 with
          log := (tuner_port identity_output ".oplevel".toList 1500 3500).log ++
            level_plan (KHDG800_initial []).k_ "thr".toList "oplevel".toList 1500 ++
            level_plan (KHDG800_initial []).k_ "thr".toList "oplevel".toList 3500 ++
            NumericSet_plan (KHDG800_initial []).k_ "thr".toList (to_int (3500 + -50)) ++
            NumericGet_plan (KHDG800_initial []).k_ "oplevel".toList } : Port) =
        { ({ tuner_port identity_output ".oplevel".toList 1500 3500 with
            log := (tuner_port identity_output ".oplevel".toList 1500 3500).log ++
              level_plan (KHDG800_initial []).k_ "thr".toList "oplevel".toList 1500 ++
              level_plan (KHDG800_initial []).k_ "thr".toList "oplevel".toList 3500 } : Port) with
          log := (tuner_port identity_output ".oplevel".toList 1500 3500).log ++
              level_plan (KHDG800_initial []).k_ "thr".toList "oplevel".toList 1500 ++
              level_plan (KHDG800_initial []).k_ "thr".toList "oplevel".toList 3500 ++
            NumericSet_plan (KHDG800_initial []).k_ "thr".toList (to_int (3500 + -50)) ++
            NumericGet_plan (KHDG800_initial []).k_ "oplevel".toList } ∧
      ((-2147483648 : Int) ≤ 3500 + -50 → (3500 : Int) + -50 ≤ 2147483647 →
        to_int (3500 + -50) = 3500 + -50) ∧
      ((-2147483648 : Int) ≤ 3450 → (3450 : Int) ≤ 2147483647 → to_int 3450 = 3450) := by
  have hecho : (KHDG800_initial []).k_.getcmdstr_ ++ "oplevel".toList
      = '.' :: "oplevel".toList := rfl
  have hblank : " \t\n".toList.contains '.' = false := by decide
  have hp : ∀ m, (tuner_port identity_output ".oplevel".toList 1500 3500).reply
      ((tuner_port identity_output ".oplevel".toList 1500 3500).log.length + m) =
      tuner_reply identity_output ((KHDG800_initial []).k_.getcmdstr_ ++ "oplevel".toList)
        1500 3500 m := fun m => by
    show tuner_reply identity_output ".oplevel".toList 1500 3500 (0 + m) = _
    rw [Nat.zero_add]; rfl
  obtain ⟨hlow, hhigh⟩ := tuner_levels identity_output (KHDG800_initial []).k_ "thr".toList
    "oplevel".toList 1500 3500 (tuner_port identity_output ".oplevel".toList 1500 3500)
    '.' "oplevel".toList hecho hblank hp
  have hturn := tuner_turn identity_output (KHDG800_initial []).k_ "thr".toList
    "oplevel".toList 1500 3500 (tuner_port identity_output ".oplevel".toList 1500 3500)
    '.' "oplevel".toList hecho hblank hp 0
  have e1 : tuner_thr identity_output (tuner_midop identity_output 1500 3500) 3500 (0 + 1)
      = to_int (3500 + -50) := by decide
  have e2 : clamp_long (identity_output (to_int (3500 + -50))) = 3450 := by decide
  rw [e1, e2, show tuner_log identity_output (KHDG800_initial []).k_ "thr".toList
      "oplevel".toList (tuner_midop identity_output 1500 3500) 3500 0 = [] from rfl,
    List.append_nil] at hturn
  have hq : tuner_log identity_output (KHDG800_initial []).k_ "thr".toList
      "oplevel".toList (tuner_midop identity_output 1500 3500) 3500 (0 + 1) =
      NumericSet_plan (KHDG800_initial []).k_ "thr".toList (to_int (3500 + -50)) ++
        NumericGet_plan (KHDG800_initial []).k_ "oplevel".toList := by
    show [] ++ (NumericSet_plan _ _ (tuner_thr identity_output
      (tuner_midop identity_output 1500 3500) 3500 (0 + 1)) ++ _) = _
    rw [e1, List.nil_append]
  rw [hq, ← List.append_assoc] at hturn
  exact (tune_adjustment (KHDG800_initial []).k_ "thr".toList "oplevel".toList 1500 3500 63
    (tuner_port identity_output ".oplevel".toList 1500 3500) _ _ _ _
    (identity_output 1500) (identity_output 3500) 2500 3500 3500 1000 (-50) 3450
    hlow hhigh (by decide) (by decide) (by decide) (by decide) (by decide) (by decide)
    (by decide) hturn.1 hturn.2).2

/-- C25: `MM::AfterSet` of `KSE::OnWidth` for a requested width whose lookup yields the
achievable width `physical` and the code `raw`.  The handler runs `NumericGet` on the
width token, not `NumericSet`: it returns or throws having performed the first
operations of a get transaction, whose only send is the get operator followed by the
token, so the command `raw` with the set operator is not transmitted.  When the get
transaction succeeds and delivers `v`, the handler caches `v`, the answer of the
device, in `width_`, and not `physical`. -/
theorem KSE_OnWidth_AfterSet_queries (w physical raw : Int) (d : Dev) (p : Port)
    (hcal : doCalibration d.calibrated_ w d.real_widths d.width_settings
      = some (physical, raw)) :
    (∃ h j, (KSE_OnWidth .AfterSet w d p = .ok h ∨ KSE_OnWidth .AfterSet w d p = .threw h) ∧
      h.port = { p with log := p.log ++ (NumericGet_plan d.k_ d.widthstr_).take j }) ∧
    (∀ v q, NumericGet d.k_ d.widthstr_ p = .ok (DEVICE_OK, some v, q) →
      KSE_OnWidth .AfterSet w d p =
        .ok { ret := DEVICE_OK, dev := { d with width_ := v }, port := q, prop := v }) := by
  refine ⟨?_, ?_⟩
  · obtain ⟨j, _, hport⟩ := NumericGet_port d.k_ d.widthstr_ p
    cases hget : NumericGet d.k_ d.widthstr_ p with
    | ok r =>
      obtain ⟨ret, written, q⟩ := r
      rw [hget] at hport
      simp only [Outcome.port?, Option.some.injEq] at hport
      by_cases hret : ret = DEVICE_OK
      · refine ⟨⟨ret, { d with width_ := written.getD physical }, q, written.getD physical⟩,
          j, Or.inl ?_, hport⟩
        simp only [KSE_OnWidth, reduceCtorEq, if_false, if_true, hcal, hget, hret]
      · refine ⟨{ ret := ret, dev := d, port := q, prop := w }, j, Or.inl ?_, hport⟩
        simp only [KSE_OnWidth, reduceCtorEq, if_false, if_true, hcal, hget, hret]
    | threw r =>
      obtain ⟨ret, written, q⟩ := r
      rw [hget] at hport
      simp only [Outcome.port?, Option.some.injEq] at hport
      refine ⟨{ ret := DEVICE_OK, dev := d, port := q, prop := w }, j, Or.inr ?_, hport⟩
      simp only [KSE_OnWidth, reduceCtorEq, if_false, if_true, hcal, hget]
    | undef => rw [hget] at hport; exact absurd hport (by simp [Outcome.port?])
    | timeout => rw [hget] at hport; exact absurd hport (by simp [Outcome.port?])
  · intro v q hget
    simp only [KSE_OnWidth, reduceCtorEq, if_false, if_true, hcal, hget, Option.getD_some]

/-- Witness of C25: a `KSE` after `Initialize()` is asked for the width `300` while the
device reports the width `511`; the operations performed are those of the get
transaction and `width_` becomes `511`. -/
theorem KSE_OnWidth_AfterSet_queries_witness :
    KSE_OnWidth .AfterSet 300 (KSE_initial []) (port_answering ".width511") =
      .ok { ret := DEVICE_OK, dev := { KSE_initial [] with width_ := 511 },
            port := { port_answering ".width511" with
              log := [PortOp.purge, PortOp.send ".width".toList "\r".toList,
                PortOp.receive "\r".toList, PortOp.receive "\r".toList] },
            prop := 511 } :=
  (KSE_OnWidth_AfterSet_queries 300 300 300 (KSE_initial []) (port_answering ".width511")
    (by simp [doCalibration, KSE_initial, KHDG800_initial, round25_eq, to_int])).2 511 _ rfl

/-- C26: the toggle commands of `KHDG::SetupHDG`, on a port where the purge and the
first four toggle transactions succeed with their echo.  The impedance, the polarity
and the attenuation are sent as `+` or `-` followed by their token, `+` when the
option is true.  The coupling is not: its command is the empty string when
`triggerDC_` is true and `-` alone when it is false, and the token of the coupling
does not occur in it. -/
theorem SetupHDG_toggle_commands (d : Dev) (p : Port) (c1 c2 c3 c4 c5 : Str)
    (h1 : c1 = if d.eightyMhz_ then "80MHZ".toList else "40MHZ".toList)
    (h2 : c2 = (if d.fiftyOhmInput_ then '+' else '-') :: d.impedancestr_)
    (h3 : c3 = (if d.polarityPositive_ then '+' else '-') :: d.polstr_)
    (h4 : c4 = (if d.triggerAttenuated_ then '+' else '-') :: d.attenuationstr_)
    (h5 : c5 = if d.triggerDC_ then [] else "-".toList)
    (hcodes : ∀ i, i < 13 → (p.reply (p.log.length + i)).1 = DEVICE_OK)
    (he1 : (p.reply (p.log.length + 2)).2 = c1 ++ "  ok".toList)
    (he2 : (p.reply (p.log.length + 5)).2 = c2 ++ "  ok".toList)
    (he3 : (p.reply (p.log.length + 8)).2 = c3 ++ "  ok".toList)
    (he4 : (p.reply (p.log.length + 11)).2 = c4 ++ "  ok".toList) :
    (SetupHDG_options d p).2.log.take (p.log.length + 14) =
      p.log ++ [PortOp.purge] ++ ToggleSet_plan c1 ++ ToggleSet_plan c2 ++ ToggleSet_plan c3
        ++ ToggleSet_plan c4 ++ [PortOp.send c5 "\r".toList] := by
  have hpair : ∀ i, i < 13 → ∀ s, (p.reply (p.log.length + i)).2 = s →
      p.reply (p.log.length + i) = (DEVICE_OK, s) := by
    intro i hi s hs
    rw [← hcodes i hi, ← hs]
  have hc5 : (if d.triggerDC_ = true then literal_plus "+".toList d.triggerDC_
      else literal_plus "-".toList d.triggerDC_) = c5 := by
    rw [h5]
    cases d.triggerDC_ <;> rfl
  have e0 := hcodes 0 (by omega)
  simp only [Nat.add_zero] at e0
  simp only [SetupHDG_options, PurgeComPort, e0, ne_eq, not_true_eq_false, if_false,
    sign_command, ← h1, ← h2, ← h3, ← h4, hc5]
  have t1 := ToggleSet_ok d.k_ c1 { p with log := p.log ++ [PortOp.purge] }
    (by simpa using hcodes 1 (by omega))
    (by simpa [Nat.add_assoc] using hpair 2 (by omega) _ he1)
    (by simpa [Nat.add_assoc] using hcodes 3 (by omega))
  rw [t1]
  simp only [ne_eq, not_true_eq_false, if_false]
  have t2 := ToggleSet_ok d.k_ c2
    { p with log := p.log ++ [PortOp.purge] ++ ToggleSet_plan c1 }
    (by simpa [ToggleSet_plan, Nat.add_assoc] using hcodes 4 (by omega))
    (by simpa [ToggleSet_plan, Nat.add_assoc] using hpair 5 (by omega) _ he2)
    (by simpa [ToggleSet_plan, Nat.add_assoc] using hcodes 6 (by omega))
  rw [t2]
  simp only [ne_eq, not_true_eq_false, if_false]
  have t3 := ToggleSet_ok d.k_ c3
    { p with log := p.log ++ [PortOp.purge] ++ ToggleSet_plan c1 ++ ToggleSet_plan c2 }
    (by simpa [ToggleSet_plan, Nat.add_assoc] using hcodes 7 (by omega))
    (by simpa [ToggleSet_plan, Nat.add_assoc] using hpair 8 (by omega) _ he3)
    (by simpa [ToggleSet_plan, Nat.add_assoc] using hcodes 9 (by omega))
  rw [t3]
  simp only [ne_eq, not_true_eq_false, if_false]
  have t4 := ToggleSet_ok d.k_ c4
    { p with log := p.log ++ [PortOp.purge] ++ ToggleSet_plan c1 ++ ToggleSet_plan c2
        ++ ToggleSet_plan c3 }
    (by simpa [ToggleSet_plan, Nat.add_assoc] using hcodes 10 (by omega))
    (by simpa [ToggleSet_plan, Nat.add_assoc] using hpair 11 (by omega) _ he4)
    (by simpa [ToggleSet_plan, Nat.add_assoc] using hcodes 12 (by omega))
  rw [t4]
  simp only [ne_eq, not_true_eq_false, if_false]
  have t5 := ToggleSet_sends d.k_ c5
    { p with log := p.log ++ [PortOp.purge] ++ ToggleSet_plan c1 ++ ToggleSet_plan c2
        ++ ToggleSet_plan c3 ++ ToggleSet_plan c4 }
  have hlen : ({ p with log := p.log ++ [PortOp.purge] ++ ToggleSet_plan c1 ++ ToggleSet_plan c2
        ++ ToggleSet_plan c3 ++ ToggleSet_plan c4 } : Port).log.length + 1
      = p.log.length + 14 := by
    simp [ToggleSet_plan]
  rw [hlen] at t5
  split_ifs
  · exact t5
  · exact t5

/-- Witness of C26: a `KHDG` after its constructor, for which `triggerDC_` is true; the
command sent for the coupling is the empty string, where `+TDC` is expected. -/
theorem SetupHDG_toggle_commands_witness :
    (SetupHDG_options (KHDG_initial []) KHDG_port).2.log.take (KHDG_port.log.length + 14) =
      KHDG_port.log ++ [PortOp.purge] ++ ToggleSet_plan "80MHZ".toList ++
        ToggleSet_plan "+T50".toList ++ ToggleSet_plan "-TPL".toList ++
        ToggleSet_plan "-TAT".toList ++ [PortOp.send [] "\r".toList] :=
  SetupHDG_toggle_commands (KHDG_initial []) KHDG_port "80MHZ".toList "+T50".toList
    "-TPL".toList "-TAT".toList [] rfl rfl rfl rfl rfl
    (by intro i hi; interval_cases i <;> rfl) rfl rfl rfl rfl

/-- C27: `MM::AfterSet` of `KHRI::OnWidth` for the gate width `w = 100 * m` ps with
`m` from `2` to `10`.  The command sent is the decimal form of `w / 10`, the set
operator and the mode token: the payload is `10 * m`, from `20` to `100`, and not the
comb mode number `m = w / 100`. -/
theorem KHRI_OnWidth_payload (m : Nat) (hm : 2 ≤ m ∧ m ≤ 10) (d : Dev) (p : Port) :
    (KHRI_OnWidth .AfterSet (lexical_cast ((100 * m : Nat) : Int)) d p).port.log.take
        (p.log.length + 1) =
      p.log ++ [PortOp.send (lexical_cast ((10 * m : Nat) : Int) ++ d.k_.setcmdstr_ ++ d.modestr_)
        d.k_.termstr_] ∧
    (KHRI_OnWidth .AfterSet (lexical_cast ((100 * m : Nat) : Int)) d p).dev.width_
      = ((100 * m : Nat) : Int) ∧
    lexical_cast ((10 * m : Nat) : Int) ≠ lexical_cast ((m : Nat) : Int) := by
  have hw : atoi (c_str (lexical_cast ((100 * m : Nat) : Int))) = ((100 * m : Nat) : Int) := by
    rw [lexical_cast_nat, c_str_digits _ (toDigits_all _), ← lexical_cast_nat,
      atoi_lexical_cast]
  have hdiv : Int.tdiv ((100 * m : Nat) : Int) 10 = ((10 * m : Nat) : Int) := by
    have : ((100 * m : Nat) : Int) = ((10 * m : Nat) : Int) * 10 := by push_cast; ring
    rw [this, Int.mul_tdiv_cancel _ (by norm_num)]
  refine ⟨?_, ?_, ?_⟩
  · simp only [KHRI_OnWidth, reduceCtorEq, if_false, if_true, KHRI_set_eq, hw, hdiv]
    rw [NumericSet_cases]
    split_ifs <;> simp [NumericSet_plan, List.take_append_eq_append_take]
  · simp only [KHRI_OnWidth, reduceCtorEq, if_false, if_true, KHRI_set_eq, hw]
  · intro h
    have h1 := congrArg atoi h
    rw [atoi_lexical_cast, atoi_lexical_cast] at h1
    have : (10 * m : Nat) = m := by exact_mod_cast h1
    omega

/-- Witness of C27: the width `200` ps on a `KHRI` after `Initialize()` in comb mode;
the command sent is `20 !MODE`. -/
theorem KHRI_OnWidth_payload_witness :
    (KHRI_OnWidth .AfterSet "200".toList (KHRI_initial 2) port_ok).port.log.take 1 =
        [PortOp.send "20 !MODE".toList "\r".toList] ∧
      (KHRI_OnWidth .AfterSet "200".toList (KHRI_initial 2) port_ok).dev.width_ = 200 ∧
      "20".toList ≠ "2".toList :=
  KHRI_OnWidth_payload 2 (by decide) (KHRI_initial 2) port_ok

/-- C28: the final acknowledgement line of `KUtils::NumericGet`, read after an echoed
first answer on a port where every operation succeeds.  For a line of at least three
characters that does not end with ` ok` the function returns the invalid-response
code.  For the empty line and for every line shorter than three characters the
position `answer.size() - 3` wraps around, `substr` throws `std::out_of_range` and the
function does not return. -/
theorem NumericGet_short_acknowledgement (k : KUtils) (cmd : Str) (p : Port)
    (line1 rest line2 : Str)
    (hpurge : (p.reply p.log.length).1 = DEVICE_OK)
    (hsend : (p.reply (p.log.length + 1)).1 = DEVICE_OK)
    (hrecv1 : p.reply (p.log.length + 2) = (DEVICE_OK, line1))
    (htrim : trim line1 " \t\n".toList = k.getcmdstr_ ++ cmd ++ rest)
    (hrecv2 : p.reply (p.log.length + 3) = (DEVICE_OK, line2)) :
    (line2.length < 3 →
      NumericGet k cmd p = .threw (DEVICE_OK, extract_long rest,
        { p with log := p.log ++ NumericGet_plan k cmd })) ∧
    (3 ≤ line2.length → line2.length < size_t_modulus →
      line2.drop (line2.length - 3) ≠ " ok".toList →
      NumericGet k cmd p = .ok (DEVICE_SERIAL_INVALID_RESPONSE,
        extract_long rest,
        { p with log := p.log ++ NumericGet_plan k cmd })) := by
  rw [NumericGet_echoed k cmd p line1 _ hpurge hsend hrecv1 htrim, hrecv2]
  simp only [ne_eq, not_true_eq_false, if_false]
  refine ⟨?_, ?_⟩
  · intro hshort
    rw [substr_tail_short _ hshort, orThrow_none]
  · intro h3 hsize hne
    rw [substr_tail _ h3 hsize, orThrow_some]
    simp only [ne_eq, hne, not_false_eq_true, if_true]

/-- Witness of C28: after the answer `DEL1500`, the acknowledgement `ok` without its
leading space, and the acknowledgement `nak`. -/
theorem NumericGet_short_acknowledgement_witness :
    NumericGet k_plain "DEL".toList (port_script [(0, ""), (0, ""), (0, "DEL1500"), (0, "ok")]) =
        .threw (DEVICE_OK, extract_long "1500".toList,
          { port_script [(0, ""), (0, ""), (0, "DEL1500"), (0, "ok")] with
            log := (port_script [(0, ""), (0, ""), (0, "DEL1500"), (0, "ok")]).log ++
              NumericGet_plan k_plain "DEL".toList }) ∧
      NumericGet k_plain "DEL".toList
          (port_script [(0, ""), (0, ""), (0, "DEL1500"), (0, "nak")]) =
        .ok (DEVICE_SERIAL_INVALID_RESPONSE, extract_long "1500".toList,
          { port_script [(0, ""), (0, ""), (0, "DEL1500"), (0, "nak")] with
            log := (port_script [(0, ""), (0, ""), (0, "DEL1500"), (0, "nak")]).log ++
              NumericGet_plan k_plain "DEL".toList }) :=
  ⟨(NumericGet_short_acknowledgement k_plain "DEL".toList
      (port_script [(0, ""), (0, ""), (0, "DEL1500"), (0, "ok")]) "DEL1500".toList
      "1500".toList "ok".toList rfl rfl rfl (by decide) rfl).1 (by decide),
    (NumericGet_short_acknowledgement k_plain "DEL".toList
      (port_script [(0, ""), (0, ""), (0, "DEL1500"), (0, "nak")]) "DEL1500".toList
      "1500".toList "nak".toList rfl rfl rfl (by decide) rfl).2 (by decide) (by decide)
      (by decide)⟩

/-- C29: a calibration file that can be opened, in which the first `Delay (ps)` header
line is followed by a newline-terminated line whose first field is not a number, so
that the block has no data rows.  `fill_vectors` then returns the position `0`,
`seekg` rewinds the stream to the start of the file and the header is read again:
`PopulateCalibrationVectors` of `KHDG`, `KHDG800` and `KSDB` runs out of every amount
of fuel, and so does `KSE::PopulateCalibrationVectors` when the file has no width or
MCP header. -/
theorem PopulateCalibrationVectors_empty_block_loops (fs : FileSystem) (path : Str)
    (pre : List Str) (hdr x : Str) (post : List Str) (term : Bool)
    (hfile : fs (c_str path) = some ⟨pre ++ hdr :: x :: post, term⟩)
    (hpre : ∀ l ∈ pre, field0 l ≠ delayHeader) (hhdr : field0 hdr = delayHeader)
    (hx : is_number (field0 x) = false) (hnl : post ≠ [] ∨ term = true) :
    (∀ fuel ds rd, PopulateCalibrationVectors fuel fs path ds rd = .timeout) ∧
      ((∀ l ∈ pre ++ hdr :: x :: post,
          field0 l ≠ "Width (ps)".toList ∧ field0 l ≠ "MCP (V)".toList) →
        ∀ fuel d, KSE_PopulateCalibrationVectors fuel fs path d = .timeout) := by
  refine ⟨?_, ?_⟩
  · intro fuel ds rd
    simp only [PopulateCalibrationVectors, hfile, IfStream.opened]
    rw [populate_loop_rewinds_forever pre hdr x post term ds rd hpre hhdr hx hnl fuel []]
  · intro hno fuel d
    simp only [KSE_PopulateCalibrationVectors, hfile, IfStream.opened]
    rw [KSE_populate_loop_eq fuel d _ [] hno,
      populate_loop_rewinds_forever pre hdr x post term _ _ hpre hhdr hx hnl fuel []]
    rfl

/-- Witness of C29: the file of the two lines `Delay (ps),` and `x`. -/
theorem PopulateCalibrationVectors_empty_block_loops_witness :
    (∀ fuel ds rd, PopulateCalibrationVectors fuel
        (fun _ => some ⟨["Delay (ps),".toList, "x".toList], true⟩) [] ds rd = .timeout) ∧
      ((∀ l ∈ [] ++ "Delay (ps),".toList :: "x".toList :: [],
          field0 l ≠ "Width (ps)".toList ∧ field0 l ≠ "MCP (V)".toList) →
        ∀ fuel d, KSE_PopulateCalibrationVectors fuel
          (fun _ => some ⟨["Delay (ps),".toList, "x".toList], true⟩) [] d = .timeout) :=
  PopulateCalibrationVectors_empty_block_loops
    (fun _ => some ⟨["Delay (ps),".toList, "x".toList], true⟩) [] []
    "Delay (ps),".toList "x".toList [] true rfl (by simp) (by decide) (by decide)
    (Or.inr rfl)

end Kentech
